import Mathlib

/-!
Anabatic global routing toolbox: the GCell index and the topology primitives.

A shallow embedding of `anabatic/src/AnabaticEngine.cpp` and of the unit
configuration of `hurricane/src/hurricane/DbU.cpp`.

* Coordinates (`DbU::Unit`) are unbounded integers; the only arithmetic the
  embedded code performs on them is a comparison, a `min`/`max` and a
  decrement by one.
* C++ object identity (a `GCell*`, an `Edge*`, a `Segment*`, a `Contact*`) is a
  natural number.  Segments and components live in arenas (lists of optional
  slots), so that an object created by the engine gets the first unused index.
* The GCell mesh (matrix look-up, `GCell::getEdgeAt`, the tile boxes) is a
  parameter of every definition: `Mesh`.
* A loop that the C++ runs until a pointer comparison succeeds takes a fuel
  argument; running out of fuel is the fault `outOfFuel`.
* The engine object (`AnabaticEngine`) holds the state, the flags and the
  tables of the C++ class; `NetData` objects live in a pool, and the two net
  containers hold positions in that pool where the C++ holds pointers.
* The hooks on the ring of a contact are derived from the anchors of the live
  segments and from the components recorded as attached to the contact.
* A `double` of `hurricane/DbU.cpp` is a rational number, an infinity or a
  NaN; `rint` and `remainder`, the only operations made on it, are exact.  A
  character buffer is a list of characters.
-/

namespace Anabatic

/-! ## Geometry -/

/-- A Hurricane `Point`. -/
structure Point where
  x : Int
  y : Int
deriving DecidableEq, Repr

/-- A Hurricane `Box`, given by its four sides. -/
structure Box where
  xMin : Int
  yMin : Int
  xMax : Int
  yMax : Int
deriving DecidableEq, Repr

/-- Membership of a point in a box read left-closed, right-open. -/
def Box.containsHalfOpen (b : Box) (x y : Int) : Prop :=
  b.xMin ≤ x ∧ x < b.xMax ∧ b.yMin ≤ y ∧ y < b.yMax

instance (b : Box) (x y : Int) : Decidable (b.containsHalfOpen x y) := by
  unfold Box.containsHalfOpen; infer_instance

/-- The centre of a box, `Box::getCenter()` (C++ integer division). -/
def Box.getCenter (b : Box) : Point :=
  ⟨Int.tdiv (b.xMin + b.xMax) 2, Int.tdiv (b.yMin + b.yMax) 2⟩

/-- The side flags handed to `GCell::getEdgeAt`. -/
inductive Side where
  | WestSide
  | EastSide
  | SouthSide
  | NorthSide
deriving DecidableEq, Repr

/-! ## Mesh -/

/-- An `Edge` of the GCell graph: its identity and the two tiles it joins
(`getSource()`, `getTarget()`). -/
structure Edge where
  id : Nat
  source : Nat
  target : Nat
deriving DecidableEq, Repr

/-- The static part of the engine seen by the index: the abutment box of the
cell, the matrix look-up `getGCellUnder`, `GCell::getEdgeAt` and the box of
each tile.  The matrix and the GCell class are not part of the embedded file,
so they are taken as parameters. -/
structure Mesh where
  area : Box
  getGCellUnder : Int → Int → Option Nat
  getEdgeAt : Nat → Side → Int → Option Edge
  box : Nat → Box

/-! ## Segments as the index reads them -/

/-- What `RawGCellsUnder` reads of a Hurricane segment.  A `Horizontal` has an
ordinate `getY()` shared by its two ends and the abscissas `getSourceX()`,
`getTargetX()`; a `Vertical` is the transpose.  `other` stands for a
`Segment*` on which both `dynamic_cast`s fail. -/
inductive SegmentGeom where
  | horizontal (y sourceX targetX : Int)
  | vertical (x sourceY targetY : Int)
  | other (source target : Point)
deriving DecidableEq, Repr

/-- The position of the source end, `Segment::getSourcePosition()`. -/
def SegmentGeom.getSourcePosition : SegmentGeom → Point
  | .horizontal y sourceX _ => ⟨sourceX, y⟩
  | .vertical x sourceY _ => ⟨x, sourceY⟩
  | .other source _ => source

/-- The position of the target end, `Segment::getTargetPosition()`. -/
def SegmentGeom.getTargetPosition : SegmentGeom → Point
  | .horizontal y _ targetX => ⟨targetX, y⟩
  | .vertical x _ targetY => ⟨x, targetY⟩
  | .other _ target => target

/-- True on a `Horizontal`. -/
def SegmentGeom.isHorizontal : SegmentGeom → Bool
  | .horizontal _ _ _ => true
  | _ => false

/-- True on a `Vertical`. -/
def SegmentGeom.isVertical : SegmentGeom → Bool
  | .vertical _ _ _ => true
  | _ => false

/-! ## RawGCellsUnder -/

/-- One element of the index answer: a tile and the edge leaving it, if any. -/
structure Element where
  gcell : Nat
  edge : Option Edge
deriving DecidableEq, Repr

/-- The message the constructor prints before giving up. -/
inductive Diagnostic where
  | outsideArea
  | sourceNotUnder
  | targetNotUnder
deriving DecidableEq, Repr

/-- The ways in which the embedded C++ fails to return: the fuel of a loop is
exhausted, a null or dangling pointer is dereferenced, the Hurricane database
throws, a vector is indexed past its end. -/
inductive Fault where
  | outOfFuel
  | nullDeref
  | exception
  | outOfRange
deriving DecidableEq, Repr

/-- The object built by the constructor: the element vector and the message
printed, if any. -/
structure RawGCellsUnder where
  elements : List Element
  diagnostic : Option Diagnostic
deriving DecidableEq, Repr

/-- The test of lines 82-85: the segment is declared completely outside of the
GCells area. -/
def RawGCellsUnder.isOutside (gcellsArea : Box) (sourcePosition targetPosition : Point) : Bool :=
  decide (sourcePosition.x > gcellsArea.xMax)
    || decide (sourcePosition.y > gcellsArea.yMax)
    || decide (targetPosition.x ≤ gcellsArea.xMin)
    || decide (targetPosition.y ≤ gcellsArea.yMin)

/-- The four coordinates of lines 94-97, before the decrement. -/
structure Clamped where
  xsource : Int
  ysource : Int
  xtarget : Int
  ytarget : Int
deriving DecidableEq, Repr

/-- Lines 94-97: the `std::max` / `std::min` against the abutment box. -/
def RawGCellsUnder.clamp (gcellsArea : Box) (sourcePosition targetPosition : Point) : Clamped :=
  { xsource := max sourcePosition.x gcellsArea.xMin
    ysource := max sourcePosition.y gcellsArea.yMin
    xtarget := min targetPosition.x gcellsArea.xMax
    ytarget := min targetPosition.y gcellsArea.yMax }

/-- Lines 99-100: the two decrements, giving the coordinates handed to
`getGCellUnder`. -/
def RawGCellsUnder.lookupCoordinates (gcellsArea : Box) (c : Clamped) : Clamped :=
  { xsource := c.xsource
    ysource := c.ysource
    xtarget := if c.xtarget = gcellsArea.xMax then c.xtarget - 1 else c.xtarget
    ytarget := if c.ytarget = gcellsArea.yMax then c.ytarget - 1 else c.ytarget }

/-- The conditional `std::swap( gsource, gtarget )` of lines 136-137 and
143-144. -/
def swapIf (swap : Bool) (ends : Nat × Nat) : Nat × Nat :=
  if swap then (ends.2, ends.1) else ends

/-- The loop of lines 147-154, entered with the result of the first
`getEdgeAt`: each edge met is pushed with its source tile, the loop stops on
the edge whose target is `gtarget` or when there is no edge, and
`(gtarget, NULL)` is pushed last. -/
def RawGCellsUnder.walk (m : Mesh) (side : Side) (axis : Int) (gtarget : Nat) :
    Nat → Option Edge → Except Fault (List Element)
  | _, none => .ok [⟨gtarget, none⟩]
  | 0, some _ => .error .outOfFuel
  | fuel + 1, some edge =>
    if edge.target = gtarget then
      .ok [⟨edge.source, some edge⟩, ⟨gtarget, none⟩]
    else
      match RawGCellsUnder.walk m side axis gtarget fuel (m.getEdgeAt edge.target side axis) with
      | .ok rest => .ok (⟨edge.source, some edge⟩ :: rest)
      | .error f => .error f

set_option linter.dupNamespace false in
/-- The constructor `RawGCellsUnder::RawGCellsUnder(engine, segment)`.  On a
segment that is neither a `Horizontal` nor a `Vertical` and whose two tiles
differ, line 141 reads `getX()` through the null result of the second
`dynamic_cast`. -/
def RawGCellsUnder.RawGCellsUnder (fuel : Nat) (m : Mesh) (segment : SegmentGeom) :
    Except Fault RawGCellsUnder :=
  let gcellsArea := m.area
  let sourcePosition := segment.getSourcePosition
  let targetPosition := segment.getTargetPosition
  if RawGCellsUnder.isOutside gcellsArea sourcePosition targetPosition then
    .ok ⟨[], some .outsideArea⟩
  else
    let c := RawGCellsUnder.lookupCoordinates gcellsArea
      (RawGCellsUnder.clamp gcellsArea sourcePosition targetPosition)
    match m.getGCellUnder c.xsource c.ysource, m.getGCellUnder c.xtarget c.ytarget with
    | none, _ => .ok ⟨[], some .sourceNotUnder⟩
    | some _, none => .ok ⟨[], some .targetNotUnder⟩
    | some gsource, some gtarget =>
      if gsource = gtarget then
        .ok ⟨[⟨gsource, none⟩], none⟩
      else
        match segment with
        | .horizontal y sourceX targetX =>
          let ends := swapIf (decide (sourceX > targetX)) (gsource, gtarget)
          match RawGCellsUnder.walk m .EastSide y ends.2 fuel
              (m.getEdgeAt ends.1 .EastSide y) with
          | .ok elements => .ok ⟨elements, none⟩
          | .error f => .error f
        | .vertical x sourceY targetY =>
          let ends := swapIf (decide (sourceY > targetY)) (gsource, gtarget)
          match RawGCellsUnder.walk m .NorthSide x ends.2 fuel
              (m.getEdgeAt ends.1 .NorthSide x) with
          | .ok elements => .ok ⟨elements, none⟩
          | .error f => .error f
        | .other _ _ => .error .nullDeref

/-! ## A regular mesh -/

/-- Modelled from the spec: the mesh of the end-to-end scenarios, `nx` by `ny`
square tiles of side `w` with origin `(0,0)`; the matrix and the GCell class
are not part of the embedded file.  Tile `(i,j)` has number `i + nx * j`, its
east edge number `2 * (i + nx * j)` and its north edge the next odd number. -/
def gridMesh (nx ny : Nat) (w : Int) : Mesh where
  area := ⟨0, 0, nx * w, ny * w⟩
  getGCellUnder := fun x y =>
    if 0 ≤ x ∧ x < nx * w ∧ 0 ≤ y ∧ y < ny * w then
      some ((x / w).toNat + nx * (y / w).toNat)
    else none
  getEdgeAt := fun g side axis =>
    match side with
    | .EastSide =>
      if g % nx + 1 < nx ∧ g / nx < ny ∧ (g / nx : Nat) * w ≤ axis ∧ axis < ((g / nx : Nat) + 1) * w then
        some ⟨2 * g, g, g + 1⟩
      else none
    | .NorthSide =>
      if g / nx + 1 < ny ∧ 0 < nx ∧ (g % nx : Nat) * w ≤ axis ∧ axis < ((g % nx : Nat) + 1) * w then
        some ⟨2 * g + 1, g, g + nx⟩
      else none
    | _ => none
  box := fun g =>
    ⟨(g % nx : Nat) * w, (g / nx : Nat) * w, ((g % nx : Nat) + 1) * w, ((g / nx : Nat) + 1) * w⟩

/-! ## Engine state -/

/-- The classes of component a hook ring may hold besides segments. -/
inductive ComponentKind where
  | contact
  | routingPad
  | otherComponent
deriving DecidableEq, Repr

/-- A Hurricane component that anchors segment ends: a contact or a routing
pad, with its net and position. -/
structure Component where
  kind : ComponentKind
  net : Nat
  x : Int
  y : Int
deriving DecidableEq, Repr

/-- The dynamic class of a `Segment*`. -/
inductive SegmentKind where
  | horizontal
  | vertical
  | other
deriving DecidableEq, Repr

/-- A Hurricane segment: its class, its net, the components its source and
target hooks are attached to (`getSource()`, `getTarget()`, `none` when the
hook is detached) and its axis (`getY()` of a `Horizontal`, `getX()` of a
`Vertical`). -/
structure Segment where
  kind : SegmentKind
  net : Nat
  source : Option Nat
  target : Option Nat
  axis : Int
deriving DecidableEq, Repr

/-- The mutable part of an `Edge`: its load and the segments crossing it. -/
structure EdgeState where
  load : Nat
  segments : List Nat
deriving DecidableEq, Repr

/-- The mutable state the primitives work on: the components and segments of
the Hurricane database (arenas indexed by identity, `none` once destroyed),
the global contacts of each tile, the reference count of each global contact,
the state of each edge and, for each contact, the components other than
segments (routing pads, contacts) whose hook is attached to its body hook. -/
structure EngineState where
  components : List (Option Component)
  segments : List (Option Segment)
  gcontacts : Nat → List Nat
  refCount : Nat → Nat
  edges : Nat → EdgeState
  attached : Nat → List Nat := fun _ => []

/-- The live component with identity `c`. -/
def EngineState.component (st : EngineState) (c : Nat) : Option Component :=
  (st.components[c]?).join

/-- The live segment with identity `s`. -/
def EngineState.segment (st : EngineState) (s : Nat) : Option Segment :=
  (st.segments[s]?).join

/-- Modelled from the spec: the Hurricane segment classes are not part of the
embedded file; "endpoints are two `Contact`s (or pads), bound to hooks", so an
end lies at the position of the component its hook is attached to (at the
origin when it is attached to none). -/
def EngineState.anchorPosition (st : EngineState) (anchor : Option Nat) : Point :=
  match anchor.bind st.component with
  | some c => ⟨c.x, c.y⟩
  | none => ⟨0, 0⟩

/-- Modelled from the spec: the geometry of a segment in a state, as read by
the index through `getSourcePosition()`, `getTargetPosition()`, `getY()`,
`getSourceX()`, ...: the axis is the segment's own, the coordinates along the
direction are those of the anchors. -/
def EngineState.geom (st : EngineState) (seg : Segment) : SegmentGeom :=
  match seg.kind with
  | .horizontal =>
    .horizontal seg.axis (st.anchorPosition seg.source).x (st.anchorPosition seg.target).x
  | .vertical =>
    .vertical seg.axis (st.anchorPosition seg.source).y (st.anchorPosition seg.target).y
  | .other => .other (st.anchorPosition seg.source) (st.anchorPosition seg.target)

/-- Modelled from the spec: `GCell::getGContact(net)` "returns (creating if
absent) the tile-local anchor contact for `net`; increments refcount on
return".  The GCell class is not part of the embedded file.  A contact
created here is placed at the centre of the tile. -/
def GCell.getGContact (m : Mesh) (st : EngineState) (gcell net : Nat) : Nat × EngineState :=
  match (st.gcontacts gcell).find? (fun c => (st.component c).map (·.net) == some net) with
  | some c =>
    (c, { st with refCount := Function.update st.refCount c (st.refCount c + 1) })
  | none =>
    let c := st.components.length
    let center := (m.box gcell).getCenter
    (c, { st with
            components := st.components ++ [some ⟨.contact, net, center.x, center.y⟩]
            gcontacts := Function.update st.gcontacts gcell (st.gcontacts gcell ++ [c])
            refCount := Function.update st.refCount c 1 })

/-- The first reference to `orig` in a segment list becomes `repl`. -/
def replaceFirst (orig repl : Nat) : List Nat → List Nat
  | [] => []
  | s :: rest => if s = orig then repl :: rest else s :: replaceFirst orig repl rest

/-- Modelled from the spec: `Edge::replace(orig, repl)`, by which an edge "has
its reference to `segment` replaced by the new segment, preserving load
invariants".  The Edge class is not part of the embedded file. -/
def Edge.replace (st : EngineState) (edge : Edge) (orig repl : Nat) : EngineState :=
  let old := st.edges edge.id
  let new : EdgeState := ⟨old.load, replaceFirst orig repl old.segments⟩
  { st with edges := Function.update st.edges edge.id new }

/-- The statements `segment->getTargetHook()->detach()` followed by
`segment->getTargetHook()->attach( anchor->getBodyHook() )`: afterwards
`getTarget()` is `anchor`. -/
def EngineState.retarget (st : EngineState) (s : Nat) (seg : Segment) (anchor : Nat) :
    EngineState :=
  let detached := { st with segments := st.segments.set s (some { seg with target := none }) }
  { detached with segments := detached.segments.set s (some { seg with target := some anchor }) }

/-- `Horizontal::create` / `Vertical::create( source, target, layer, axis, width )`:
the new segment takes the next free identity and the net of its source. -/
def EngineState.createSegment (st : EngineState) (kind : SegmentKind) (net source target : Nat)
    (axis : Int) : Nat × EngineState :=
  (st.segments.length,
    { st with segments := st.segments ++ [some ⟨kind, net, some source, some target, axis⟩] })

/-- The loop of line 516 over the elements `i .. size-2`:
`gcells->edgeAt(i)->replace( segment, splitted )`. -/
def replaceOnEdges (orig repl : Nat) : List Element → EngineState → Except Fault EngineState
  | [], st => .ok st
  | element :: rest, st =>
    match element.edge with
    | none => .error .nullDeref
    | some edge => replaceOnEdges orig repl rest (Edge.replace st edge orig repl)

/-- The exit taken by `breakAt`: the split was done, the error exit of line 487
(`segment` is not over `breakGCell`), or the exit of line 513 (the segment is
neither horizontal nor vertical). -/
inductive BreakStatus where
  | done
  | notOver
  | unsupportedKind
deriving DecidableEq, Repr

/-- What `breakAt` returns and leaves behind: the contact returned, the state
after the call, the exit taken and the segment created, if any. -/
structure BreakResult where
  breakContact : Nat
  state : EngineState
  status : BreakStatus
  splitted : Option Nat

/-- The primitive `AnabaticEngine::breakAt( segment, breakGCell )`.  A dangling
`segment` is a fault, and so is `create` on a null target anchor, which the
database refuses. -/
def AnabaticEngine.breakAt (fuel : Nat) (m : Mesh) (st : EngineState) (segment breakGCell : Nat) :
    Except Fault BreakResult :=
  match st.segment segment with
  | none => .error .nullDeref
  | some seg =>
    match RawGCellsUnder.RawGCellsUnder fuel m (st.geom seg) with
    | .error f => .error f
    | .ok gcells =>
      let i := gcells.elements.findIdx (fun e => e.gcell == breakGCell)
      let (breakContact, st1) := GCell.getGContact m st breakGCell seg.net
      if i = gcells.elements.length then
        .ok ⟨breakContact, st1, .notOver, none⟩
      else
        let targetContact := seg.target
        let st2 := st1.retarget segment seg breakContact
        match seg.kind, targetContact with
        | .other, _ => .ok ⟨breakContact, st2, .unsupportedKind, none⟩
        | _, none => .error .exception
        | kind, some target =>
          let (splitted, st3) := st2.createSegment kind seg.net breakContact target seg.axis
          match replaceOnEdges segment splitted ((gcells.elements.dropLast).drop i) st3 with
          | .error f => .error f
          | .ok st4 => .ok ⟨breakContact, st4, .done, some splitted⟩

/-! ## States of the end-to-end scenarios -/

/-- The state of scenario 2 on the 10 by 10 mesh: on net 1, contact 0 at
`(50,50)` in tile 0 and contact 1 at `(250,50)` in tile 2, joined by the
horizontal segment 0 which loads the east edges of tiles 0 and 1 (edges 0
and 2). -/
def scenario2 : EngineState where
  components := [some ⟨.contact, 1, 50, 50⟩, some ⟨.contact, 1, 250, 50⟩]
  segments := [some ⟨.horizontal, 1, some 0, some 1, 50⟩]
  gcontacts := fun g => if g = 0 then [0] else if g = 2 then [1] else []
  refCount := fun c => if c = 0 ∨ c = 1 then 1 else 0
  edges := fun e => if e = 0 ∨ e = 2 then ⟨1, [0]⟩ else ⟨0, []⟩

/-- Scenario 2 with the segment drawn westward: its source is contact 1 at
`(250,50)` and its target contact 0 at `(50,50)`. -/
def scenario2West : EngineState :=
  { scenario2 with segments := [some ⟨.horizontal, 1, some 1, some 0, 50⟩] }

/-- A segment of an unsupported class inside tile 0: on net 1, from contact 0
at `(30,50)` to contact 1 at `(70,50)`, both global contacts of tile 0. -/
def scenarioOther : EngineState where
  components := [some ⟨.contact, 1, 30, 50⟩, some ⟨.contact, 1, 70, 50⟩]
  segments := [some ⟨.other, 1, some 0, some 1, 0⟩]
  gcontacts := fun g => if g = 0 then [0, 1] else []
  refCount := fun c => if c = 0 ∨ c = 1 then 1 else 0
  edges := fun _ => ⟨0, []⟩

/-! ## Vocabulary of the statements -/

/-- A horizontal (`true`) or vertical (`false`) segment given by its axis and
the coordinates of its two ends along its direction. -/
def SegmentGeom.ofAxis : Bool → Int → Int → Int → SegmentGeom
  | true, axis, sourceU, targetU => .horizontal axis sourceU targetU
  | false, axis, sourceU, targetU => .vertical axis sourceU targetU

/-- Every edge answered by `getEdgeAt` on a tile has that tile as source. -/
def Mesh.EdgesOwned (m : Mesh) : Prop :=
  ∀ g side axis edge, m.getEdgeAt g side axis = some edge → edge.source = g

/-- The edges met when walking from tile `g` towards `gEnd`: each is the
answer of `getEdgeAt` on the tile reached so far, the last one is the first
whose target is `gEnd`. -/
def Mesh.IsWalk (m : Mesh) (side : Side) (axis : Int) (gEnd : Nat) : Nat → List Edge → Prop
  | _, [] => False
  | g, [e] => m.getEdgeAt g side axis = some e ∧ e.target = gEnd
  | g, e :: e' :: es =>
    m.getEdgeAt g side axis = some e ∧ e.target ≠ gEnd
      ∧ Mesh.IsWalk m side axis gEnd e.target (e' :: es)

instance Mesh.decidableIsWalk (m : Mesh) (side : Side) (axis : Int) (gEnd : Nat) :
    ∀ (g : Nat) (es : List Edge), Decidable (m.IsWalk side axis gEnd g es)
  | _, [] => isFalse (fun h => h)
  | g, [e] =>
    decidable_of_iff (m.getEdgeAt g side axis = some e ∧ e.target = gEnd) Iff.rfl
  | g, e :: e' :: es =>
    have := Mesh.decidableIsWalk m side axis gEnd e.target (e' :: es)
    decidable_of_iff (m.getEdgeAt g side axis = some e ∧ e.target ≠ gEnd
      ∧ Mesh.IsWalk m side axis gEnd e.target (e' :: es)) Iff.rfl

/-- An answer of the matrix look-up is a tile of the mesh. -/
def Mesh.IsTile (m : Mesh) (g : Nat) : Prop := ∃ x y, m.getGCellUnder x y = some g

/-- The abutment box is completely tiled: every point of it is under a tile,
a point is under the one tile whose box holds it, edges are owned by the tile
that answers them, and a tile that does not touch the east (north) side of the
abutment box has, at every ordinate (abscissa) of its box, an east (north)
edge to the tile under the point just across that side. -/
structure Mesh.CompletelyTiled (m : Mesh) : Prop where
  covered : ∀ x y, m.area.containsHalfOpen x y → ∃ g, m.getGCellUnder x y = some g
  under : ∀ x y g, m.getGCellUnder x y = some g → (m.box g).containsHalfOpen x y
  unique : ∀ x y g g', m.getGCellUnder x y = some g → m.IsTile g' →
    (m.box g').containsHalfOpen x y → g' = g
  owned : m.EdgesOwned
  east : ∀ g axis, m.IsTile g → (m.box g).yMin ≤ axis → axis < (m.box g).yMax →
    (m.box g).xMax < m.area.xMax →
    ∃ e, m.getEdgeAt g .EastSide axis = some e
      ∧ m.getGCellUnder (m.box g).xMax axis = some e.target
  north : ∀ g axis, m.IsTile g → (m.box g).xMin ≤ axis → axis < (m.box g).xMax →
    (m.box g).yMax < m.area.yMax →
    ∃ e, m.getEdgeAt g .NorthSide axis = some e
      ∧ m.getGCellUnder axis (m.box g).yMax = some e.target

/-- The point of abscissa `u` on a horizontal axis (`isH = true`), of ordinate
`u` on a vertical one. -/
def pointOn : Bool → Int → Int → Point
  | true, axis, u => ⟨u, axis⟩
  | false, axis, u => ⟨axis, u⟩

/-- The tile under a point. -/
def Mesh.tileAt (m : Mesh) (p : Point) : Option Nat := m.getGCellUnder p.x p.y

/-- A tile path: every element but the last carries an edge that leaves its
tile and enters the tile of the next element; the last carries none. -/
def Contiguous : List Element → Prop
  | [] => False
  | [last] => last.edge = none
  | a :: b :: rest =>
    (∃ e, a.edge = some e ∧ e.source = a.gcell ∧ e.target = b.gcell) ∧ Contiguous (b :: rest)

/-- The element pushed for an edge of the walk. -/
def Element.ofEdge (e : Edge) : Element := ⟨e.source, some e⟩

/-- The side walked for a horizontal (`true`) or vertical (`false`) segment. -/
def walkSide (isH : Bool) : Side := if isH then .EastSide else .NorthSide

/-- The coordinates handed to `getGCellUnder` for a segment that passed the
outside test. -/
def RawGCellsUnder.lookupOf (m : Mesh) (segment : SegmentGeom) : Clamped :=
  RawGCellsUnder.lookupCoordinates m.area
    (RawGCellsUnder.clamp m.area segment.getSourcePosition segment.getTargetPosition)

/-- The outside test applied to a segment. -/
def RawGCellsUnder.rejects (m : Mesh) (segment : SegmentGeom) : Bool :=
  RawGCellsUnder.isOutside m.area segment.getSourcePosition segment.getTargetPosition

/-! ## The engine: state machine, look-up tables, tear-down -/

/-- Modelled from the spec: the enumeration `EngineState` of the engine header
(not part of the embedded file), "Creation → GlobalLoaded → Active → Driving →
PreDestroying → Gutted"; the code compares its values with `<` and `>`. -/
inductive EnginePhase where
  | EngineCreation
  | EngineGlobalLoaded
  | EngineActive
  | EngineDriving
  | EnginePreDestroying
  | EngineGutted
deriving DecidableEq, Repr

/-- The integer value of an enumerator, in declaration order. -/
def EnginePhase.rank : EnginePhase → Nat
  | .EngineCreation => 1
  | .EngineGlobalLoaded => 2
  | .EngineActive => 3
  | .EngineDriving => 4
  | .EnginePreDestroying => 5
  | .EngineGutted => 6

instance : LT EnginePhase := ⟨fun a b => a.rank < b.rank⟩

instance : LE EnginePhase := ⟨fun a b => a.rank ≤ b.rank⟩

instance (a b : EnginePhase) : Decidable (a < b) := inferInstanceAs (Decidable (a.rank < b.rank))

instance (a b : EnginePhase) : Decidable (a ≤ b) := inferInstanceAs (Decidable (a.rank ≤ b.rank))

/-- Modelled from the spec: the code of the canonical loading method `ByNet`;
the header that gives the codes is not part of the embedded file. -/
def EngineLoadGrByNet : Nat := 1

/-- Modelled from the spec: the code of the method `ByGCell`, a case label
distinct from `EngineLoadGrByNet`. -/
def EngineLoadGrByGCell : Nat := 2

/-- The three destroy bits of the engine flags. -/
structure EngineFlags where
  DestroyBaseContact : Bool
  DestroyBaseSegment : Bool
  DestroyGCell : Bool
deriving DecidableEq, Repr

/-- Modelled from the spec: the measurement timer, "a single opaque timer
object embedded in the engine": whether it runs and how often it was started. -/
structure Timer where
  running : Bool
  starts : Nat
deriving DecidableEq, Repr

/-- What the engine reads of an `AutoSegment`: the segment it wraps and the
two flags counted when driving. -/
structure AutoSegment where
  base : Nat
  isFixed : Bool
  reduceDoglegLayer : Bool
deriving DecidableEq, Repr

/-- What the engine reads of an `AutoContact`: the contact it wraps. -/
structure AutoContact where
  base : Nat
deriving DecidableEq, Repr

/-- A `std::map` from object identities: an association list in which a key
is looked up at its first occurrence. -/
abbrev Lut (α : Type) : Type := List (Nat × α)

/-- The value of `find( key )`, if any. -/
def Lut.find {α : Type} (lut : Lut α) (key : Nat) : Option α :=
  (List.lookup key lut)

/-- The statement `erase( find( key ) )`. -/
def Lut.erase {α : Type} (lut : Lut α) (key : Nat) : Lut α :=
  List.filter (fun kv => kv.1 != key) lut

/-- The statement `lut[ key ] = value`. -/
def Lut.assign {α : Type} (lut : Lut α) (key : Nat) (value : α) : Lut α :=
  (key, value) :: Lut.erase lut key

/-- The statement `insert( make_pair(key,value) )`, which leaves an existing
entry alone. -/
def Lut.insert {α : Type} (lut : Lut α) (key : Nat) (value : α) : Lut α :=
  match Lut.find lut key with
  | some _ => lut
  | none => List.concat lut (key, value)

/-- The routing state `NetRoutingExtension::get(net)` attached to a net. -/
structure NetRoutingState where
  isMixedPreRoute : Bool
deriving DecidableEq, Repr

/-- A Hurricane net as the engine reads it: its identity, the bounding boxes
of its routing pads and its routing state, if it has one. -/
structure Net where
  id : Nat
  routingPads : List Box
  state : Option NetRoutingState
deriving DecidableEq, Repr

/-- The per-net record `NetData`. -/
structure NetData where
  net : Net
  state : Option NetRoutingState
  searchArea : Box
  rpCount : Nat
  sparsity : Int
  globalRouted : Bool
deriving DecidableEq, Repr

/-- The engine object: its state, flags and timer, the tiles and overflowed
edges it owns, the two look-up tables, and the net records.  `NetData`
objects live in `netDataPool`; `_netOrdering` and `_netDatas` hold their
identities (positions in the pool), as the C++ containers hold pointers. -/
structure AnabaticEngine where
  _state : EnginePhase
  _flags : EngineFlags
  _timer : Timer
  _gcells : List Nat
  _ovEdges : List Nat
  _autoSegmentLut : Lut AutoSegment
  _autoContactLut : Lut AutoContact
  netDataPool : List NetData
  _netOrdering : List Nat
  _netDatas : Lut Nat
deriving DecidableEq, Repr

/-- The guard and assignment of `_link( AutoSegment* )`. -/
def AnabaticEngine._linkSegment (e : AnabaticEngine) (autoSegment : AutoSegment) :
    AnabaticEngine :=
  if e._state > .EngineActive then e
  else { e with _autoSegmentLut := e._autoSegmentLut.assign autoSegment.base autoSegment }

/-- The guard and erasure of `_unlink( AutoSegment* )`. -/
def AnabaticEngine._unlinkSegment (e : AnabaticEngine) (autoSegment : AutoSegment) :
    AnabaticEngine :=
  if e._state > .EngineDriving then e
  else { e with _autoSegmentLut := e._autoSegmentLut.erase autoSegment.base }

/-- The guard and assignment of `_link( AutoContact* )`. -/
def AnabaticEngine._linkContact (e : AnabaticEngine) (autoContact : AutoContact) :
    AnabaticEngine :=
  if e._state > .EngineActive then e
  else { e with _autoContactLut := e._autoContactLut.assign autoContact.base autoContact }

/-- The guard and erasure of `_unlink( AutoContact* )`. -/
def AnabaticEngine._unlinkContact (e : AnabaticEngine) (autoContact : AutoContact) :
    AnabaticEngine :=
  if e._state > .EngineActive then e
  else { e with _autoContactLut := e._autoContactLut.erase autoContact.base }

/-- The method `_destroyAutoSegments()`.  Modelled from the spec: the
destruction of a wrapper reaches the engine through `_unlink`, which is
"ignored when `state > Driving`"; the wrapper classes are not part of the
embedded file.  The loop runs over the table as it was on entry. -/
def AnabaticEngine._destroyAutoSegments (e : AnabaticEngine) : AnabaticEngine :=
  let destroyed := e._autoSegmentLut.foldl (fun acc sasp => acc._unlinkSegment sasp.2) e
  { destroyed with _autoSegmentLut := [] }

/-- The method `_destroyAutoContacts()`, modelled like
`_destroyAutoSegments`. -/
def AnabaticEngine._destroyAutoContacts (e : AnabaticEngine) : AnabaticEngine :=
  let destroyed := e._autoContactLut.foldl (fun acc cacp => acc._unlinkContact cacp.2) e
  { destroyed with _autoContactLut := [] }

/-- The method `_gutAnabatic()` on the engine object.  The session, the
statistics printed when driving and the destruction of the tiles in the
database leave the engine object alone. -/
def AnabaticEngine._gutAnabatic (e : AnabaticEngine) : AnabaticEngine :=
  let e1 := { e with _flags := { e._flags with DestroyBaseContact := false
                                               DestroyBaseSegment := false } }
  if e1._state < .EngineGutted then
    let e2 := { e1 with _state := .EngineGutted
                        _flags := { e1._flags with DestroyBaseContact := true } }
    let e3 := e2._destroyAutoSegments
    let e4 := e3._destroyAutoContacts
    let e5 := { e4 with _flags := { e4._flags with DestroyGCell := true } }
    { e5 with _gcells := [], _ovEdges := [] }
  else e1

/-- The method `startMeasures()`. -/
def AnabaticEngine.startMeasures (e : AnabaticEngine) : AnabaticEngine :=
  { e with _timer := ⟨true, e._timer.starts + 1⟩ }

/-- The method `stopMeasures()`. -/
def AnabaticEngine.stopMeasures (e : AnabaticEngine) : AnabaticEngine :=
  { e with _timer := ⟨false, e._timer.starts⟩ }

/-- The method `finalizeLayout()`. -/
def AnabaticEngine.finalizeLayout (e : AnabaticEngine) : AnabaticEngine :=
  if e._state > .EngineDriving then e
  else
    let e1 := { e with _state := .EngineDriving }
    let e2 := e1.startMeasures
    let e3 := e2._gutAnabatic
    let e4 := e3.stopMeasures
    { e4 with _state := .EngineGutted }

/-- The errors thrown by `loadGlobalRouting`. -/
inductive LoadError where
  | notPresentYet
  | alreadyLoaded
  | badMethod (method : Nat)
deriving DecidableEq, Repr

/-- The method `loadGlobalRouting( method )`: the error thrown, if any, and
the engine afterwards.  The loader `_loadGrByNet()` and the per-tile
`cleanupGlobal()` are not part of the embedded file; their effect on the
engine object is a parameter. -/
def AnabaticEngine.loadGlobalRouting (_loadGrByNet cleanupGlobal : AnabaticEngine → AnabaticEngine)
    (e : AnabaticEngine) (method : Nat) : Option LoadError × AnabaticEngine :=
  if e._state < .EngineGlobalLoaded then (some .notPresentYet, e)
  else if e._state > .EngineGlobalLoaded then (some .alreadyLoaded, e)
  else if method = EngineLoadGrByNet then
    let e1 := _loadGrByNet e
    let e2 := cleanupGlobal e1
    (none, { e2 with _state := .EngineActive })
  else (some (.badMethod method), e)

/-! ## Intervals and the capacity of an edge -/

/-- A Hurricane `Interval`.  Modelled from the spec: the class is not part of
the embedded file; an interval is empty, which is not the same as having zero
length, when its upper bound is below its lower bound. -/
structure Interval where
  vMin : Int
  vMax : Int
deriving DecidableEq, Repr

/-- The query `isEmpty()`. -/
def Interval.isEmpty (i : Interval) : Bool := decide (i.vMax < i.vMin)

/-- The empty interval, `Interval(true)`. -/
def Interval.makeEmpty : Interval := ⟨1, -1⟩

/-- The whole axis, `Interval(false)`: the bounds of a 64-bit `DbU::Unit`. -/
def Interval.full : Interval := ⟨-9223372036854775808, 9223372036854775807⟩

/-- Modelled from the spec: `inflate( dvMin, dvMax )` moves the lower bound
down by `dvMin` and the upper bound up by `dvMax`; an empty interval stays
empty. -/
def Interval.inflate (i : Interval) (dvMin dvMax : Int) : Interval :=
  if i.isEmpty then i else ⟨i.vMin - dvMin, i.vMax + dvMax⟩

/-- Modelled from the spec: "`Interval.intersection` with an empty interval
stays empty"; otherwise the larger lower bound and the smaller upper bound. -/
def Interval.intersection (i other : Interval) : Interval :=
  if i.isEmpty then i
  else if other.isEmpty then Interval.makeEmpty
  else ⟨max i.vMin other.vMin, min i.vMax other.vMax⟩

/-- The type of a routing layer gauge. -/
inductive LayerType where
  | Default
  | PinOnly
  | Blockage
deriving DecidableEq, Repr

/-- The direction of a routing layer gauge. -/
inductive LayerDirection where
  | Horizontal
  | Vertical
  | Unspecified
deriving DecidableEq, Repr

/-- A `RoutingLayerGauge` as `getCapacity` reads it; the gauge classes are not
part of the embedded file, so `getTrackNumber` is a field. -/
structure RoutingLayerGauge where
  getType : LayerType
  getDirection : LayerDirection
  getTrackNumber : Int → Int → Nat

/-- The two bits of `Flags` that `getCapacity` tests. -/
structure DirectionFlags where
  Horizontal : Bool
  Vertical : Bool
deriving DecidableEq, Repr

/-- The value an `int` takes when an integer is stored in it: the integer
modulo `2^32`, in the range `[-2^31, 2^31)`. -/
def wrapInt (value : Int) : Int := (value + 2147483648) % 4294967296 - 2147483648

/-- The body of the loop of lines 353-369 for one layer gauge: the capacity
after the iteration.  Each `continue` ends the iteration with the capacity
accumulated so far; `capacity` is an `int`, in which each sum is stored. -/
def AnabaticEngine.capacityStep (ab : Box) (span : Interval) (flags : DirectionFlags)
    (gauge : RoutingLayerGauge) (capacity : Int) : Int :=
  if gauge.getType ≠ .Default then capacity
  else if flags.Horizontal ∧ gauge.getDirection ≠ .Horizontal then capacity
  else
    let capacity1 :=
      if flags.Horizontal then
        wrapInt (capacity + gauge.getTrackNumber (span.vMin - ab.yMin) (span.vMax - ab.yMin))
      else capacity
    if flags.Vertical then
      if gauge.getDirection ≠ .Vertical then capacity1
      else wrapInt (capacity1 + gauge.getTrackNumber (span.vMin - ab.xMin) (span.vMax - ab.xMin))
    else capacity1

/-- The loop of lines 353-369 over the depths still to visit; indexing the
gauge vector past its end is a fault. -/
def AnabaticEngine.capacityLoop (ab : Box) (layerGauges : List RoutingLayerGauge)
    (span : Interval) (flags : DirectionFlags) : List Nat → Int → Except Fault Int
  | [], capacity => .ok capacity
  | depth :: rest, capacity =>
    match layerGauges[depth]? with
    | none => .error .outOfRange
    | some gauge =>
      AnabaticEngine.capacityLoop ab layerGauges span flags rest
        (AnabaticEngine.capacityStep ab span flags gauge capacity)

/-- The method `getCapacity( span, flags )`, given the abutment box, the layer
gauges of the routing gauge and the allowed depth of the configuration.  The
capacity returned is an `int`. -/
def AnabaticEngine.getCapacity (ab : Box) (layerGauges : List RoutingLayerGauge)
    (allowedDepth : Nat) (span : Interval) (flags : DirectionFlags) : Except Fault Int :=
  let span1 := span.inflate 0 (-1)
  if span1.isEmpty then .ok 0
  else AnabaticEngine.capacityLoop ab layerGauges span1 flags (List.range (allowedDepth + 1)) 0

/-- The reference of the specification (section 4.5), in its words: the span
is the interval shrunk by 1 on the high end; for each depth up to the allowed
one whose gauge has type `Default`, add the track number relative to `yMin`
when the flags have `Horizontal` and the layer is horizontal, and add the
track number relative to `xMin` when the flags have `Vertical` and the layer is
vertical. -/
def getCapacitySpec (ab : Box) (layerGauges : List RoutingLayerGauge) (allowedDepth : Nat)
    (interval : Interval) (flags : DirectionFlags) : Int :=
  let span : Interval := ⟨interval.vMin, interval.vMax - 1⟩
  ((List.range (allowedDepth + 1)).map (fun depth =>
    match layerGauges[depth]? with
    | none => (0 : Int)
    | some g =>
      if g.getType ≠ .Default then 0
      else
        (if flags.Horizontal ∧ g.getDirection = .Horizontal then
          (g.getTrackNumber (span.vMin - ab.yMin) (span.vMax - ab.yMin) : Int) else 0)
        + (if flags.Vertical ∧ g.getDirection = .Vertical then
          (g.getTrackNumber (span.vMin - ab.xMin) (span.vMax - ab.xMin) : Int) else 0))).sum

/-- Modelled from the spec: a default layer gauge of the end-to-end scenarios,
with tracks on the multiples of `pitch`; `trackNumber(lo,hi)` counts the
tracks whose axes lie in `[lo,hi]`. -/
def pitchGauge (direction : LayerDirection) (pitch : Int) : RoutingLayerGauge where
  getType := .Default
  getDirection := direction
  getTrackNumber := fun lo hi => (hi / pitch - (lo - 1) / pitch).toNat

/-! ## Net records -/

/-- The empty box, `Box()`. -/
def Box.empty : Box := ⟨1, 1, -1, -1⟩

/-- The query `Box::isEmpty()`. -/
def Box.isEmpty (b : Box) : Bool := decide (b.xMax < b.xMin) || decide (b.yMax < b.yMin)

/-- Modelled from the spec: `Box::merge`, by which the search area becomes
"the union bounding box over all routing pads"; the class is not part of the
embedded file. -/
def Box.merge (b other : Box) : Box :=
  if other.isEmpty then b
  else if b.isEmpty then other
  else ⟨min b.xMin other.xMin, min b.yMin other.yMin, max b.xMax other.xMax,
    max b.yMax other.yMax⟩

/-- The constructor `NetData::NetData( net )`.  The method `_update()`, which
computes the sparsity from the search area and the routing-pad count, is not
part of the embedded file and is the parameter `update`. -/
def NetData.create (update : Box → Nat → Int) (net : Net) : NetData :=
  let state := net.state
  if (state.map (·.isMixedPreRoute)) = some true then
    ⟨net, state, Box.empty, 0, 0, false⟩
  else
    let searchArea := net.routingPads.foldl Box.merge Box.empty
    let rpCount := net.routingPads.length
    ⟨net, state, searchArea, rpCount, update searchArea rpCount, false⟩

/-- Modelled from the spec: the comparison `SparsityOrder()( lhs, rhs )` of the
engine header (not part of the embedded file): "ascending sparsity ...; ties
broken by net id". -/
def SparsityOrder (lhs rhs : NetData) : Bool :=
  decide (lhs.sparsity < rhs.sparsity)
    || (decide (lhs.sparsity = rhs.sparsity) && decide (lhs.net.id < rhs.net.id))

/-- The object a `NetData*` points to. -/
def AnabaticEngine.netData (e : AnabaticEngine) (data : Nat) : Option NetData :=
  e.netDataPool[data]?

instance : Inhabited NetData := ⟨⟨⟨0, [], none⟩, none, Box.empty, 0, 0, false⟩⟩

/-- The comparison made by the sort of `_netOrdering` on two pointers into
the pool: `SparsityOrder` does not put `rhs` before `lhs`. -/
def sparsityNotAfter (pool : List NetData) (lhs rhs : Nat) : Prop :=
  SparsityOrder (pool.getD rhs default) (pool.getD lhs default) = false

instance (pool : List NetData) : DecidableRel (sparsityNotAfter pool) := fun lhs rhs =>
  inferInstanceAs (Decidable (SparsityOrder (pool.getD rhs default) (pool.getD lhs default) = false))

/-- The statement `new NetData( net )`: the object joins the pool and its
identity is returned. -/
def AnabaticEngine.newNetData (update : Box → Nat → Int) (e : AnabaticEngine) (net : Net) :
    Nat × AnabaticEngine :=
  (e.netDataPool.length, { e with netDataPool := e.netDataPool ++ [NetData.create update net] })

/-- The first loop of `setupNetDatas()` for one net of the cell. -/
def AnabaticEngine.setupNetDatasPush (update : Box → Nat → Int) (e : AnabaticEngine) (net : Net) :
    AnabaticEngine :=
  match e._netDatas.find net.id with
  | some _ => e
  | none =>
    let (data, e1) := e.newNetData update net
    { e1 with _netOrdering := e1._netOrdering ++ [data] }

/-- The second loop of `setupNetDatas()` for one position of `_netOrdering`. -/
def AnabaticEngine.setupNetDatasInsert (e : AnabaticEngine) (data : Nat) : AnabaticEngine :=
  match e.netData data with
  | some d => { e with _netDatas := e._netDatas.insert d.net.id data }
  | none => e

/-- The method `setupNetDatas()`, given the nets of the cell in the order of
`getNets()`.  The call of `std::sort` is an insertion sort; the outcome of a
sort does not depend on the algorithm when no two elements are equivalent. -/
def AnabaticEngine.setupNetDatas (update : Box → Nat → Int) (cellNets : List Net)
    (e : AnabaticEngine) : AnabaticEngine :=
  let oindex := e._netOrdering.length
  let e1 := cellNets.foldl (AnabaticEngine.setupNetDatasPush update) e
  let e2 := (e1._netOrdering.drop oindex).foldl AnabaticEngine.setupNetDatasInsert e1
  { e2 with _netOrdering := e2._netOrdering.insertionSort (sparsityNotAfter e2.netDataPool) }

/-- The method `getNetData( net, flags )`, with `create` the bit
`Flags::Create` of `flags`: the pointer returned and the engine afterwards.
`NetRoutingExtension::create(net)` is the parameter `createState`. -/
def AnabaticEngine.getNetData (update : Box → Nat → Int) (createState : Net → NetRoutingState)
    (e : AnabaticEngine) (net : Net) (create : Bool) : Nat × AnabaticEngine :=
  let (data, e1) :=
    match e._netDatas.find net.id with
    | none =>
      let (data, e1) := e.newNetData update net
      (data, { e1 with _netDatas := e1._netDatas.insert net.id data
                       _netOrdering := e1._netOrdering ++ [data] })
    | some data => (data, e)
  match e1.netData data with
  | some d =>
    if create ∧ d.state = none then
      (data, { e1 with netDataPool :=
                 e1.netDataPool.set data { d with state := some (createState net) } })
    else (data, e1)
  | none => (data, e1)

/-- The engine just built by the constructor: state `EngineCreation`, the flag
`DestroyBaseContact`, and every container empty. -/
def AnabaticEngine.init : AnabaticEngine where
  _state := .EngineCreation
  _flags := ⟨true, false, false⟩
  _timer := ⟨false, 0⟩
  _gcells := []
  _ovEdges := []
  _autoSegmentLut := []
  _autoContactLut := []
  netDataPool := []
  _netOrdering := []
  _netDatas := []

/-- The records listed by `_netOrdering`, in order. -/
def AnabaticEngine.orderedDatas (e : AnabaticEngine) : List NetData :=
  e._netOrdering.filterMap e.netData

/-- The coherence of the two net containers: every pointer of `_netOrdering`
is live, listed once, and registered in `_netDatas` under the id of its net;
every entry of `_netDatas` is listed in `_netOrdering` and keyed by the id of
the net of its record; no key occurs twice. -/
structure AnabaticEngine.NetTablesOk (e : AnabaticEngine) : Prop where
  ordering_live : ∀ data ∈ e._netOrdering, data < e.netDataPool.length
  ordering_registered : ∀ data ∈ e._netOrdering, ∀ d, e.netData data = some d →
    e._netDatas.find d.net.id = some data
  ordering_nodup : e._netOrdering.Nodup
  datas_ordered : ∀ kv ∈ e._netDatas, kv.2 ∈ e._netOrdering
  datas_keyed : ∀ kv ∈ e._netDatas, ∀ d, e.netData kv.2 = some d → d.net.id = kv.1
  keys_nodup : (e._netDatas.map Prod.fst).Nodup

/-- The key by which the specification orders net records: the sparsity, then
the id of the net. -/
def sparsityKey (d : NetData) : Lex (Int × Nat) := toLex (d.sparsity, d.net.id)

/-! ## Hook rings, unify and ripup -/

/-- The component behind a hook found on the body-hook ring of a contact: a
segment (by its source or target hook) or another component. -/
inductive RingItem where
  | segment (s : Nat)
  | component (c : Nat)
deriving DecidableEq, Repr

/-- The ring items of the segments of an arena that are anchored on
`contact`, one for each end, the first slot of the arena having identity
`start`. -/
def ringSegments (contact : Nat) : Nat → List (Option Segment) → List RingItem
  | _, [] => []
  | start, slot :: rest =>
    (match slot with
      | none => []
      | some seg =>
        (if seg.source = some contact then [RingItem.segment start] else [])
          ++ (if seg.target = some contact then [RingItem.segment start] else []))
      ++ ringSegments contact (start + 1) rest

/-- The hooks attached to the body hook of `contact`, as listed by
`getSlaveComponents()` and, the body hook itself apart, by
`getBodyHook()->getHooks()`: one for each end of a live segment anchored on
the contact, then the other components attached to it.  The database lists
them in the order of the ring, which the state does not record; here the
segments come in order of identity. -/
def EngineState.ringOf (st : EngineState) (contact : Nat) : List RingItem :=
  ringSegments contact 0 st.segments ++ (st.attached contact).map RingItem.component

/-- Modelled from the spec: `GCell::getSide(direction)` "returns the tile's
`Interval` along the given axis"; `vertical` selects the ordinates. -/
def GCell.getSide (m : Mesh) (gcell : Nat) (vertical : Bool) : Interval :=
  if vertical then ⟨(m.box gcell).yMin, (m.box gcell).yMax⟩
  else ⟨(m.box gcell).xMin, (m.box gcell).xMax⟩

/-- Modelled from the spec: `GCell::unrefContact(contact)` "decrements
refcount; returns `true` and destroys the contact iff refcount reaches zero".
The set of global contacts is local to the tile: on a tile that does not hold
the contact nothing happens. -/
def GCell.unrefContact (st : EngineState) (gcell contact : Nat) : Bool × EngineState :=
  if contact ∈ st.gcontacts gcell then
    let count := st.refCount contact - 1
    if count = 0 then
      (true, { st with
                refCount := Function.update st.refCount contact 0
                gcontacts := Function.update st.gcontacts gcell
                  ((st.gcontacts gcell).erase contact)
                components := st.components.set contact none })
    else (false, { st with refCount := Function.update st.refCount contact count })
  else (false, st)

/-- Modelled from the spec: `Edge::remove(segment)`, by which a ripped segment
is removed "from every edge it crossed", the load following the segment list. -/
def Edge.remove (st : EngineState) (edge : Edge) (segment : Nat) : EngineState :=
  let old := st.edges edge.id
  let new : EdgeState :=
    if segment ∈ old.segments then ⟨old.load - 1, old.segments.erase segment⟩ else old
  { st with edges := Function.update st.edges edge.id new }

/-- The statement `segment->destroy()`: the slot of the segment is emptied,
and with it its two hooks leave their rings. -/
def EngineState.destroySegment (st : EngineState) (s : Nat) : EngineState :=
  { st with segments := st.segments.set s none }

/-- The loop of lines 529-544 over the slaves of the contact: the segments
stored in `horizontals` and `verticals`, or `none` when the loop returns
`false`. -/
def AnabaticEngine.unifyScan (st : EngineState) :
    List RingItem → List Nat → List Nat → Option (List Nat × List Nat)
  | [], horizontals, verticals => some (horizontals, verticals)
  | .component _ :: _, _, _ => none
  | .segment s :: rest, horizontals, verticals =>
    match (st.segment s).map Segment.kind with
    | some SegmentKind.horizontal =>
      if verticals.length ≠ 0 ∨ horizontals.length > 1 then none
      else AnabaticEngine.unifyScan st rest (horizontals ++ [s]) verticals
    | some SegmentKind.vertical =>
      if horizontals.length ≠ 0 ∨ verticals.length > 1 then none
      else AnabaticEngine.unifyScan st rest horizontals (verticals ++ [s])
    | _ => none

/-- The loop of lines 551-552 (579-580): the constraint is intersected with
the side of every tile, without a test. -/
def AnabaticEngine.unifyConstrain (m : Mesh) (vertical : Bool) :
    List Element → Interval → Interval
  | [], constraints => constraints
  | element :: rest, constraints =>
    AnabaticEngine.unifyConstrain m vertical rest
      (constraints.intersection (GCell.getSide m element.gcell vertical))

/-- The loop of lines 557-560 (585-588): the constraint is intersected with
the side of every tile and tested after each; `none` when the test fires and
`unify` returns `false`. -/
def AnabaticEngine.unifyConstrainChecked (m : Mesh) (vertical : Bool) :
    List Element → Interval → Option Interval
  | [], constraints => some constraints
  | element :: rest, constraints =>
    let constraints1 := constraints.intersection (GCell.getSide m element.gcell vertical)
    if constraints1.isEmpty then none
    else AnabaticEngine.unifyConstrainChecked m vertical rest constraints1

/-- The block of lines 546-572 (574-600) on the two segments found by the
scan, `vertical` being the direction of the sides intersected (`true` for two
horizontals): `none` when `unify` returns `false` from inside the block, else
the state at the end of the block.  When the two slaves are the two hooks of
one segment, the segment kept is the one destroyed, and the statement that
detaches its target hook works on a dangling pointer. -/
def AnabaticEngine.unifyMerge (fuel : Nat) (m : Mesh) (st : EngineState) (contact : Nat)
    (vertical : Bool) (first second : Nat) : Except Fault (Option EngineState) :=
  match st.segment first, st.segment second with
  | some seg0, some seg1 =>
    let swapped := decide (seg0.target ≠ some contact)
    let s0 := if swapped then second else first
    let s1 := if swapped then first else second
    let segA := if swapped then seg1 else seg0
    let segB := if swapped then seg0 else seg1
    match RawGCellsUnder.RawGCellsUnder fuel m (st.geom segA) with
    | .error f => .error f
    | .ok gcells0 =>
      let constraints := AnabaticEngine.unifyConstrain m vertical gcells0.elements Interval.full
      match RawGCellsUnder.RawGCellsUnder fuel m (st.geom segB) with
      | .error f => .error f
      | .ok gcells1 =>
        match AnabaticEngine.unifyConstrainChecked m vertical gcells1.elements constraints with
        | none => .ok none
        | some _ =>
          match replaceOnEdges s1 s0 gcells1.elements.dropLast st with
          | .error f => .error f
          | .ok st1 =>
            let target := segB.target
            let st2 := st1.destroySegment s1
            match st2.segment s0, target with
            | some _, some anchor => .ok (some (st2.retarget s0 segA anchor))
            | _, _ => .error .nullDeref
  | _, _ => .error .nullDeref

/-- The primitive `AnabaticEngine::unify( contact )`: the value returned and
the state afterwards.  A dangling `contact` and a contact that lies under no
tile are faults. -/
def AnabaticEngine.unify (fuel : Nat) (m : Mesh) (st : EngineState) (contact : Nat) :
    Except Fault (Bool × EngineState) :=
  match st.component contact with
  | none => .error .nullDeref
  | some c =>
    match AnabaticEngine.unifyScan st (st.ringOf contact) [] [] with
    | none => .ok (false, st)
    | some (horizontals, verticals) =>
      let afterH : Except Fault (Option EngineState) :=
        match horizontals with
        | [first, second] => AnabaticEngine.unifyMerge fuel m st contact true first second
        | _ => .ok (some st)
      match afterH with
      | .error f => .error f
      | .ok none => .ok (false, st)
      | .ok (some st1) =>
        let afterV : Except Fault (Option EngineState) :=
          match verticals with
          | [first, second] => AnabaticEngine.unifyMerge fuel m st1 contact false first second
          | _ => .ok (some st1)
        match afterV with
        | .error f => .error f
        | .ok none => .ok (false, st1)
        | .ok (some st2) =>
          match m.getGCellUnder c.x c.y with
          | none => .error .nullDeref
          | some gcell => .ok (true, (GCell.unrefContact st2 gcell contact).2)

/-- The loop of lines 636-644 over the hooks of the ring of `contact`, the
body hook apart: the value of `connected` and of `slaveCount` at its end. -/
def AnabaticEngine.ripupScan (st : EngineState) (contact fromSegment : Nat) :
    List RingItem → Option Nat → Nat → Option Nat × Nat
  | [], connected, slaveCount => (connected, slaveCount)
  | .component c :: rest, connected, slaveCount =>
    if c = contact then
      AnabaticEngine.ripupScan st contact fromSegment rest connected slaveCount
    else if (st.component c).map Component.kind = some ComponentKind.routingPad then
      AnabaticEngine.ripupScan st contact fromSegment rest connected (slaveCount + 1)
    else
      AnabaticEngine.ripupScan st contact fromSegment rest none slaveCount
  | .segment s :: rest, connected, slaveCount =>
    if s = fromSegment then
      AnabaticEngine.ripupScan st contact fromSegment rest connected slaveCount
    else
      AnabaticEngine.ripupScan st contact fromSegment rest (some s) (slaveCount + 1)

/-- Modelled from the spec: `Segment::getOppositeAnchor(anchor)`, the
"opposite-anchor" of a segment with respect to one of its anchors. -/
def Segment.getOppositeAnchor (seg : Segment) (anchor : Nat) : Option Nat :=
  if seg.source = some anchor then seg.target
  else if seg.target = some anchor then seg.source
  else none

/-- The local variables of `ripup` that outlive the propagation loop. -/
structure RipupSearch where
  ripups : List Nat
  end0 : Option Nat
  end1 : Option Nat
deriving DecidableEq, Repr

/-- The loop of lines 628-658; the head of `stack` is the back of the C++
vector.  A dangling component or segment pointer is a fault. -/
def AnabaticEngine.ripupPropagate (st : EngineState) :
    Nat → List (Nat × Option Nat) → RipupSearch → Except Fault RipupSearch
  | _, [], search => .ok search
  | 0, _ :: _, _ => .error .outOfFuel
  | fuel + 1, (fromSegment, anchor) :: stack, search =>
    match anchor with
    | none => AnabaticEngine.ripupPropagate st fuel stack search
    | some contact =>
      match st.component contact with
      | none => .error .nullDeref
      | some c =>
        if c.kind ≠ .contact then AnabaticEngine.ripupPropagate st fuel stack search
        else
          match AnabaticEngine.ripupScan st contact fromSegment (st.ringOf contact) none 0 with
          | (some connected, 1) =>
            match st.segment connected with
            | none => .error .nullDeref
            | some seg =>
              AnabaticEngine.ripupPropagate st fuel
                ((connected, seg.getOppositeAnchor contact) :: stack)
                { search with ripups := search.ripups ++ [connected] }
          | _ =>
            if search.end0 = none then
              AnabaticEngine.ripupPropagate st fuel stack { search with end0 := some contact }
            else
              AnabaticEngine.ripupPropagate st fuel stack { search with end1 := some contact }

/-- The loop of lines 665-666, `gcells->edgeAt(i)->remove( segment )`, over
the elements given. -/
def removeOnEdges (segment : Nat) : List Element → EngineState → Except Fault EngineState
  | [], st => .ok st
  | element :: rest, st =>
    match element.edge with
    | none => .error .nullDeref
    | some edge => removeOnEdges segment rest (Edge.remove st edge segment)

/-- The result of `dynamic_cast<Contact*>` on an anchor. -/
def EngineState.asContact (st : EngineState) (anchor : Option Nat) : Option Nat :=
  anchor.bind (fun c =>
    if (st.component c).map Component.kind = some ComponentKind.contact then some c else none)

/-- The call `gcell->unrefContact( contact )` with a possibly null contact. -/
def GCell.unrefContactOpt (st : EngineState) (gcell : Nat) (contact : Option Nat) :
    Bool × EngineState :=
  match contact with
  | none => (false, st)
  | some c => GCell.unrefContact st gcell c

/-- The clearing of `end0` or `end1` when the contact was deleted. -/
def clearEnd (deleted : Bool) (contact : Option Nat) (slot : Option Nat) : Option Nat :=
  if deleted ∧ contact = slot then none else slot

/-- One iteration of the loop of lines 660-687 on `segment`: the state and the
two boundary anchors afterwards.  Indexing an empty tile sequence is a
fault. -/
def AnabaticEngine.ripupDestroy (fuel : Nat) (m : Mesh) (segment : Nat)
    (acc : EngineState × Option Nat × Option Nat) :
    Except Fault (EngineState × Option Nat × Option Nat) :=
  let (st, end0, end1) := acc
  match st.segment segment with
  | none => .error .nullDeref
  | some seg =>
    match RawGCellsUnder.RawGCellsUnder fuel m (st.geom seg) with
    | .error f => .error f
    | .ok gcells =>
      match removeOnEdges segment gcells.elements.dropLast st with
      | .error f => .error f
      | .ok st1 =>
        let source := st1.asContact seg.source
        let target := st1.asContact seg.target
        let st2 := st1.destroySegment segment
        match gcells.elements.head?, gcells.elements.getLast? with
        | some first, some last =>
          let (deletedSource, st3) := GCell.unrefContactOpt st2 first.gcell source
          let (deletedTarget, st4) := GCell.unrefContactOpt st3 last.gcell target
          let end0a := clearEnd deletedSource source end0
          let end1a := clearEnd deletedSource source end1
          .ok (st4, clearEnd deletedTarget target end0a, clearEnd deletedTarget target end1a)
        | _, _ => .error .outOfRange

/-- The loop of lines 660-687 over `ripups`. -/
def AnabaticEngine.ripupDestroyAll (fuel : Nat) (m : Mesh) :
    List Nat → EngineState × Option Nat × Option Nat →
      Except Fault (EngineState × Option Nat × Option Nat)
  | [], acc => .ok acc
  | segment :: rest, acc =>
    match AnabaticEngine.ripupDestroy fuel m segment acc with
    | .error f => .error f
    | .ok acc1 => AnabaticEngine.ripupDestroyAll fuel m rest acc1

/-- The statement `if (end) unify( end )`. -/
def AnabaticEngine.unifyEnd (fuel : Nat) (m : Mesh) (st : EngineState) (slot : Option Nat) :
    Except Fault EngineState :=
  match slot with
  | none => .ok st
  | some contact =>
    match AnabaticEngine.unify fuel m st contact with
    | .error f => .error f
    | .ok (_, st1) => .ok st1

/-- The statement `data->setGlobalRouted( value )` through a pointer. -/
def AnabaticEngine.setGlobalRouted (e : AnabaticEngine) (data : Nat) (value : Bool) :
    AnabaticEngine :=
  match e.netData data with
  | some d => { e with netDataPool := e.netDataPool.set data { d with globalRouted := value } }
  | none => e

/-- The primitive `AnabaticEngine::ripup( seed, flags )`, with `propagate` the
bit `Flags::Propagate`: the engine and the database state afterwards.  `nets`
gives the net of each net identity. -/
def AnabaticEngine.ripup (fuel : Nat) (m : Mesh) (update : Box → Nat → Int)
    (createState : Net → NetRoutingState) (nets : Nat → Net) (e : AnabaticEngine)
    (st : EngineState) (seed : Nat) (propagate : Bool) :
    Except Fault (AnabaticEngine × EngineState) :=
  match st.segment seed with
  | none => .error .nullDeref
  | some seedSeg =>
    let net := nets seedSeg.net
    let stack : List (Nat × Option Nat) :=
      if propagate then [(seed, seedSeg.target), (seed, seedSeg.source)] else []
    match AnabaticEngine.ripupPropagate st fuel stack ⟨[seed], none, none⟩ with
    | .error f => .error f
    | .ok search =>
      match AnabaticEngine.ripupDestroyAll fuel m search.ripups (st, search.end0, search.end1) with
      | .error f => .error f
      | .ok (st1, end0, end1) =>
        match AnabaticEngine.unifyEnd fuel m st1 end0 with
        | .error f => .error f
        | .ok st2 =>
          match AnabaticEngine.unifyEnd fuel m st2 end1 with
          | .error f => .error f
          | .ok st3 =>
            let (data, e1) := e.getNetData update createState net false
            .ok (e1.setGlobalRouted data false, st3)

/-- Modelled from the spec: a sparsity "monotone function of
`(area + perimeter) / rpCount`" of the search area. -/
def sparsityOf (searchArea : Box) (rpCount : Nat) : Int :=
  if rpCount = 0 then 0
  else
    let w := searchArea.xMax - searchArea.xMin
    let h := searchArea.yMax - searchArea.yMin
    (w * h + 2 * (w + h)) / rpCount

/-- The net of identity 2 of scenario 4, with its two routing pads. -/
def scenario4Net : Net := ⟨2, [⟨40, 40, 60, 60⟩, ⟨240, 240, 260, 260⟩], none⟩

/-- The state of scenario 4 on the 10 by 10 mesh: on net 2, the staircase of
segment 0 (horizontal, from contact 0 at `(50,50)` to contact 1 at
`(250,50)`), segment 1 (vertical, from contact 1 to contact 2 at `(250,250)`)
and segment 2 (horizontal, from contact 2 to contact 3 at `(450,250)`); the
routing pads 4 and 5 are attached to the terminal contacts 0 and 3, whose
reference counts are 2; each segment loads the edges it crosses. -/
def scenario4 : EngineState where
  components := [some ⟨.contact, 2, 50, 50⟩, some ⟨.contact, 2, 250, 50⟩,
    some ⟨.contact, 2, 250, 250⟩, some ⟨.contact, 2, 450, 250⟩,
    some ⟨.routingPad, 2, 50, 50⟩, some ⟨.routingPad, 2, 450, 250⟩]
  segments := [some ⟨.horizontal, 2, some 0, some 1, 50⟩, some ⟨.vertical, 2, some 1, some 2, 250⟩,
    some ⟨.horizontal, 2, some 2, some 3, 250⟩]
  gcontacts := fun g =>
    if g = 0 then [0] else if g = 2 then [1] else if g = 22 then [2] else if g = 24 then [3]
    else []
  refCount := fun c => if c < 4 then 2 else 0
  edges := fun e =>
    if e = 0 ∨ e = 2 then ⟨1, [0]⟩ else if e = 5 ∨ e = 25 then ⟨1, [1]⟩
    else if e = 44 ∨ e = 46 then ⟨1, [2]⟩ else ⟨0, []⟩
  attached := fun c => if c = 0 then [4] else if c = 3 then [5] else []

/-- The engine of scenario 4: net 2 has its record, marked as globally
routed. -/
def scenario4Engine : AnabaticEngine :=
  { AnabaticEngine.init with
    _state := .EngineActive
    netDataPool := [{ NetData.create sparsityOf scenario4Net with globalRouted := true }]
    _netOrdering := [0]
    _netDatas := [(2, 0)] }

/-- The number of ends of a segment slot anchored on `contact`. -/
def endsOn (slot : Option Segment) (contact : Nat) : Nat :=
  match slot with
  | none => 0
  | some seg =>
    (if seg.source = some contact then 1 else 0) + (if seg.target = some contact then 1 else 0)

/-- The number of segment ends anchored on `contact`. -/
def EngineState.degree (st : EngineState) (contact : Nat) : Nat :=
  (ringSegments contact 0 st.segments).length

/-- A degree-2 contact: a live contact whose slaves are exactly one end of
the segment `previous` and one end of another segment `next`. -/
def EngineState.IsJoint (st : EngineState) (contact previous next : Nat) : Prop :=
  (st.component contact).map Component.kind = some ComponentKind.contact
    ∧ previous ≠ next
    ∧ (st.ringOf contact = [.segment previous, .segment next]
        ∨ st.ringOf contact = [.segment next, .segment previous])

instance EngineState.decidableIsJoint (st : EngineState) (contact previous next : Nat) :
    Decidable (st.IsJoint contact previous next) := by
  unfold EngineState.IsJoint
  infer_instance

/-- A terminal contact: a live contact whose slaves are one end of the segment
`previous` and one or more routing pads. -/
def EngineState.IsTerminal (st : EngineState) (contact previous : Nat) : Prop :=
  (st.component contact).map Component.kind = some ComponentKind.contact
    ∧ st.attached contact ≠ []
    ∧ (∀ p ∈ st.attached contact,
        (st.component p).map Component.kind = some ComponentKind.routingPad)
    ∧ st.ringOf contact = .segment previous :: (st.attached contact).map RingItem.component

instance EngineState.decidableIsTerminal (st : EngineState) (contact previous : Nat) :
    Decidable (st.IsTerminal contact previous) := by
  unfold EngineState.IsTerminal
  infer_instance

/-- Leaving the segment `previous` through `contact`, the segments `chain`
follow one another, each joined to the one before by a degree-2 contact, and
the last one (or `previous` itself when `chain` is empty) ends on the terminal
contact `terminal`. -/
def EngineState.ChainFrom (st : EngineState) : List Nat → Nat → Nat → Nat → Prop
  | [], previous, contact, terminal => contact = terminal ∧ st.IsTerminal contact previous
  | next :: rest, previous, contact, terminal =>
    st.IsJoint contact previous next
      ∧ match (st.segment next).bind (fun seg => seg.getOppositeAnchor contact) with
        | some far => EngineState.ChainFrom st rest next far terminal
        | none => False

instance EngineState.decidableChainFrom (st : EngineState) :
    ∀ (chain : List Nat) (previous contact terminal : Nat),
      Decidable (st.ChainFrom chain previous contact terminal)
  | [], previous, contact, terminal =>
    decidable_of_iff (contact = terminal ∧ st.IsTerminal contact previous) Iff.rfl
  | next :: rest, previous, contact, terminal =>
    match h : (st.segment next).bind (fun seg => seg.getOppositeAnchor contact) with
    | some far =>
      have := EngineState.decidableChainFrom st rest next far terminal
      decidable_of_iff (st.IsJoint contact previous next ∧ st.ChainFrom rest next far terminal)
        (by simp only [EngineState.ChainFrom, h])
    | none => isFalse (by simp only [EngineState.ChainFrom, h, and_false, not_false_eq_true])

/-- The state `st` of the loop of lines 660-687 of `ripup`, started in `st0`,
with the boundary anchors `end0` and `end1`: every contact is referenced at
least once for each segment end anchored on it; a contact was destroyed only
once no segment end was left on it; the attached pads are those of `st0`;
segments were destroyed only; the boundary anchors are alive. -/
structure RipupInv (st0 st : EngineState) (end0 end1 : Option Nat) : Prop where
  refs : ∀ c, st.degree c ≤ st.refCount c
  comps : ∀ c, st.component c = st0.component c ∨ st.degree c = 0
  attached : st.attached = st0.attached
  segs : ∀ j, st.segment j = st0.segment j ∨ st.segment j = none
  alive0 : ∀ c, end0 = some c → st.component c = st0.component c
  alive1 : ∀ c, end1 = some c → st.component c = st0.component c

/-- The three nets of scenario 5, as the cell lists them: net 0 with a
bounding box of area 900, net 1 of area 100 and net 2 of area 400, each with
four routing pads at the corners of its box. -/
def scenario5Nets : List Net :=
  [⟨0, [⟨0, 0, 0, 0⟩, ⟨30, 0, 30, 0⟩, ⟨0, 30, 0, 30⟩, ⟨30, 30, 30, 30⟩], none⟩,
   ⟨1, [⟨0, 0, 0, 0⟩, ⟨10, 0, 10, 0⟩, ⟨0, 10, 0, 10⟩, ⟨10, 10, 10, 10⟩], none⟩,
   ⟨2, [⟨0, 0, 0, 0⟩, ⟨20, 0, 20, 0⟩, ⟨0, 20, 0, 20⟩, ⟨20, 20, 20, 20⟩], none⟩]

/-! ## DbU: the process-wide unit configuration -/

/-- A C `double` as the configuration functions see it: a finite value, an
infinity or a NaN.  Every finite `double` is a rational number, and the two
library functions used on it, `rint` and `remainder`, are exact. -/
inductive Double where
  | finite (value : ℚ)
  | posInf
  | negInf
  | nan
deriving DecidableEq

/-- The integer nearest to `q`, a tie going to the even one (the default
rounding direction of `rint` and the rule of `remainder`). -/
def roundHalfEven (q : ℚ) : ℤ :=
  let f := ⌊q⌋
  if q - f < 1 / 2 then f
  else if 1 / 2 < q - f then f + 1
  else if f % 2 = 0 then f
  else f + 1

/-- The library function `rint`. -/
def Double.rint : Double → Double
  | .finite q => .finite (roundHalfEven q)
  | d => d

/-- The library function `remainder( x, y )`: `x - n * y` with `n` the integer
nearest to `x / y`; a NaN when `x` is infinite or `y` is zero. -/
def Double.remainder : Double → Double → Double
  | .nan, _ => .nan
  | _, .nan => .nan
  | .posInf, _ => .nan
  | .negInf, _ => .nan
  | .finite x, .posInf => .finite x
  | .finite x, .negInf => .finite x
  | .finite x, .finite y => if y = 0 then .nan else .finite (x - roundHalfEven (x / y) * y)

/-- The comparison `x != y` of two doubles: a NaN differs from everything. -/
def Double.ne : Double → Double → Bool
  | .nan, _ => true
  | _, .nan => true
  | x, y => decide (x ≠ y)

/-- The static attributes of the class `DbU`. -/
structure DbU where
  _precision : Nat
  _gridsPerLambda : Double
  _physicalsPerGrid : Double
deriving DecidableEq

/-- The attributes as initialised at lines 37-40. -/
def DbU.init : DbU := ⟨1, .finite 10, .finite 1⟩

/-- The function `DbU::setGridsPerLambda( gridsPerLambda )`: whether the
`Error` of line 147 is thrown, and the attributes afterwards. -/
def DbU.setGridsPerLambda (dbu : DbU) (gridsPerLambda : Double) : Bool × DbU :=
  if (gridsPerLambda.rint).ne gridsPerLambda
      || (gridsPerLambda.remainder (.finite 2)).ne (.finite 0) then
    (true, dbu)
  else (false, { dbu with _gridsPerLambda := gridsPerLambda })

/-- The values of `DbU::_stringMode`; the enumeration is declared in a header
that is not part of the embedded file. -/
inductive StringMode where
  | Db
  | Grid
  | Symbolic
  | unknown (code : Nat)
deriving DecidableEq, Repr

/-- The text `snprintf( buffer, 1024, "%ld", u )` writes: the decimal digits
of `u`, after a minus sign when it is negative. -/
def formatLd (u : Int) : List Char :=
  if u < 0 then '-' :: Nat.toDigits 10 u.natAbs else Nat.toDigits 10 u.toNat

/-- The loop of lines 242-245: `length` is lowered while positive and while
`buffer[length]` is a `0` or a dot. -/
def stripLoop (buffer : List Char) : Nat → Nat
  | 0 => 0
  | length + 1 =>
    if buffer.getD (length + 1) (Char.ofNat 0) ≠ '0'
        ∧ buffer.getD (length + 1) (Char.ofNat 0) ≠ '.' then length + 1
    else stripLoop buffer length

/-- The function `DbU::getValueString( u )` in the string mode `mode`.
`getGrid` and `getLambda` are inline functions of a header that is not part
of the embedded file: the text that `"%.1f"` gives for them is the parameter
`formatGrid` (`formatLambda`).  The text written to `cerr` in an unknown mode
is left out. -/
def DbU.getValueString (formatGrid formatLambda : Int → List Char) (mode : StringMode)
    (u : Int) : List Char :=
  let finish (unitSymbol : Char) (buffer : List Char) : List Char :=
    let length := stripLoop buffer (buffer.length - 1)
    buffer.take (length + 1) ++ [unitSymbol]
  match mode with
  | .Grid => if u = 0 then "0g".data else finish 'g' (formatGrid u)
  | .Symbolic => if u = 0 then "0l".data else finish 'l' (formatLambda u)
  | _ => if u = 0 then "0u".data else finish 'u' (formatLd u)

/-! ## States and meshes of the further scenarios -/

/-- Three contacts of net 1 in a row, contact 0 at `(50,50)`, contact 1 at
`(150,50)` and contact 2 at `(250,50)`, in tiles 0, 1 and 2; segment 0 is `a`
and segment 1 is `b`, which are to join contacts 0 and 1 and contacts 1 and 2,
in either orientation. -/
def scenarioJoin (a b : Segment) : EngineState where
  components := [some ⟨.contact, 1, 50, 50⟩, some ⟨.contact, 1, 150, 50⟩,
    some ⟨.contact, 1, 250, 50⟩]
  segments := [some a, some b]
  gcontacts := fun g => if g = 0 then [0] else if g = 1 then [1] else if g = 2 then [2] else []
  refCount := fun c => if c = 1 then 2 else if c = 0 ∨ c = 2 then 1 else 0
  edges := fun e => if e = 0 then ⟨1, [0]⟩ else if e = 2 then ⟨1, [1]⟩ else ⟨0, []⟩

/-- The row of `scenarioJoin` with both segments drawn eastward and a fourth
component, the contact 3, anchored on contact 1: its hook is on the ring of
the body hook of contact 1 together with one end of each segment. -/
def scenarioBranch : EngineState :=
  { scenarioJoin ⟨.horizontal, 1, some 0, some 1, 50⟩ ⟨.horizontal, 1, some 1, some 2, 50⟩ with
    components := [some ⟨.contact, 1, 50, 50⟩, some ⟨.contact, 1, 150, 50⟩,
      some ⟨.contact, 1, 250, 50⟩, some ⟨.contact, 1, 150, 50⟩]
    attached := fun c => if c = 1 then [3] else [] }

/-- Two segments of net 1 that join the same two contacts, contact 0 at
`(50,50)` and contact 1 at `(250,50)`: segment 0 on the axis 50 and segment 1,
drawn the other way, on the axis 60. -/
def scenarioCycle : EngineState where
  components := [some ⟨.contact, 1, 50, 50⟩, some ⟨.contact, 1, 250, 50⟩]
  segments := [some ⟨.horizontal, 1, some 0, some 1, 50⟩,
    some ⟨.horizontal, 1, some 1, some 0, 60⟩]
  gcontacts := fun g => if g = 0 then [0] else if g = 2 then [1] else []
  refCount := fun c => if c = 0 ∨ c = 1 then 2 else 0
  edges := fun e => if e = 0 ∨ e = 2 then ⟨2, [0, 1]⟩ else ⟨0, []⟩

/-- A vertical segment of net 1 along the west side of the abutment box, from
contact 0 at `(0,30)` in tile 0 to contact 1 at `(0,250)` in tile 20. -/
def scenarioWestSide : EngineState where
  components := [some ⟨.contact, 1, 0, 30⟩, some ⟨.contact, 1, 0, 250⟩]
  segments := [some ⟨.vertical, 1, some 0, some 1, 0⟩]
  gcontacts := fun g => if g = 0 then [0] else if g = 20 then [1] else []
  refCount := fun c => if c = 0 ∨ c = 1 then 1 else 0
  edges := fun e => if e = 1 ∨ e = 21 then ⟨1, [0]⟩ else ⟨0, []⟩

/-- A horizontal segment of net 1 beyond the east side of the abutment box,
from contact 0 at `(1200,50)` to contact 1 at `(1500,50)`. -/
def scenarioBeyond : EngineState where
  components := [some ⟨.contact, 1, 1200, 50⟩, some ⟨.contact, 1, 1500, 50⟩]
  segments := [some ⟨.horizontal, 1, some 0, some 1, 50⟩]
  gcontacts := fun _ => []
  refCount := fun c => if c = 0 ∨ c = 1 then 1 else 0
  edges := fun _ => ⟨0, []⟩

/-- The net of identity 1 of the scenarios, without routing pads. -/
def scenarioNet1 : Net := ⟨1, [], none⟩

/-- The 10 by 10 mesh in which tile 1 answers no edge: its east and north
edges are missing. -/
def gapMesh : Mesh :=
  { gridMesh 10 10 100 with
    getEdgeAt := fun g side axis =>
      if g = 1 then none else (gridMesh 10 10 100).getEdgeAt g side axis }

/-! ## Sequences of calls on the net containers -/

/-- A call of one of the two methods that fill the net containers. -/
inductive NetCall where
  | setupNetDatas (cellNets : List Net)
  | getNetData (net : Net) (create : Bool)
deriving DecidableEq, Repr

/-- The engine after a call. -/
def NetCall.run (update : Box → Nat → Int) (createState : Net → NetRoutingState)
    (e : AnabaticEngine) : NetCall → AnabaticEngine
  | .setupNetDatas cellNets => e.setupNetDatas update cellNets
  | .getNetData net create => (e.getNetData update createState net create).2

/-- The nets a cell lists have distinct ids. -/
def NetCall.DistinctIds : NetCall → Prop
  | .setupNetDatas cellNets => (cellNets.map (·.id)).Nodup
  | .getNetData _ _ => True

instance NetCall.decidableDistinctIds : ∀ call : NetCall, Decidable call.DistinctIds
  | .setupNetDatas cellNets =>
    decidable_of_iff ((cellNets.map (fun (net : Net) => net.id)).Nodup) Iff.rfl
  | .getNetData _ _ => isTrue trivial

/-- An entry of the segment table is keyed by the base of its wrapper. -/
def AutoSegmentLutOk (lut : Lut AutoSegment) : Prop :=
  ∀ key autoSegment, lut.find key = some autoSegment → autoSegment.base = key

/-- An entry of the contact table is keyed by the base of its wrapper. -/
def AutoContactLutOk (lut : Lut AutoContact) : Prop :=
  ∀ key autoContact, lut.find key = some autoContact → autoContact.base = key
/-- The hooks of a ring that the hook loop of `ripup` does not skip: those of
neither the contact itself nor the segment the loop comes from. -/
def ringOthers (contact previous : Nat) (ring : List RingItem) : List RingItem :=
  ring.filter (fun item => decide (item ≠ .segment previous ∧ item ≠ .component contact))

/-- The last segment of a list of ring items, or `connected` when it holds
none. -/
def lastSegment : List RingItem → Option Nat → Option Nat
  | [], connected => connected
  | .segment s :: rest, _ => lastSegment rest (some s)
  | .component _ :: rest, connected => lastSegment rest connected

/-- The net of identity 1 with two routing pads on the west side of the
abutment box. -/
def scenarioWestNet : Net := ⟨1, [⟨0, 40, 0, 60⟩, ⟨0, 440, 0, 460⟩], none⟩

/-- A chain of net 1 along the west side of the abutment box, `x = 0`, on the
10 by 10 mesh: the vertical segment 0 from contact 0 at `(0,50)` to contact 1
at `(0,250)` and the vertical segment 1 from contact 1 to contact 2 at
`(0,450)`; the routing pads 3 and 4 are attached to the terminal contacts 0
and 2; every contact is referenced twice; each segment loads the north edges
it crosses. -/
def scenarioWestChain : EngineState where
  components := [some ⟨.contact, 1, 0, 50⟩, some ⟨.contact, 1, 0, 250⟩,
    some ⟨.contact, 1, 0, 450⟩, some ⟨.routingPad, 1, 0, 50⟩, some ⟨.routingPad, 1, 0, 450⟩]
  segments := [some ⟨.vertical, 1, some 0, some 1, 0⟩, some ⟨.vertical, 1, some 1, some 2, 0⟩]
  gcontacts := fun g => if g = 0 then [0] else if g = 20 then [1] else if g = 40 then [2] else []
  refCount := fun c => if c < 3 then 2 else 0
  edges := fun e =>
    if e = 1 ∨ e = 21 then ⟨1, [0]⟩ else if e = 41 ∨ e = 61 then ⟨1, [1]⟩ else ⟨0, []⟩
  attached := fun c => if c = 0 then [3] else if c = 2 then [4] else []

/-! # Theorems -/

/-! ## The walk of `RawGCellsUnder` -/

theorem walk_of_isWalk (m : Mesh) (side : Side) (axis : Int) (gEnd : Nat) :
    ∀ (es : List Edge) (g fuel : Nat), m.IsWalk side axis gEnd g es → es.length ≤ fuel →
      RawGCellsUnder.walk m side axis gEnd fuel (m.getEdgeAt g side axis)
        = .ok (es.map Element.ofEdge ++ [⟨gEnd, none⟩])
  | [], _, _, h, _ => by simp [Mesh.IsWalk] at h
  | [e], g, fuel, h, hf => by
    obtain ⟨h1, h2⟩ := h
    obtain ⟨k, rfl⟩ : ∃ k, fuel = k + 1 := ⟨fuel - 1, by simp at hf; omega⟩
    rw [h1]
    simp [RawGCellsUnder.walk, h2, Element.ofEdge]
  | e :: e' :: es, g, fuel, h, hf => by
    obtain ⟨h1, h2, h3⟩ := h
    obtain ⟨k, rfl⟩ : ∃ k, fuel = k + 1 := ⟨fuel - 1, by simp at hf; omega⟩
    have ih := walk_of_isWalk m side axis gEnd (e' :: es) e.target k h3 (by simp at hf ⊢; omega)
    rw [h1]
    simp only [RawGCellsUnder.walk, h2, if_false, ih]
    simp [Element.ofEdge]

theorem isWalk_chain (m : Mesh) (side : Side) (axis : Int) (gEnd : Nat) (hown : m.EdgesOwned) :
    ∀ (es : List Edge) (g : Nat), m.IsWalk side axis gEnd g es →
      es.head?.map Edge.source = some g
      ∧ (∀ e ∈ es, m.getEdgeAt e.source side axis = some e)
      ∧ es.Chain' (fun a b => b.source = a.target)
      ∧ es.getLast?.map Edge.target = some gEnd
      ∧ (∀ e ∈ es.dropLast, e.target ≠ gEnd)
  | [], _, h => by simp [Mesh.IsWalk] at h
  | [e], g, h => by
    obtain ⟨h1, h2⟩ := h
    have := hown _ _ _ _ h1
    subst this
    simp [h1, h2]
  | e :: e' :: es, g, h => by
    obtain ⟨h1, h2, h3⟩ := h
    have hs := hown _ _ _ _ h1
    subst hs
    obtain ⟨i1, i2, i3, i4, i5⟩ := isWalk_chain m side axis gEnd hown (e' :: es) e.target h3
    refine ⟨by simp, ?_, ?_, ?_, ?_⟩
    · intro x hx
      rcases List.mem_cons.1 hx with rfl | hx
      · exact h1
      · exact i2 x hx
    · simp only [List.chain'_cons]
      refine ⟨?_, i3⟩
      simpa using i1
    · simpa [List.getLast?_cons_cons] using i4
    · intro x hx
      simp only [List.dropLast_cons₂, List.mem_cons] at hx
      rcases hx with rfl | hx
      · exact h2
      · exact i5 x hx

/-- The constructor on a horizontal or vertical segment whose two tiles were
found and differ: it is the walk between the two tiles, ordered by `swapIf`. -/
theorem RawGCellsUnder_eq_walk (fuel : Nat) (m : Mesh) (isH : Bool) (axis sourceU targetU : Int)
    (gsource gtarget : Nat)
    (hin : RawGCellsUnder.rejects m (.ofAxis isH axis sourceU targetU) = false)
    (hs : m.getGCellUnder (RawGCellsUnder.lookupOf m (.ofAxis isH axis sourceU targetU)).xsource
      (RawGCellsUnder.lookupOf m (.ofAxis isH axis sourceU targetU)).ysource = some gsource)
    (ht : m.getGCellUnder (RawGCellsUnder.lookupOf m (.ofAxis isH axis sourceU targetU)).xtarget
      (RawGCellsUnder.lookupOf m (.ofAxis isH axis sourceU targetU)).ytarget = some gtarget)
    (hne : gsource ≠ gtarget) :
    RawGCellsUnder.RawGCellsUnder fuel m (.ofAxis isH axis sourceU targetU)
      = match RawGCellsUnder.walk m (walkSide isH) axis
            (swapIf (decide (sourceU > targetU)) (gsource, gtarget)).2 fuel
            (m.getEdgeAt (swapIf (decide (sourceU > targetU)) (gsource, gtarget)).1
              (walkSide isH) axis) with
        | .ok elements => .ok ⟨elements, none⟩
        | .error f => .error f := by
  cases isH
  · simp only [SegmentGeom.ofAxis, RawGCellsUnder.rejects, RawGCellsUnder.lookupOf] at hin hs ht
    simp [RawGCellsUnder.RawGCellsUnder, SegmentGeom.ofAxis, hin, hs, ht, hne, walkSide]
  · simp only [SegmentGeom.ofAxis, RawGCellsUnder.rejects, RawGCellsUnder.lookupOf] at hin hs ht
    simp [RawGCellsUnder.RawGCellsUnder, SegmentGeom.ofAxis, hin, hs, ht, hne, walkSide]

/-- C1: for a horizontal (`isH = true`) or vertical segment that passed the
outside test and whose two looked-up tiles `gsource ≠ gtarget` are joined, in
the order fixed by `swapIf`, by a walk `es` of `getEdgeAt` answers on side
East and axis `Y` (resp. North and `X`), the constructor returns, with enough
fuel, exactly `[(e0.source,e0),...,(e(n-1).source,e(n-1)),(gEnd,nil)]`; each
`e_i` is the answer of `getEdgeAt(side,axis)` on the tile it is listed with,
the first tile is the start tile, each next tile is the target of the previous
edge and the last edge has the end tile as target. -/
theorem RawGCellsUnder_walk_path (fuel : Nat) (m : Mesh) (isH : Bool)
    (axis sourceU targetU : Int) (gsource gtarget : Nat) (es : List Edge)
    (hown : m.EdgesOwned)
    (hin : RawGCellsUnder.rejects m (.ofAxis isH axis sourceU targetU) = false)
    (hs : m.getGCellUnder (RawGCellsUnder.lookupOf m (.ofAxis isH axis sourceU targetU)).xsource
      (RawGCellsUnder.lookupOf m (.ofAxis isH axis sourceU targetU)).ysource = some gsource)
    (ht : m.getGCellUnder (RawGCellsUnder.lookupOf m (.ofAxis isH axis sourceU targetU)).xtarget
      (RawGCellsUnder.lookupOf m (.ofAxis isH axis sourceU targetU)).ytarget = some gtarget)
    (hne : gsource ≠ gtarget)
    (hwalk : m.IsWalk (walkSide isH) axis (swapIf (decide (sourceU > targetU)) (gsource, gtarget)).2
      (swapIf (decide (sourceU > targetU)) (gsource, gtarget)).1 es)
    (hfuel : es.length ≤ fuel) :
    RawGCellsUnder.RawGCellsUnder fuel m (.ofAxis isH axis sourceU targetU)
        = .ok ⟨es.map Element.ofEdge
            ++ [⟨(swapIf (decide (sourceU > targetU)) (gsource, gtarget)).2, none⟩], none⟩
      ∧ (∀ (i : Nat) (h : i < es.length),
          m.getEdgeAt es[i].source (walkSide isH) axis = some es[i])
      ∧ es.head?.map Edge.source = some (swapIf (decide (sourceU > targetU)) (gsource, gtarget)).1
      ∧ (∀ (i : Nat) (h : i + 1 < es.length), es[i + 1].source = es[i].target)
      ∧ es.getLast?.map Edge.target
          = some (swapIf (decide (sourceU > targetU)) (gsource, gtarget)).2 := by
  obtain ⟨c1, c2, c3, c4, _⟩ := isWalk_chain m _ _ _ hown es _ hwalk
  refine ⟨?_, ?_, c1, ?_, c4⟩
  · rw [RawGCellsUnder_eq_walk fuel m isH axis sourceU targetU gsource gtarget hin hs ht hne,
      walk_of_isWalk m _ _ _ es _ fuel hwalk hfuel]
  · intro i h
    exact c2 _ (List.getElem_mem h)
  · intro i h
    exact (List.chain'_iff_get.1 c3) i (by omega)

theorem gridMesh_edgesOwned (nx ny : Nat) (w : Int) : (gridMesh nx ny w).EdgesOwned := by
  intro g side axis edge h
  cases side <;> simp only [gridMesh] at h
  · cases h
  · split at h
    · cases h; rfl
    · cases h
  · cases h
  · split at h
    · cases h; rfl
    · cases h

/-- Witness of C1: the cross-tile segment `(50,50) → (250,50)` of the
end-to-end scenarios on the 10 by 10 mesh of tiles of side 100. -/
theorem RawGCellsUnder_walk_path_witness :
    RawGCellsUnder.RawGCellsUnder 5 (gridMesh 10 10 100) (.ofAxis true 50 50 250)
        = .ok ⟨[⟨0, some ⟨0, 0, 1⟩⟩, ⟨1, some ⟨2, 1, 2⟩⟩, ⟨2, none⟩], none⟩ :=
  (RawGCellsUnder_walk_path 5 (gridMesh 10 10 100) true 50 50 250 0 2 [⟨0, 0, 1⟩, ⟨2, 1, 2⟩]
    (gridMesh_edgesOwned 10 10 100) (by decide) (by decide) (by decide) (by decide)
    (by decide) (by decide)).1

/-! ## The index on a completely tiled mesh -/

theorem tiled_step (m : Mesh) (htiled : m.CompletelyTiled) (isH : Bool) (axis u ut : Int)
    (g gt : Nat) (hg : m.tileAt (pointOn isH axis u) = some g)
    (hgt : m.tileAt (pointOn isH axis ut) = some gt) (hne : g ≠ gt) (hle : u ≤ ut)
    (hin : m.area.containsHalfOpen (pointOn isH axis ut).x (pointOn isH axis ut).y) :
    ∃ e u', m.getEdgeAt g (walkSide isH) axis = some e
      ∧ m.tileAt (pointOn isH axis u') = some e.target ∧ u < u' ∧ u' ≤ ut := by
  have hbox := htiled.under _ _ _ hg
  have hboxt := htiled.under _ _ _ hgt
  have htile : m.IsTile g := ⟨_, _, hg⟩
  cases isH
  · simp only [pointOn, Mesh.tileAt, Box.containsHalfOpen] at *
    have hhi : (m.box g).yMax ≤ ut := by
      by_contra hlt
      exact hne (htiled.unique _ _ _ _ hgt htile ⟨hbox.1, hbox.2.1, by omega, by omega⟩)
    obtain ⟨e, he, het⟩ := htiled.north g axis htile hbox.1 hbox.2.1 (by omega)
    exact ⟨e, (m.box g).yMax, he, het, by omega, hhi⟩
  · simp only [pointOn, Mesh.tileAt, Box.containsHalfOpen] at *
    have hhi : (m.box g).xMax ≤ ut := by
      by_contra hlt
      exact hne (htiled.unique _ _ _ _ hgt htile ⟨by omega, by omega, hbox.2.2.1, hbox.2.2.2⟩)
    obtain ⟨e, he, het⟩ := htiled.east g axis htile hbox.2.2.1 hbox.2.2.2 (by omega)
    exact ⟨e, (m.box g).xMax, he, het, by omega, hhi⟩

theorem isWalk_ne_nil (m : Mesh) (side : Side) (axis : Int) (gEnd g : Nat) (es : List Edge)
    (h : m.IsWalk side axis gEnd g es) : ∃ e rest, es = e :: rest := by
  cases es with
  | nil => exact absurd h (by simp [Mesh.IsWalk])
  | cons e rest => exact ⟨e, rest, rfl⟩

theorem tiled_walk (m : Mesh) (htiled : m.CompletelyTiled) (isH : Bool) (axis ut : Int) (gt : Nat)
    (hgt : m.tileAt (pointOn isH axis ut) = some gt)
    (hin : m.area.containsHalfOpen (pointOn isH axis ut).x (pointOn isH axis ut).y) :
    ∀ (n : Nat) (u : Int) (g : Nat), (ut - u).toNat ≤ n →
      m.tileAt (pointOn isH axis u) = some g → g ≠ gt → u ≤ ut →
      ∃ es, m.IsWalk (walkSide isH) axis gt g es ∧ (es.length : Int) ≤ ut - u
  | 0, u, g, hn, hg, hne, hle => by
    have : u = ut := by omega
    subst this
    rw [hg] at hgt
    exact absurd (Option.some.inj hgt) hne
  | n + 1, u, g, hn, hg, hne, hle => by
    obtain ⟨e, u', he, het, hlt, hle'⟩ := tiled_step m htiled isH axis u ut g gt hg hgt hne hle hin
    by_cases hend : e.target = gt
    · exact ⟨[e], ⟨he, hend⟩, by simp; omega⟩
    · obtain ⟨es, hes, hlen⟩ := tiled_walk m htiled isH axis ut gt hgt hin n u' e.target
        (by omega) het hend hle'
      obtain ⟨e', rest, rfl⟩ := isWalk_ne_nil _ _ _ _ _ _ hes
      exact ⟨e :: e' :: rest, ⟨he, hend, hes⟩, by simp at hlen ⊢; omega⟩

theorem contiguous_of_isWalk (m : Mesh) (side : Side) (axis : Int) (gEnd : Nat)
    (hown : m.EdgesOwned) :
    ∀ (es : List Edge) (g : Nat), m.IsWalk side axis gEnd g es →
      Contiguous (es.map Element.ofEdge ++ [⟨gEnd, none⟩])
      ∧ (es.map Element.ofEdge ++ [(⟨gEnd, none⟩ : Element)]).head?.map Element.gcell = some g
  | [], _, h => by simp [Mesh.IsWalk] at h
  | [e], g, h => by
    obtain ⟨h1, h2⟩ := h
    have := hown _ _ _ _ h1
    simp [Contiguous, Element.ofEdge, h2, this]
  | e :: e' :: es, g, h => by
    obtain ⟨h1, h2, h3⟩ := h
    have hs := hown _ _ _ _ h1
    have hs' := hown _ _ _ _ (isWalk_ne_nil _ _ _ _ _ _ h3 |> fun ⟨_, _, hh⟩ => by
      cases hh
      cases es with
      | nil => exact h3.1
      | cons _ _ => exact h3.1)
    obtain ⟨i1, i2⟩ := contiguous_of_isWalk m side axis gEnd hown (e' :: es) e.target h3
    refine ⟨?_, by simp [Element.ofEdge, hs]⟩
    simp only [List.map_cons, List.cons_append, Contiguous] at i1 ⊢
    exact ⟨⟨e, by simp [Element.ofEdge], by simp [Element.ofEdge], by simp [Element.ofEdge, hs']⟩, i1⟩

theorem lookupOf_inside (m : Mesh) (isH : Bool) (axis sourceU targetU : Int)
    (hsrc : m.area.containsHalfOpen (pointOn isH axis sourceU).x (pointOn isH axis sourceU).y)
    (htgt : m.area.containsHalfOpen (pointOn isH axis targetU).x (pointOn isH axis targetU).y) :
    RawGCellsUnder.lookupOf m (.ofAxis isH axis sourceU targetU)
      = ⟨(pointOn isH axis sourceU).x, (pointOn isH axis sourceU).y,
          (pointOn isH axis targetU).x, (pointOn isH axis targetU).y⟩ := by
  cases isH <;>
    simp only [pointOn, Box.containsHalfOpen] at hsrc htgt <;>
    simp only [RawGCellsUnder.lookupOf, RawGCellsUnder.lookupCoordinates, RawGCellsUnder.clamp,
      SegmentGeom.ofAxis, SegmentGeom.getSourcePosition, SegmentGeom.getTargetPosition, pointOn,
      Clamped.mk.injEq] <;>
    refine ⟨?_, ?_, ?_, ?_⟩ <;>
    omega

/-- C2 (amended): on a completely tiled mesh, for every horizontal or vertical
segment whose two ends lie inside the abutment box and that passes the outside
test, whatever its orientation, the constructor returns (with fuel at least
the length of the segment) a contiguous tile path listed in the walking
direction: its first tile is the one under the lower end of the segment (the
source when the segment runs eastward or northward, the target otherwise) and
its last tile the one under the higher end. -/
theorem RawGCellsUnder_tiled_path (fuel : Nat) (m : Mesh) (isH : Bool)
    (axis sourceU targetU : Int) (htiled : m.CompletelyTiled)
    (hsrc : m.area.containsHalfOpen (pointOn isH axis sourceU).x (pointOn isH axis sourceU).y)
    (htgt : m.area.containsHalfOpen (pointOn isH axis targetU).x (pointOn isH axis targetU).y)
    (hin : RawGCellsUnder.rejects m (.ofAxis isH axis sourceU targetU) = false)
    (hfuel : (targetU - sourceU).natAbs ≤ fuel) :
    ∃ gLow gHigh elements,
      m.tileAt (pointOn isH axis (min sourceU targetU)) = some gLow
      ∧ m.tileAt (pointOn isH axis (max sourceU targetU)) = some gHigh
      ∧ RawGCellsUnder.RawGCellsUnder fuel m (.ofAxis isH axis sourceU targetU)
          = .ok ⟨elements, none⟩
      ∧ Contiguous elements
      ∧ elements.head?.map Element.gcell = some gLow
      ∧ elements.getLast?.map Element.gcell = some gHigh := by
  obtain ⟨gs, hgs⟩ := htiled.covered _ _ hsrc
  obtain ⟨gt, hgt⟩ := htiled.covered _ _ htgt
  have hlook := lookupOf_inside m isH axis sourceU targetU hsrc htgt
  have hs : m.getGCellUnder (RawGCellsUnder.lookupOf m (.ofAxis isH axis sourceU targetU)).xsource
      (RawGCellsUnder.lookupOf m (.ofAxis isH axis sourceU targetU)).ysource = some gs := by
    rw [hlook]; exact hgs
  have ht : m.getGCellUnder (RawGCellsUnder.lookupOf m (.ofAxis isH axis sourceU targetU)).xtarget
      (RawGCellsUnder.lookupOf m (.ofAxis isH axis sourceU targetU)).ytarget = some gt := by
    rw [hlook]; exact hgt
  by_cases hne : gs = gt
  · subst hne
    refine ⟨gs, gs, [⟨gs, none⟩], ?_, ?_, ?_, by simp [Contiguous], by simp, by simp⟩
    · rcases min_choice sourceU targetU with h | h <;> rw [h] <;> assumption
    · rcases max_choice sourceU targetU with h | h <;> rw [h] <;> assumption
    · have hs' := hs
      have ht' := ht
      simp only [RawGCellsUnder.lookupOf] at hs' ht'
      simp only [RawGCellsUnder.rejects] at hin
      simp [RawGCellsUnder.RawGCellsUnder, hin, hs', ht']
  · have heq := RawGCellsUnder_eq_walk fuel m isH axis sourceU targetU gs gt hin hs ht hne
    by_cases hrev : sourceU > targetU
    · obtain ⟨es, hes, hlen⟩ := tiled_walk m htiled isH axis sourceU gs hgs hsrc
        (sourceU - targetU).toNat targetU gt le_rfl hgt (Ne.symm hne) (by omega)
      have hfu : es.length ≤ fuel := by omega
      obtain ⟨c1, c2⟩ := contiguous_of_isWalk m _ _ _ htiled.owned es _ hes
      refine ⟨gt, gs, es.map Element.ofEdge ++ [⟨gs, none⟩], ?_, ?_, ?_, c1, c2, by simp⟩
      · rw [min_eq_right (by omega)]; exact hgt
      · rw [max_eq_left (by omega)]; exact hgs
      · have hsw : swapIf (decide (sourceU > targetU)) (gs, gt) = (gt, gs) := by
          simp [swapIf, hrev]
        rw [heq, hsw, walk_of_isWalk m _ _ _ es _ fuel hes hfu]
    · obtain ⟨es, hes, hlen⟩ := tiled_walk m htiled isH axis targetU gt hgt htgt
        (targetU - sourceU).toNat sourceU gs le_rfl hgs hne (by omega)
      have hfu : es.length ≤ fuel := by omega
      obtain ⟨c1, c2⟩ := contiguous_of_isWalk m _ _ _ htiled.owned es _ hes
      refine ⟨gs, gt, es.map Element.ofEdge ++ [⟨gt, none⟩], ?_, ?_, ?_, c1, c2, by simp⟩
      · rw [min_eq_left (by omega)]; exact hgs
      · rw [max_eq_right (by omega)]; exact hgt
      · have hsw : swapIf (decide (sourceU > targetU)) (gs, gt) = (gs, gt) := by
          simp only [swapIf, decide_eq_true_eq, hrev, if_false]
        rw [heq, hsw, walk_of_isWalk m _ _ _ es _ fuel hes hfu]

theorem gridMesh_tiled : (gridMesh 10 10 100).CompletelyTiled where
  covered := by
    intro x y h
    simp only [gridMesh, Box.containsHalfOpen] at h ⊢
    rw [if_pos (by omega)]
    exact ⟨_, rfl⟩
  under := by
    intro x y g h
    simp only [gridMesh] at h
    split at h
    · cases h
      simp only [gridMesh, Box.containsHalfOpen]
      omega
    · cases h
  unique := by
    intro x y g g' h ⟨x', y', h'⟩ hb
    simp only [gridMesh] at h h'
    split at h
    · split at h'
      · cases h
        cases h'
        simp only [gridMesh, Box.containsHalfOpen] at hb
        omega
      · cases h'
    · cases h
  owned := gridMesh_edgesOwned 10 10 100
  east := by
    intro g axis ⟨x', y', h'⟩ h1 h2 h3
    simp only [gridMesh] at h'
    split at h'
    · cases h'
      simp only [gridMesh] at h1 h2 h3 ⊢
      rw [if_pos (by omega), if_pos (by omega)]
      refine ⟨_, rfl, ?_⟩
      simp only [Option.some.injEq]
      omega
    · cases h'
  north := by
    intro g axis ⟨x', y', h'⟩ h1 h2 h3
    simp only [gridMesh] at h'
    split at h'
    · cases h'
      simp only [gridMesh] at h1 h2 h3 ⊢
      rw [if_pos (by omega), if_pos (by omega)]
      refine ⟨_, rfl, ?_⟩
      simp only [Option.some.injEq]
      omega
    · cases h'

/-- Witness of C2 (amended): the westward segment `(250,50) → (50,50)` on the
10 by 10 mesh of tiles of side 100. -/
theorem RawGCellsUnder_tiled_path_witness :
    ∃ gLow gHigh elements,
      (gridMesh 10 10 100).tileAt (pointOn true 50 (min 250 50)) = some gLow
      ∧ (gridMesh 10 10 100).tileAt (pointOn true 50 (max 250 50)) = some gHigh
      ∧ RawGCellsUnder.RawGCellsUnder 200 (gridMesh 10 10 100) (.ofAxis true 50 250 50)
          = .ok ⟨elements, none⟩
      ∧ Contiguous elements
      ∧ elements.head?.map Element.gcell = some gLow
      ∧ elements.getLast?.map Element.gcell = some gHigh :=
  RawGCellsUnder_tiled_path 200 (gridMesh 10 10 100) true 50 250 50 gridMesh_tiled
    (by decide) (by decide) (by decide) (by decide)

/-- C2 (counterexample): the 10 by 10 mesh is completely tiled and the
westward segment `(250,50) → (50,50)` lies inside it, yet the first tile of
the answer (tile 0) is not the tile under the source position (tile 2). -/
theorem RawGCellsUnder_first_tile_not_source :
    (gridMesh 10 10 100).CompletelyTiled
      ∧ ¬ (∀ r, RawGCellsUnder.RawGCellsUnder 5 (gridMesh 10 10 100) (.horizontal 50 250 50)
            = .ok r →
          r.elements.head?.map Element.gcell
            = (gridMesh 10 10 100).tileAt (SegmentGeom.horizontal 50 250 50).getSourcePosition) := by
  refine ⟨gridMesh_tiled, fun h => ?_⟩
  have h2 := h ⟨[⟨0, some ⟨0, 0, 1⟩⟩, ⟨1, some ⟨2, 1, 2⟩⟩, ⟨2, none⟩], none⟩ rfl
  revert h2
  decide

/-! ## The outside test, the clamp and the single-tile answer -/

/-- C3 (the code at the failing inputs): on the 10 by 10 mesh, whose abutment
box is `[0,1000) x [0,1000)`, the vertical segment `(0,30) → (0,250)` lies on
the closed west side of the box and the westward segment
`(1200,50) → (500,50)` has its target inside the box; the constructor reports
both as outside and returns no element.  The vertical segment
`(1000,30) → (1000,250)`, which lies on the open east side, is not reported as
outside. -/
theorem RawGCellsUnder_rejects_segment_inside :
    ((gridMesh 10 10 100).area.containsHalfOpen 0 30
        ∧ RawGCellsUnder.RawGCellsUnder 5 (gridMesh 10 10 100) (.vertical 0 30 250)
          = .ok ⟨[], some .outsideArea⟩)
      ∧ ((gridMesh 10 10 100).area.containsHalfOpen 500 50
        ∧ RawGCellsUnder.RawGCellsUnder 5 (gridMesh 10 10 100) (.horizontal 50 1200 500)
          = .ok ⟨[], some .outsideArea⟩)
      ∧ (¬ (gridMesh 10 10 100).area.containsHalfOpen 1000 30
        ∧ RawGCellsUnder.rejects (gridMesh 10 10 100) (.vertical 1000 30 250) = false) :=
  ⟨⟨by decide, rfl⟩, ⟨by decide, rfl⟩, by decide, rfl⟩

/-- C4 (the code at the failing input): for the vertical segment
`(1000,30) → (1000,250)` on the 10 by 10 mesh (`xMax = 1000`) the clamped
source abscissa equals `xMax` and is looked up unchanged, while the target
abscissa is decreased to 999; the source look-up then fails. -/
theorem RawGCellsUnder_source_bound_not_decreased :
    RawGCellsUnder.rejects (gridMesh 10 10 100) (.vertical 1000 30 250) = false
      ∧ RawGCellsUnder.clamp (gridMesh 10 10 100).area
          (SegmentGeom.vertical 1000 30 250).getSourcePosition
          (SegmentGeom.vertical 1000 30 250).getTargetPosition = ⟨1000, 30, 1000, 250⟩
      ∧ RawGCellsUnder.lookupOf (gridMesh 10 10 100) (.vertical 1000 30 250)
          = ⟨1000, 30, 999, 250⟩
      ∧ RawGCellsUnder.RawGCellsUnder 5 (gridMesh 10 10 100) (.vertical 1000 30 250)
          = .ok ⟨[], some .sourceNotUnder⟩ :=
  ⟨rfl, by decide, by decide, rfl⟩

/-- C5: for every segment, of any kind, that passes the outside test and whose
two look-ups answer the same tile `g`, the constructor returns exactly
`[(g, nil)]`, whatever the fuel. -/
theorem RawGCellsUnder_same_tile (fuel : Nat) (m : Mesh) (segment : SegmentGeom) (g : Nat)
    (hin : RawGCellsUnder.rejects m segment = false)
    (hs : m.getGCellUnder (RawGCellsUnder.lookupOf m segment).xsource
      (RawGCellsUnder.lookupOf m segment).ysource = some g)
    (ht : m.getGCellUnder (RawGCellsUnder.lookupOf m segment).xtarget
      (RawGCellsUnder.lookupOf m segment).ytarget = some g) :
    RawGCellsUnder.RawGCellsUnder fuel m segment = .ok ⟨[⟨g, none⟩], none⟩ := by
  simp only [RawGCellsUnder.lookupOf] at hs ht
  simp only [RawGCellsUnder.rejects] at hin
  simp [RawGCellsUnder.RawGCellsUnder, hin, hs, ht]

/-- Witness of C5: the single-tile segment `(30,50) → (70,50)` of the
end-to-end scenarios, with no fuel at all. -/
theorem RawGCellsUnder_same_tile_witness :
    RawGCellsUnder.RawGCellsUnder 0 (gridMesh 10 10 100) (.horizontal 50 30 70)
      = .ok ⟨[⟨0, none⟩], none⟩ :=
  RawGCellsUnder_same_tile 0 (gridMesh 10 10 100) (.horizontal 50 30 70) 0
    (by decide) (by decide) (by decide)

/-! ## breakAt -/

theorem walk_dropLast_edges (m : Mesh) (side : Side) (axis : Int) (gtarget : Nat) :
    ∀ (fuel : Nat) (first : Option Edge) (l : List Element),
      RawGCellsUnder.walk m side axis gtarget fuel first = .ok l →
      ∀ x ∈ l.dropLast, x.edge ≠ none
  | fuel, none, l, h => by
    cases fuel <;> simp [RawGCellsUnder.walk] at h <;> subst h <;> simp
  | 0, some _, l, h => by simp [RawGCellsUnder.walk] at h
  | fuel + 1, some edge, l, h => by
    simp only [RawGCellsUnder.walk] at h
    split at h
    · cases h
      simp
    · split at h
      · rename_i rest hrest
        cases h
        have ih := walk_dropLast_edges m side axis gtarget fuel _ rest hrest
        intro x hx
        cases rest with
        | nil => simp at hx
        | cons r rs =>
          simp only [List.dropLast_cons₂, List.mem_cons] at hx
          rcases hx with rfl | hx
          · simp
          · exact ih x hx
      · cases h

theorem RawGCellsUnder_dropLast_edges (fuel : Nat) (m : Mesh) (segment : SegmentGeom)
    (r : RawGCellsUnder) (h : RawGCellsUnder.RawGCellsUnder fuel m segment = .ok r) :
    ∀ x ∈ r.elements.dropLast, x.edge ≠ none := by
  simp only [RawGCellsUnder.RawGCellsUnder] at h
  split at h
  · cases h; simp
  · split at h
    · cases h; simp
    · cases h; simp
    · split at h
      · cases h; simp
      · split at h
        · split at h
          · rename_i l hl
            cases h
            exact walk_dropLast_edges _ _ _ _ _ _ _ hl
          · cases h
        · split at h
          · rename_i l hl
            cases h
            exact walk_dropLast_edges _ _ _ _ _ _ _ hl
          · cases h
        · cases h

theorem length_replaceFirst (orig repl : Nat) :
    ∀ l : List Nat, (replaceFirst orig repl l).length = l.length
  | [] => rfl
  | s :: rest => by
    simp only [replaceFirst]
    split
    · simp
    · simp [length_replaceFirst orig repl rest]

/-- The loop of line 516 succeeds on elements that carry an edge and touches
nothing but the segment lists of edges. -/
theorem replaceOnEdges_ok (orig repl : Nat) :
    ∀ (l : List Element) (st : EngineState), (∀ x ∈ l, x.edge ≠ none) →
      ∃ st', replaceOnEdges orig repl l st = .ok st'
        ∧ st'.segments = st.segments ∧ st'.components = st.components
        ∧ st'.gcontacts = st.gcontacts ∧ st'.refCount = st.refCount
        ∧ (∀ e, (st'.edges e).load = (st.edges e).load)
        ∧ (∀ e, (st'.edges e).segments.length = (st.edges e).segments.length)
  | [], st, _ => ⟨st, rfl, rfl, rfl, rfl, rfl, fun _ => rfl, fun _ => rfl⟩
  | x :: rest, st, h => by
    have hx := h x (List.mem_cons_self _ _)
    obtain ⟨edge, hedge⟩ := Option.ne_none_iff_exists'.1 hx
    obtain ⟨st', h1, h2, h3, h4, h5, h6, h7⟩ := replaceOnEdges_ok orig repl rest
      (Edge.replace st edge orig repl) (fun y hy => h y (List.mem_cons_of_mem _ hy))
    refine ⟨st', ?_, h2, h3, h4, h5, ?_, ?_⟩
    · simp only [replaceOnEdges, hedge]
      exact h1
    · intro e
      rw [h6 e]
      simp only [Edge.replace, Function.update_apply]
      split
      · rename_i he
        subst he
        rfl
      · rfl
    · intro e
      rw [h7 e]
      simp only [Edge.replace, Function.update_apply]
      split
      · rename_i he
        subst he
        simp [length_replaceFirst]
      · rfl

theorem getGContact_frame (m : Mesh) (st : EngineState) (gcell net : Nat) :
    (GCell.getGContact m st gcell net).2.segments = st.segments
      ∧ (GCell.getGContact m st gcell net).2.edges = st.edges := by
  simp only [GCell.getGContact]
  split <;> exact ⟨rfl, rfl⟩

theorem segment_lt_length (st : EngineState) (s : Nat) (seg : Segment)
    (h : st.segment s = some seg) : s < st.segments.length := by
  by_contra hlt
  have : st.segments[s]? = none := List.getElem?_eq_none (by omega)
  simp [EngineState.segment, this] at h

theorem findIdx_lt_of_mem (l : List Element) (g : Nat) (h : g ∈ l.map Element.gcell) :
    l.findIdx (fun e => e.gcell == g) < l.length := by
  apply List.findIdx_lt_length_of_exists
  obtain ⟨e, he, rfl⟩ := List.mem_map.1 h
  exact ⟨e, he, by simp⟩

theorem findIdx_eq_of_not_mem (l : List Element) (g : Nat) (h : g ∉ l.map Element.gcell) :
    l.findIdx (fun e => e.gcell == g) = l.length := by
  apply List.findIdx_eq_length.2
  intro e he
  have : e.gcell ≠ g := fun hh => h (List.mem_map.2 ⟨e, he, hh⟩)
  simpa using this

/-- C6: for a live horizontal or vertical segment `s` anchored at its target
and a tile `g` among the tiles the index returns for `s`, `breakAt(s,g)`
returns `c = g.getGContact(s.net)`; afterwards `s` is unchanged but for its
target, which is `c`; the segment arena has grown by exactly one segment, of
the kind, net and axis of `s`, with source `c` and target the original target
of `s`; every other segment is untouched. -/
theorem breakAt_splits (fuel : Nat) (m : Mesh) (st : EngineState) (segment breakGCell : Nat)
    (seg : Segment) (target : Nat) (gcells : RawGCellsUnder)
    (hseg : st.segment segment = some seg)
    (hkind : seg.kind = .horizontal ∨ seg.kind = .vertical)
    (htarget : seg.target = some target)
    (hunder : RawGCellsUnder.RawGCellsUnder fuel m (st.geom seg) = .ok gcells)
    (hmem : breakGCell ∈ gcells.elements.map Element.gcell) :
    ∃ r, AnabaticEngine.breakAt fuel m st segment breakGCell = .ok r
      ∧ r.status = .done
      ∧ r.breakContact = (GCell.getGContact m st breakGCell seg.net).1
      ∧ r.state.segment segment = some { seg with target := some r.breakContact }
      ∧ r.splitted = some st.segments.length
      ∧ r.state.segments.length = st.segments.length + 1
      ∧ r.state.segment st.segments.length
          = some ⟨seg.kind, seg.net, some r.breakContact, some target, seg.axis⟩
      ∧ ∀ j, j ≠ segment → j < st.segments.length →
          r.state.segments[j]? = st.segments[j]? := by
  have hi := findIdx_lt_of_mem _ _ hmem
  have hlt := segment_lt_length st segment seg hseg
  have hfr := (getGContact_frame m st breakGCell seg.net).1
  have hedges : ∀ x ∈ (gcells.elements.dropLast).drop
      (gcells.elements.findIdx (fun e => e.gcell == breakGCell)), x.edge ≠ none :=
    fun x hx => RawGCellsUnder_dropLast_edges fuel m _ gcells hunder x (List.mem_of_mem_drop hx)
  obtain ⟨st4, h1, h2, -⟩ := replaceOnEdges_ok segment
    (((GCell.getGContact m st breakGCell seg.net).2.retarget segment seg
      (GCell.getGContact m st breakGCell seg.net).1).createSegment seg.kind seg.net
      (GCell.getGContact m st breakGCell seg.net).1 target seg.axis).1 _
    (((GCell.getGContact m st breakGCell seg.net).2.retarget segment seg
      (GCell.getGContact m st breakGCell seg.net).1).createSegment seg.kind seg.net
      (GCell.getGContact m st breakGCell seg.net).1 target seg.axis).2 hedges
  simp only [EngineState.createSegment, EngineState.retarget, hfr, List.set_set,
    List.length_set] at h1 h2
  refine ⟨⟨(GCell.getGContact m st breakGCell seg.net).1, st4, .done,
    some st.segments.length⟩, ?_, rfl, rfl, ?_, rfl, ?_, ?_, ?_⟩
  · simp only [AnabaticEngine.breakAt, hseg, hunder, Nat.ne_of_lt hi, if_false, htarget,
      EngineState.createSegment, EngineState.retarget, hfr, List.set_set, List.length_set]
    rcases hkind with hk | hk <;> simp only [hk, h1] <;> rw [hk] at h1 <;> simp only [h1]
  · simp [EngineState.segment, h2, List.getElem?_append_left, hlt, List.getElem?_set]
  · simp [h2]
  · simp [EngineState.segment, h2, List.getElem?_append_right]
  · intro j hj hjlt
    simp [h2, List.getElem?_append_left, hjlt, List.getElem?_set, Ne.symm hj]

/-- Witness of C6: scenario 3, `breakAt(s, tile(1,0))` on the segment of
scenario 2. -/
theorem breakAt_splits_witness :
    ∃ r, AnabaticEngine.breakAt 5 (gridMesh 10 10 100) scenario2 0 1 = .ok r
      ∧ r.status = .done
      ∧ r.breakContact = (GCell.getGContact (gridMesh 10 10 100) scenario2 1 1).1
      ∧ r.state.segment 0 = some ⟨.horizontal, 1, some 0, some r.breakContact, 50⟩
      ∧ r.splitted = some 1
      ∧ r.state.segments.length = 1 + 1
      ∧ r.state.segment 1 = some ⟨.horizontal, 1, some r.breakContact, some 1, 50⟩
      ∧ ∀ j, j ≠ 0 → j < 1 → r.state.segments[j]? = scenario2.segments[j]? :=
  breakAt_splits 5 (gridMesh 10 10 100) scenario2 0 1 ⟨.horizontal, 1, some 0, some 1, 50⟩ 1
    ⟨[⟨0, some ⟨0, 0, 1⟩⟩, ⟨1, some ⟨2, 1, 2⟩⟩, ⟨2, none⟩], none⟩
    rfl (Or.inl rfl) rfl rfl (by decide)

/-- C7 (the code at the failing input): on the westward segment of scenario 2
(source over tile 2, target over tile 0), `breakAt(s, tile(1,0))` hands the
east edge of tile 1 (edge 2) to the new segment 1 and leaves the east edge of
tile 0 (edge 0) to `s`; yet afterwards the new segment, from the break contact
to the original target, crosses edge 0 only, and `s` crosses edge 2 only. -/
theorem breakAt_westward_replaces_source_side :
    (AnabaticEngine.breakAt 5 (gridMesh 10 10 100) scenario2West 0 1).toOption.map
        (fun r => (r.status, r.splitted, r.state.edges 0, r.state.edges 2,
          (r.state.segment 1).map
            (fun new => RawGCellsUnder.RawGCellsUnder 5 (gridMesh 10 10 100) (r.state.geom new)
              |>.toOption),
          (r.state.segment 0).map
            (fun old => RawGCellsUnder.RawGCellsUnder 5 (gridMesh 10 10 100) (r.state.geom old)
              |>.toOption)))
      = some (.done, some 1, ⟨1, [0]⟩, ⟨1, [1]⟩,
          some (some ⟨[⟨0, some ⟨0, 0, 1⟩⟩, ⟨1, none⟩], none⟩),
          some (some ⟨[⟨1, some ⟨2, 1, 2⟩⟩, ⟨2, none⟩], none⟩)) :=
  rfl

/-- C8: when the index returns for a live segment a sequence, possibly empty,
that does not hold `breakGCell`, `breakAt` takes the error exit: it returns the
contact given by `getGContact`, creates no segment, and leaves every segment
(hence the anchors of `segment`) and every edge as they were. -/
theorem breakAt_not_over (fuel : Nat) (m : Mesh) (st : EngineState) (segment breakGCell : Nat)
    (seg : Segment) (gcells : RawGCellsUnder)
    (hseg : st.segment segment = some seg)
    (hunder : RawGCellsUnder.RawGCellsUnder fuel m (st.geom seg) = .ok gcells)
    (hnot : breakGCell ∉ gcells.elements.map Element.gcell) :
    ∃ r, AnabaticEngine.breakAt fuel m st segment breakGCell = .ok r
      ∧ r.status = .notOver
      ∧ r.breakContact = (GCell.getGContact m st breakGCell seg.net).1
      ∧ r.splitted = none
      ∧ r.state.segments = st.segments
      ∧ r.state.edges = st.edges := by
  have hi := findIdx_eq_of_not_mem _ _ hnot
  have hfr := getGContact_frame m st breakGCell seg.net
  refine ⟨⟨(GCell.getGContact m st breakGCell seg.net).1,
    (GCell.getGContact m st breakGCell seg.net).2, .notOver, none⟩, ?_, rfl, rfl, rfl,
    hfr.1, hfr.2⟩
  simp only [AnabaticEngine.breakAt, hseg, hunder, hi, if_true]

/-- Witness of C8: the segment of scenario 2 and tile 5, which it does not
cross. -/
theorem breakAt_not_over_witness :
    ∃ r, AnabaticEngine.breakAt 5 (gridMesh 10 10 100) scenario2 0 5 = .ok r
      ∧ r.status = .notOver
      ∧ r.breakContact = (GCell.getGContact (gridMesh 10 10 100) scenario2 5 1).1
      ∧ r.splitted = none
      ∧ r.state.segments = scenario2.segments
      ∧ r.state.edges = scenario2.edges :=
  breakAt_not_over 5 (gridMesh 10 10 100) scenario2 0 5 ⟨.horizontal, 1, some 0, some 1, 50⟩
    ⟨[⟨0, some ⟨0, 0, 1⟩⟩, ⟨1, some ⟨2, 1, 2⟩⟩, ⟨2, none⟩], none⟩ rfl rfl (by decide)

/-- C9 (the code at the failing input): `breakAt` on the segment of scenario 2
and tile 5, which it does not cross, takes the error exit, and yet tile 5,
which had no global contact, now has one, the new component 2, with reference
count 1, to which no segment is attached. -/
theorem breakAt_not_over_mutates_gcontacts :
    (scenario2.gcontacts 5, scenario2.refCount 2, scenario2.components.length) = ([], 0, 2)
      ∧ (AnabaticEngine.breakAt 5 (gridMesh 10 10 100) scenario2 0 5).toOption.map
          (fun r => (r.status, r.breakContact, r.state.gcontacts 5, r.state.refCount 2,
            r.state.component 2, r.state.segments))
        = some (.notOver, 2, [2], 1, some ⟨.contact, 1, 550, 50⟩,
            [some ⟨.horizontal, 1, some 0, some 1, 50⟩]) :=
  ⟨rfl, rfl⟩

/-- C10 (the code at the failing input): `breakAt` on the segment of
`scenarioOther` (neither horizontal nor vertical, from contact 0 to contact 1)
and tile 0 creates no segment, but returns after the target hook has been
moved: the target of the segment is now contact 0, the break contact, not its
original target contact 1. -/
theorem breakAt_unsupported_kind_retargets :
    scenarioOther.segment 0 = some ⟨.other, 1, some 0, some 1, 0⟩
      ∧ (AnabaticEngine.breakAt 5 (gridMesh 10 10 100) scenarioOther 0 0).toOption.map
          (fun r => (r.status, r.breakContact, r.splitted, r.state.segments, r.state.refCount 0))
        = some (.unsupportedKind, 0, none, [some ⟨.other, 1, some 0, some 0, 0⟩], 2) :=
  ⟨rfl, rfl⟩


/-! ## Look-up tables -/

theorem Lut.find_insert_self {α : Type} (lut : Lut α) (key : Nat) (value : α)
    (h : Lut.find lut key = none) : Lut.find (Lut.insert lut key value) key = some value := by
  simp only [Lut.insert, h]
  simp only [Lut.find] at h ⊢
  induction lut with
  | nil => simp [List.lookup]
  | cons kv rest ih =>
    obtain ⟨k, v⟩ := kv
    by_cases hk : key = k
    · subst hk
      simp [List.lookup] at h
    · have hb : (key == k) = false := by simpa using hk
      simp only [List.lookup, hb] at h ⊢
      simpa using ih h

theorem Lut.insert_of_find_none {α : Type} (lut : Lut α) (key : Nat) (value : α)
    (h : Lut.find lut key = none) : Lut.insert lut key value = lut ++ [(key, value)] := by
  simp [Lut.insert, h]

theorem Lut.insert_of_find_some {α : Type} (lut : Lut α) (key : Nat) (value old : α)
    (h : Lut.find lut key = some old) : Lut.insert lut key value = lut := by
  simp [Lut.insert, h]


/-! ## unify -/

/-- C11 (the code at the failing inputs): in scenario 2 contact 0 has a single
slave, the horizontal segment 0; a contact alone in its tile, as left by a
break whose segments are gone, has none.  On both `unify` returns `true`
without any merge, after an `unrefContact` that brings the reference count to
zero and destroys the contact, in the first case under the segment still
anchored on it. -/
theorem unify_true_without_merge :
    (scenario2.ringOf 0 = [.segment 0]
        ∧ (AnabaticEngine.unify 5 (gridMesh 10 10 100) scenario2 0).toOption.map
            (fun r => (r.1, r.2.segments, r.2.component 0, r.2.refCount 0, r.2.gcontacts 0))
          = some (true, [some ⟨.horizontal, 1, some 0, some 1, 50⟩], none, 0, []))
      ∧ (({ scenario2 with segments := [] } : EngineState).ringOf 1 = []
        ∧ (AnabaticEngine.unify 5 (gridMesh 10 10 100)
              ({ scenario2 with segments := [] } : EngineState) 1).toOption.map
            (fun r => (r.1, r.2.segments, r.2.component 1, r.2.refCount 1, r.2.gcontacts 2))
          = some (true, [], none, 0, [])) :=
  ⟨⟨rfl, rfl⟩, rfl, rfl⟩

/-- A coordinate that lies on the constraint and on the side of every tile
lies on the intersection. -/
theorem unifyConstrain_mem (m : Mesh) (vertical : Bool) (v : Int) :
    ∀ (l : List Element) (constraints : Interval),
      constraints.vMin ≤ v → v ≤ constraints.vMax →
      (∀ e ∈ l, (GCell.getSide m e.gcell vertical).vMin ≤ v
        ∧ v ≤ (GCell.getSide m e.gcell vertical).vMax) →
      (AnabaticEngine.unifyConstrain m vertical l constraints).vMin ≤ v
        ∧ v ≤ (AnabaticEngine.unifyConstrain m vertical l constraints).vMax
  | [], _, h1, h2, _ => ⟨h1, h2⟩
  | e :: rest, c, h1, h2, h => by
    have he := h e (List.mem_cons_self _ _)
    have hc : c.isEmpty = false := by
      simp only [Interval.isEmpty, decide_eq_false_iff_not]
      omega
    have hs : (GCell.getSide m e.gcell vertical).isEmpty = false := by
      simp only [Interval.isEmpty, decide_eq_false_iff_not]
      omega
    simp only [AnabaticEngine.unifyConstrain]
    apply unifyConstrain_mem m vertical v rest
    · simp only [Interval.intersection, hc, hs, Bool.false_eq_true, if_false]
      omega
    · simp only [Interval.intersection, hc, hs, Bool.false_eq_true, if_false]
      omega
    · exact fun x hx => h x (List.mem_cons_of_mem _ hx)

/-- When the tiles under the first segment all hold one coordinate `v` of the
orthogonal axis, as the tiles under a straight wire hold its axis, an empty
intersection over the tiles of both segments means that there is a tile under
the second one. -/
theorem second_tiles_of_empty (m : Mesh) (vertical : Bool) (v : Int) (l₀ l₁ : List Element)
    (hv : Interval.full.vMin ≤ v ∧ v ≤ Interval.full.vMax)
    (hshare : ∀ e ∈ l₀, (GCell.getSide m e.gcell vertical).vMin ≤ v
      ∧ v ≤ (GCell.getSide m e.gcell vertical).vMax)
    (hempty : (AnabaticEngine.unifyConstrain m vertical (l₀ ++ l₁) Interval.full).isEmpty = true) :
    l₁ ≠ [] := by
  intro hnil
  subst hnil
  rw [List.append_nil] at hempty
  have h := unifyConstrain_mem m vertical v l₀ Interval.full hv.1 hv.2 hshare
  simp only [Interval.isEmpty, decide_eq_true_eq] at hempty
  omega

/-- C13 (the code at the failing input): on the eastward segment of scenario
2, `breakAt(s, tile(1,0))` followed by `unify` of the break contact returns
`true` and gives back the segment and the edges of scenario 2; on the same
segment drawn westward it returns `true` as well, but the east edge of tile 1
(edge 2), which held `s` before the break, is left holding the destroyed
segment 1. -/
theorem breakAt_unify_westward_not_restored :
    ((scenario2.segment 0, scenario2.edges 0, scenario2.edges 2)
        = (some ⟨.horizontal, 1, some 0, some 1, 50⟩, ⟨1, [0]⟩, ⟨1, [0]⟩)
      ∧ (AnabaticEngine.breakAt 5 (gridMesh 10 10 100) scenario2 0 1).toOption.bind
          (fun r =>
            (AnabaticEngine.unify 5 (gridMesh 10 10 100) r.state r.breakContact).toOption.map
              (fun u => (u.1, u.2.segment 0, u.2.segment 1, u.2.edges 0, u.2.edges 2)))
        = some (true, some ⟨.horizontal, 1, some 0, some 1, 50⟩, none, ⟨1, [0]⟩, ⟨1, [0]⟩))
    ∧ ((scenario2West.segment 0, scenario2West.edges 0, scenario2West.edges 2)
        = (some ⟨.horizontal, 1, some 1, some 0, 50⟩, ⟨1, [0]⟩, ⟨1, [0]⟩)
      ∧ (AnabaticEngine.breakAt 5 (gridMesh 10 10 100) scenario2West 0 1).toOption.bind
          (fun r =>
            (AnabaticEngine.unify 5 (gridMesh 10 10 100) r.state r.breakContact).toOption.map
              (fun u => (u.1, u.2.segment 0, u.2.segment 1, u.2.edges 0, u.2.edges 2)))
        = some (true, some ⟨.horizontal, 1, some 1, some 0, 50⟩, none, ⟨1, [0]⟩, ⟨1, [1]⟩)) :=
  ⟨⟨rfl, rfl⟩, rfl, rfl⟩

/-! ## ripup -/

theorem ringSegments_length_set (c : Nat) :
    ∀ (l : List (Option Segment)) (i start : Nat),
      (ringSegments c start (l.set i none)).length + endsOn (l[i]?).join c
        = (ringSegments c start l).length
  | [], i, start => by simp [ringSegments, endsOn]
  | slot :: rest, 0, start => by
    cases slot with
    | none => simp [ringSegments, endsOn]
    | some seg =>
      by_cases h1 : seg.source = some c <;> by_cases h2 : seg.target = some c <;>
        simp [ringSegments, endsOn, h1, h2]
  | slot :: rest, i + 1, start => by
    have ih := ringSegments_length_set c rest i (start + 1)
    simp only [List.set_cons_succ, ringSegments, List.length_append, List.getElem?_cons_succ]
    omega

theorem degree_destroySegment (st : EngineState) (s c : Nat) :
    (st.destroySegment s).degree c + endsOn (st.segment s) c = st.degree c :=
  ringSegments_length_set c st.segments s 0

theorem degree_pos (st : EngineState) (s c : Nat) (seg : Segment)
    (hs : st.segment s = some seg) (hc : seg.source = some c ∨ seg.target = some c) :
    0 < st.degree c := by
  have h := degree_destroySegment st s c
  rw [hs] at h
  have : 0 < endsOn (some seg) c := by
    simp only [endsOn]
    rcases hc with hc | hc <;> simp [hc]
  omega

theorem segment_destroySegment (st : EngineState) (s j : Nat) :
    (st.destroySegment s).segment j = if j = s then none else st.segment j := by
  simp only [EngineState.destroySegment, EngineState.segment]
  by_cases hj : j = s
  · subst hj
    simp only [if_true]
    by_cases hlt : j < st.segments.length
    · simp [List.getElem?_set_self, hlt]
    · simp [List.getElem?_eq_none (show (st.segments.set j none).length ≤ j by simp; omega)]
  · simp only [hj, if_false]
    rw [List.getElem?_set_ne (fun h => hj h.symm)]

theorem component_set_none (l : List (Option Component)) (x c : Nat) :
    ((l.set x none)[c]?).join = if c = x then none else (l[c]?).join := by
  by_cases hc : c = x
  · subst hc
    simp only [if_true]
    by_cases hlt : c < l.length
    · simp [List.getElem?_set_self, hlt]
    · simp [List.getElem?_eq_none (show (l.set c none).length ≤ c by simp; omega)]
  · simp only [hc, if_false]
    rw [List.getElem?_set_ne (fun h => hc h.symm)]

/-- What `unrefContact` does, seen from a contact `c`. -/
theorem unrefContact_spec (st : EngineState) (gcell x : Nat) :
    (GCell.unrefContact st gcell x).2.segments = st.segments
      ∧ (GCell.unrefContact st gcell x).2.attached = st.attached
      ∧ (∀ c, (GCell.unrefContact st gcell x).2.refCount c ≤ st.refCount c)
      ∧ (∀ c, c ≠ x → (GCell.unrefContact st gcell x).2.refCount c = st.refCount c)
      ∧ st.refCount x ≤ (GCell.unrefContact st gcell x).2.refCount x + 1
      ∧ (∀ c, (GCell.unrefContact st gcell x).2.component c = st.component c
          ∨ ((GCell.unrefContact st gcell x).1 = true ∧ c = x ∧ st.refCount x ≤ 1)) := by
  by_cases hmem : x ∈ st.gcontacts gcell
  · by_cases hzero : st.refCount x - 1 = 0
    · have heq : GCell.unrefContact st gcell x
          = (true, { st with
                      refCount := Function.update st.refCount x 0
                      gcontacts := Function.update st.gcontacts gcell
                        ((st.gcontacts gcell).erase x)
                      components := st.components.set x none }) := by
        simp only [GCell.unrefContact, hmem, hzero, if_true]
      rw [heq]
      refine ⟨rfl, rfl, ?_, ?_, ?_, ?_⟩
      · intro c
        simp only [Function.update_apply]
        split <;> omega
      · intro c hc
        simp [Function.update_apply, hc]
      · simp only [Function.update_same]
        omega
      · intro c
        by_cases hc : c = x
        · exact Or.inr ⟨rfl, hc, by omega⟩
        · left
          simp only [EngineState.component, component_set_none, hc, if_false]
    · have heq : GCell.unrefContact st gcell x
          = (false, { st with
                       refCount := Function.update st.refCount x (st.refCount x - 1) }) := by
        simp only [GCell.unrefContact, hmem, hzero, if_true, if_false]
      rw [heq]
      refine ⟨rfl, rfl, ?_, ?_, ?_, fun c => Or.inl rfl⟩
      · intro c
        simp only [Function.update_apply]
        split
        · rename_i h; subst h; omega
        · omega
      · intro c hc
        simp [Function.update_apply, hc]
      · simp only [Function.update_same]
        omega
  · have heq : GCell.unrefContact st gcell x = (false, st) := by
      simp only [GCell.unrefContact, hmem, if_false]
    rw [heq]
    exact ⟨rfl, rfl, fun _ => le_refl _, fun _ _ => rfl, Nat.le_succ _, fun c => Or.inl rfl⟩

/-- What `unrefContact` on a possibly null contact does, seen from a contact
`c`. -/
theorem unrefContactOpt_spec (st : EngineState) (gcell : Nat) (anchor : Option Nat) :
    (GCell.unrefContactOpt st gcell anchor).2.segments = st.segments
      ∧ (GCell.unrefContactOpt st gcell anchor).2.attached = st.attached
      ∧ (∀ c, (GCell.unrefContactOpt st gcell anchor).2.refCount c ≤ st.refCount c)
      ∧ (∀ c, anchor ≠ some c →
          (GCell.unrefContactOpt st gcell anchor).2.refCount c = st.refCount c)
      ∧ (∀ c, st.refCount c ≤ (GCell.unrefContactOpt st gcell anchor).2.refCount c + 1)
      ∧ (∀ c, (GCell.unrefContactOpt st gcell anchor).2.component c = st.component c
          ∨ ((GCell.unrefContactOpt st gcell anchor).1 = true ∧ anchor = some c
              ∧ st.refCount c ≤ 1)) := by
  cases anchor with
  | none =>
    exact ⟨rfl, rfl, fun _ => le_refl _, fun _ _ => rfl, fun _ => Nat.le_succ _,
      fun c => Or.inl rfl⟩
  | some x =>
    obtain ⟨h1, h2, h3, h4, h5, h6⟩ := unrefContact_spec st gcell x
    refine ⟨h1, h2, h3, ?_, ?_, ?_⟩
    · intro c hc
      exact h4 c (fun h => hc (by rw [h]))
    · intro c
      by_cases hc : c = x
      · subst hc
        exact h5
      · simp only [GCell.unrefContactOpt]
        rw [h4 c hc]
        omega
    · intro c
      rcases h6 c with h | ⟨hd, hc, hr⟩
      · exact Or.inl h
      · subst hc
        exact Or.inr ⟨hd, rfl, hr⟩

theorem removeOnEdges_ok (segment : Nat) :
    ∀ (l : List Element) (st : EngineState), (∀ x ∈ l, x.edge ≠ none) →
      ∃ st', removeOnEdges segment l st = .ok st'
        ∧ st'.segments = st.segments ∧ st'.components = st.components
        ∧ st'.gcontacts = st.gcontacts ∧ st'.refCount = st.refCount
        ∧ st'.attached = st.attached
  | [], st, _ => ⟨st, rfl, rfl, rfl, rfl, rfl, rfl⟩
  | x :: rest, st, h => by
    have hx := h x (List.mem_cons_self _ _)
    obtain ⟨edge, hedge⟩ := Option.ne_none_iff_exists'.1 hx
    obtain ⟨st', h1, h2, h3, h4, h5, h6⟩ := removeOnEdges_ok segment rest
      (Edge.remove st edge segment) (fun y hy => h y (List.mem_cons_of_mem _ hy))
    refine ⟨st', ?_, h2, h3, h4, h5, h6⟩
    simp only [removeOnEdges, hedge]
    exact h1

theorem anchorPosition_eq (st0 st : EngineState) (s : Nat) (seg : Segment)
    (hcomps : ∀ c, st.component c = st0.component c ∨ st.degree c = 0)
    (hs : st.segment s = some seg) (anchor : Option Nat)
    (ha : anchor = seg.source ∨ anchor = seg.target) :
    st.anchorPosition anchor = st0.anchorPosition anchor := by
  cases anchor with
  | none => rfl
  | some c =>
    have hpos : 0 < st.degree c :=
      degree_pos st s c seg hs (by rcases ha with h | h <;> simp [← h])
    have hc : st.component c = st0.component c := by
      rcases hcomps c with h | h
      · exact h
      · omega
    simp only [EngineState.anchorPosition, Option.some_bind, hc]

/-- A live segment lies where it lay before the loop. -/
theorem geom_eq (st0 st : EngineState) (s : Nat) (seg : Segment)
    (hcomps : ∀ c, st.component c = st0.component c ∨ st.degree c = 0)
    (hs : st.segment s = some seg) : st.geom seg = st0.geom seg := by
  have h1 := anchorPosition_eq st0 st s seg hcomps hs seg.source (Or.inl rfl)
  have h2 := anchorPosition_eq st0 st s seg hcomps hs seg.target (Or.inr rfl)
  simp only [EngineState.geom, h1, h2]

theorem asContact_eq (st : EngineState) (anchor : Option Nat) (c : Nat)
    (h : st.asContact anchor = some c) : anchor = some c := by
  cases anchor with
  | none => simp [EngineState.asContact] at h
  | some x =>
    simp only [EngineState.asContact, Option.some_bind] at h
    split at h
    · exact h
    · cases h

theorem clearEnd_eq_some (deleted : Bool) (contact slot : Option Nat) (c : Nat)
    (h : clearEnd deleted contact slot = some c) :
    slot = some c ∧ ¬ (deleted = true ∧ contact = some c) := by
  simp only [clearEnd] at h
  split at h
  · cases h
  · rename_i hn
    subst h
    exact ⟨rfl, hn⟩

theorem clearEnd_cases (deleted : Bool) (contact slot : Option Nat) :
    clearEnd deleted contact slot = slot ∨ clearEnd deleted contact slot = none := by
  simp only [clearEnd]
  split
  · exact Or.inr rfl
  · exact Or.inl rfl

theorem clearEnd_cases2 (d d' : Bool) (contact contact' slot : Option Nat) :
    clearEnd d contact (clearEnd d' contact' slot) = slot
      ∨ clearEnd d contact (clearEnd d' contact' slot) = none := by
  rcases clearEnd_cases d' contact' slot with h | h
  · rw [h]
    exact clearEnd_cases d contact slot
  · rw [h]
    right
    simp [clearEnd]

theorem endsOn_source (seg : Segment) (c : Nat) (h : seg.source = some c) :
    1 ≤ endsOn (some seg) c := by
  simp only [endsOn, h, if_true]
  omega

theorem endsOn_target (seg : Segment) (c : Nat) (h : seg.target = some c) :
    1 ≤ endsOn (some seg) c := by
  simp only [endsOn, h, if_true]
  omega

theorem endsOn_both (seg : Segment) (c : Nat) (h1 : seg.source = some c)
    (h2 : seg.target = some c) : 2 ≤ endsOn (some seg) c := by
  simp only [endsOn, h1, h2, if_true]
  omega

theorem degree_congr (st st' : EngineState) (h : st'.segments = st.segments) (c : Nat) :
    st'.degree c = st.degree c := by
  simp only [EngineState.degree, h]

theorem segment_congr (st st' : EngineState) (h : st'.segments = st.segments) (j : Nat) :
    st'.segment j = st.segment j := by
  simp only [EngineState.segment, h]

theorem component_congr (st st' : EngineState) (h : st'.components = st.components) (c : Nat) :
    st'.component c = st.component c := by
  simp only [EngineState.component, h]

/-- One iteration of the destruction loop of `ripup` on a live segment under
which the index finds a tile: it succeeds, keeps the invariant, and empties
the slot of the segment and no other. -/
theorem ripupDestroy_step (fuel : Nat) (m : Mesh) (st0 st : EngineState)
    (end0 end1 : Option Nat) (s : Nat) (seg : Segment) (g : RawGCellsUnder)
    (hinv : RipupInv st0 st end0 end1) (hs : st.segment s = some seg)
    (hg : RawGCellsUnder.RawGCellsUnder fuel m (st0.geom seg) = .ok g)
    (hne : g.elements ≠ []) :
    ∃ st' e0 e1, AnabaticEngine.ripupDestroy fuel m s (st, end0, end1) = .ok (st', e0, e1)
      ∧ RipupInv st0 st' e0 e1
      ∧ (∀ j, st'.segment j = if j = s then none else st.segment j)
      ∧ (e0 = end0 ∨ e0 = none) ∧ (e1 = end1 ∨ e1 = none) := by
  have hgeom : st.geom seg = st0.geom seg := geom_eq st0 st s seg hinv.comps hs
  obtain ⟨st1, hrem, hsegs1, hcomps1, -, href1, hatt1⟩ :=
    removeOnEdges_ok s g.elements.dropLast st (RawGCellsUnder_dropLast_edges fuel m _ g hg)
  obtain ⟨first, hfirst⟩ : ∃ first, g.elements.head? = some first := by
    cases hl : g.elements with
    | nil => exact absurd hl hne
    | cons x xs => exact ⟨x, rfl⟩
  obtain ⟨last, hlast⟩ : ∃ last, g.elements.getLast? = some last := by
    cases hl : g.elements.getLast? with
    | none => exact absurd (List.getLast?_eq_none_iff.1 hl) hne
    | some x => exact ⟨x, rfl⟩
  -- the states of the iteration
  have A3 := unrefContactOpt_spec (st1.destroySegment s) first.gcell (st1.asContact seg.source)
  have A4 := unrefContactOpt_spec
    (GCell.unrefContactOpt (st1.destroySegment s) first.gcell (st1.asContact seg.source)).2
    last.gcell (st1.asContact seg.target)
  generalize hr3 : GCell.unrefContactOpt (st1.destroySegment s) first.gcell
    (st1.asContact seg.source) = r3 at A3 A4
  generalize hr4 : GCell.unrefContactOpt r3.2 last.gcell (st1.asContact seg.target) = r4 at A4
  obtain ⟨a31, a32, a33, a34, a35, a36⟩ := A3
  obtain ⟨a41, a42, a43, a44, a45, a46⟩ := A4
  have hrun : AnabaticEngine.ripupDestroy fuel m s (st, end0, end1)
      = .ok (r4.2,
          clearEnd r4.1 (st1.asContact seg.target)
            (clearEnd r3.1 (st1.asContact seg.source) end0),
          clearEnd r4.1 (st1.asContact seg.target)
            (clearEnd r3.1 (st1.asContact seg.source) end1)) := by
    simp only [AnabaticEngine.ripupDestroy, hs, hgeom, hg, hrem, hfirst, hlast, hr3, hr4]
  -- bookkeeping
  have hsegs4 : r4.2.segments = (st.destroySegment s).segments := by
    rw [a41, a31]
    simp only [EngineState.destroySegment, hsegs1]
  have hdeg : ∀ c, r4.2.degree c + endsOn (some seg) c = st.degree c := by
    intro c
    rw [degree_congr _ _ hsegs4 c, ← hs]
    exact degree_destroySegment st s c
  have href2 : ∀ c, (st1.destroySegment s).refCount c = st.refCount c := by
    intro c
    simp only [EngineState.destroySegment, href1]
  have hcomp2 : ∀ c, (st1.destroySegment s).component c = st.component c := by
    intro c
    exact component_congr st (st1.destroySegment s) hcomps1 c
  have hsrc : ∀ c, st1.asContact seg.source = some c → seg.source = some c :=
    fun c h => asContact_eq st1 _ c h
  have htgt : ∀ c, st1.asContact seg.target = some c → seg.target = some c :=
    fun c h => asContact_eq st1 _ c h
  -- the reference counts seen from one contact
  have hcount : ∀ c, r4.2.degree c ≤ r4.2.refCount c
      ∧ (st.refCount c ≤ 1 → st1.asContact seg.source = some c → r4.2.degree c = 0)
      ∧ (r3.2.refCount c ≤ 1 → st1.asContact seg.target = some c → r4.2.degree c = 0) := by
    intro c
    have hd := hdeg c
    have hI := hinv.refs c
    have h2 := href2 c
    have h35 := a35 c
    have h45 := a45 c
    by_cases h1 : st1.asContact seg.source = some c
    · have e1 := endsOn_source seg c (hsrc c h1)
      by_cases h2' : st1.asContact seg.target = some c
      · have e2 := endsOn_both seg c (hsrc c h1) (htgt c h2')
        refine ⟨by omega, fun _ _ => by omega, fun _ _ => by omega⟩
      · have h44 := a44 c h2'
        refine ⟨by omega, fun _ _ => by omega, fun _ h => absurd h h2'⟩
    · have h34 := a34 c h1
      by_cases h2' : st1.asContact seg.target = some c
      · have e2 := endsOn_target seg c (htgt c h2')
        refine ⟨by omega, fun _ h => absurd h h1, fun _ _ => by omega⟩
      · have h44 := a44 c h2'
        refine ⟨by omega, fun _ h => absurd h h1, fun _ h => absurd h h2'⟩
  have hcomp4 : ∀ c, r4.2.component c = st.component c ∨ r4.2.degree c = 0 := by
    intro c
    rcases a46 c with h4 | ⟨-, h4c, h4r⟩
    · rcases a36 c with h3 | ⟨-, h3c, h3r⟩
      · left
        rw [h4, h3, hcomp2]
      · right
        rw [href2] at h3r
        exact (hcount c).2.1 h3r h3c
    · right
      exact (hcount c).2.2 h4r h4c
  have halive : ∀ slot c,
      clearEnd r4.1 (st1.asContact seg.target)
        (clearEnd r3.1 (st1.asContact seg.source) slot) = some c →
      slot = some c ∧ r4.2.component c = st.component c := by
    intro slot c h
    obtain ⟨h', hn4⟩ := clearEnd_eq_some _ _ _ _ h
    obtain ⟨h'', hn3⟩ := clearEnd_eq_some _ _ _ _ h'
    refine ⟨h'', ?_⟩
    rcases a46 c with h4 | ⟨h4d, h4c, -⟩
    · rcases a36 c with h3 | ⟨h3d, h3c, -⟩
      · rw [h4, h3, hcomp2]
      · exact absurd ⟨h3d, h3c⟩ hn3
    · exact absurd ⟨h4d, h4c⟩ hn4
  have hsegment : ∀ j, r4.2.segment j = if j = s then none else st.segment j := by
    intro j
    rw [segment_congr _ _ hsegs4 j]
    exact segment_destroySegment st s j
  refine ⟨r4.2, _, _, hrun, ?_, hsegment, clearEnd_cases2 _ _ _ _ _, clearEnd_cases2 _ _ _ _ _⟩
  constructor
  · exact fun c => (hcount c).1
  · intro c
    rcases hcomp4 c with h | h
    · rcases hinv.comps c with h' | h'
      · left
        rw [h, h']
      · right
        have := hdeg c
        omega
    · exact Or.inr h
  · rw [a42, a32]
    simp only [EngineState.destroySegment, hatt1]
    exact hinv.attached
  · intro j
    rw [hsegment j]
    split
    · exact Or.inr rfl
    · exact hinv.segs j
  · intro c h
    obtain ⟨h1, h2⟩ := halive end0 c h
    rw [h2]
    exact hinv.alive0 c h1
  · intro c h
    obtain ⟨h1, h2⟩ := halive end1 c h
    rw [h2]
    exact hinv.alive1 c h1

/-- The destruction loop of `ripup` over distinct live segments under each of
which the index finds a tile: it succeeds, keeps the invariant, and empties
the slots of these segments and no other. -/
theorem ripupDestroyAll_spec (fuel : Nat) (m : Mesh) (st0 : EngineState) :
    ∀ (ripups : List Nat) (st : EngineState) (end0 end1 : Option Nat),
      ripups.Nodup → RipupInv st0 st end0 end1 →
      (∀ s ∈ ripups, ∃ seg g, st.segment s = some seg
        ∧ RawGCellsUnder.RawGCellsUnder fuel m (st0.geom seg) = .ok g ∧ g.elements ≠ []) →
      ∃ st' e0 e1,
        AnabaticEngine.ripupDestroyAll fuel m ripups (st, end0, end1) = .ok (st', e0, e1)
          ∧ RipupInv st0 st' e0 e1
          ∧ (∀ j, st'.segment j = if j ∈ ripups then none else st.segment j)
          ∧ (e0 = end0 ∨ e0 = none) ∧ (e1 = end1 ∨ e1 = none)
  | [], st, end0, end1, _, hinv, _ =>
    ⟨st, end0, end1, rfl, hinv, fun j => by simp, Or.inl rfl, Or.inl rfl⟩
  | s :: rest, st, end0, end1, hnodup, hinv, hgood => by
    obtain ⟨seg, g, hs, hg, hne⟩ := hgood s (List.mem_cons_self _ _)
    obtain ⟨st1, a0, a1, hrun, hinv1, hseg1, ha0, ha1⟩ :=
      ripupDestroy_step fuel m st0 st end0 end1 s seg g hinv hs hg hne
    have hnd := List.nodup_cons.1 hnodup
    obtain ⟨st2, e0, e1, hrun2, hinv2, hseg2, he0, he1⟩ :=
      ripupDestroyAll_spec fuel m st0 rest st1 a0 a1 hnd.2 hinv1 (by
        intro s' hs'
        obtain ⟨seg', g', h1, h2, h3⟩ := hgood s' (List.mem_cons_of_mem _ hs')
        refine ⟨seg', g', ?_, h2, h3⟩
        rw [hseg1 s', if_neg (fun (h : s' = s) => hnd.1 (h ▸ hs'))]
        exact h1)
    refine ⟨st2, e0, e1, ?_, hinv2, ?_, ?_, ?_⟩
    · simp only [AnabaticEngine.ripupDestroyAll, hrun]
      exact hrun2
    · intro j
      rw [hseg2 j, hseg1 j]
      by_cases hj : j = s
      · simp [hj]
      · by_cases hj' : j ∈ rest <;> simp [hj, hj']
    · rcases he0 with h | h
      · rcases ha0 with h' | h'
        · exact Or.inl (h.trans h')
        · exact Or.inr (h.trans h')
      · exact Or.inr h
    · rcases he1 with h | h
      · rcases ha1 with h' | h'
        · exact Or.inl (h.trans h')
        · exact Or.inr (h.trans h')
      · exact Or.inr h

/-- The hook loop of `ripup` over routing pads: each one is counted and none
becomes `connected`. -/
theorem ripupScan_pads (st : EngineState) (contact previous : Nat)
    (hc : (st.component contact).map Component.kind = some ComponentKind.contact) :
    ∀ (pads : List Nat) (connected : Option Nat) (slaveCount : Nat),
      (∀ p ∈ pads, (st.component p).map Component.kind = some ComponentKind.routingPad) →
      AnabaticEngine.ripupScan st contact previous (pads.map RingItem.component) connected
        slaveCount = (connected, slaveCount + pads.length)
  | [], _, _, _ => rfl
  | p :: pads, connected, slaveCount, h => by
    have hp := h p (List.mem_cons_self _ _)
    have hne : p ≠ contact := by
      intro heq
      rw [heq, hc] at hp
      cases hp
    simp only [List.map_cons, AnabaticEngine.ripupScan, hne, if_false, hp, if_true]
    rw [ripupScan_pads st contact previous hc pads connected (slaveCount + 1)
      (fun q hq => h q (List.mem_cons_of_mem _ hq))]
    simp only [List.length_cons]
    congr 1
    omega

/-- One iteration of the propagation loop of `ripup` on a live contact. -/
theorem ripupPropagate_step (st : EngineState) (fuel previous contact : Nat)
    (stack : List (Nat × Option Nat)) (search : RipupSearch) (c : Component)
    (hc : st.component contact = some c) (hck : c.kind = ComponentKind.contact) :
    AnabaticEngine.ripupPropagate st (fuel + 1) ((previous, some contact) :: stack) search
      = match AnabaticEngine.ripupScan st contact previous (st.ringOf contact) none 0 with
        | (some connected, 1) =>
          match st.segment connected with
          | none => .error .nullDeref
          | some seg =>
            AnabaticEngine.ripupPropagate st fuel
              ((connected, seg.getOppositeAnchor contact) :: stack)
              { search with ripups := search.ripups ++ [connected] }
        | _ =>
          if search.end0 = none then
            AnabaticEngine.ripupPropagate st fuel stack { search with end0 := some contact }
          else
            AnabaticEngine.ripupPropagate st fuel stack { search with end1 := some contact } := by
  simp only [AnabaticEngine.ripupPropagate, hc, hck, ne_eq, not_true_eq_false, if_false]

/-- The propagation loop of `ripup` along a chain: leaving `previous` through
`contact`, it appends the segments of the chain in order and records the
terminal contact in the first free boundary slot. -/
theorem ripupPropagate_chain (st : EngineState) :
    ∀ (chain : List Nat) (previous contact terminal fuel : Nat)
      (stack : List (Nat × Option Nat)) (search : RipupSearch),
      st.ChainFrom chain previous contact terminal →
      AnabaticEngine.ripupPropagate st (fuel + (chain.length + 1))
          ((previous, some contact) :: stack) search
        = AnabaticEngine.ripupPropagate st fuel stack
            ⟨search.ripups ++ chain,
              if search.end0 = none then some terminal else search.end0,
              if search.end0 = none then search.end1 else some terminal⟩
  | [], previous, contact, terminal, fuel, stack, search, h => by
    obtain ⟨rfl, hkind, hne, hpads, hring⟩ := h
    obtain ⟨c, hc, hck⟩ := Option.map_eq_some'.1 hkind
    have hscan : AnabaticEngine.ripupScan st contact previous (st.ringOf contact) none 0
        = (none, 0 + (st.attached contact).length) := by
      rw [hring]
      simp only [AnabaticEngine.ripupScan, if_true]
      exact ripupScan_pads st contact previous hkind _ _ _ hpads
    rw [show fuel + (([] : List Nat).length + 1) = fuel + 1 from rfl,
      ripupPropagate_step st _ previous contact stack search c hc hck, hscan]
    simp only [List.append_nil]
    split <;> rfl
  | next :: rest, previous, contact, terminal, fuel, stack, search, h => by
    obtain ⟨⟨hkind, hne, hring⟩, hrest⟩ := h
    obtain ⟨c, hc, hck⟩ := Option.map_eq_some'.1 hkind
    have hscan : AnabaticEngine.ripupScan st contact previous (st.ringOf contact) none 0
        = (some next, 1) := by
      rcases hring with hring | hring <;> rw [hring] <;>
        simp [AnabaticEngine.ripupScan, hne, Ne.symm hne]
    cases hseg : st.segment next with
    | none => simp [hseg] at hrest
    | some seg =>
      cases hfar : seg.getOppositeAnchor contact with
      | none => simp [hseg, hfar] at hrest
      | some far =>
        simp only [hseg, Option.some_bind, hfar] at hrest
        have ih := ripupPropagate_chain st rest next far terminal fuel stack
          { search with ripups := search.ripups ++ [next] } hrest
        have hfuel : fuel + ((next :: rest).length + 1) = (fuel + (rest.length + 1)) + 1 := by
          simp only [List.length_cons]
          omega
        rw [hfuel, ripupPropagate_step st _ previous contact stack search c hc hck, hscan]
        simp only [hseg, hfar]
        rw [ih]
        simp only [List.append_assoc, List.singleton_append]

/-- The slave loop of `unify` stops at the first component that is not a
segment. -/
theorem unifyScan_pads (st : EngineState) (p : Nat) (pads : List RingItem) :
    ∀ (segs : List RingItem) (horizontals verticals : List Nat),
      AnabaticEngine.unifyScan st (segs ++ RingItem.component p :: pads) horizontals verticals
        = none
  | [], _, _ => rfl
  | .component _ :: _, _, _ => rfl
  | .segment s :: segs, horizontals, verticals => by
    simp only [List.cons_append, AnabaticEngine.unifyScan]
    split
    · split
      · rfl
      · exact unifyScan_pads st p pads segs _ _
    · split
      · rfl
      · exact unifyScan_pads st p pads segs _ _
    · rfl

/-- On a live contact that carries a pad `unify` returns `false` and leaves
the state as it is. -/
theorem unify_padded (fuel : Nat) (m : Mesh) (st : EngineState) (contact : Nat)
    (halive : st.component contact ≠ none) (hpads : st.attached contact ≠ []) :
    AnabaticEngine.unify fuel m st contact = .ok (false, st) := by
  obtain ⟨c, hc⟩ := Option.ne_none_iff_exists'.1 halive
  obtain ⟨p, pads, hp⟩ := List.exists_cons_of_ne_nil hpads
  have hscan : AnabaticEngine.unifyScan st (st.ringOf contact) [] [] = none := by
    simp only [EngineState.ringOf, hp, List.map_cons]
    exact unifyScan_pads st p _ _ _ _
  simp only [AnabaticEngine.unify, hc, hscan]

/-- The record `getNetData` returns is live and registered under the id of
the net. -/
theorem getNetData_live (update : Box → Nat → Int) (createState : Net → NetRoutingState)
    (e : AnabaticEngine) (net : Net) (create : Bool)
    (hvalid : ∀ data, e._netDatas.find net.id = some data → data < e.netDataPool.length) :
    (e.getNetData update createState net create).1
        < (e.getNetData update createState net create).2.netDataPool.length
      ∧ (e.getNetData update createState net create).2._netDatas.find net.id
          = some (e.getNetData update createState net create).1 := by
  cases hfind : e._netDatas.find net.id with
  | some data =>
    have hlt := hvalid data hfind
    simp only [AnabaticEngine.getNetData, hfind]
    cases hd : e.netData data with
    | none => exact ⟨hlt, hfind⟩
    | some d =>
      simp only []
      split
      · exact ⟨by simpa using hlt, hfind⟩
      · exact ⟨hlt, hfind⟩
  | none =>
    have hlook : (e._netDatas.insert net.id e.netDataPool.length).find net.id
        = some e.netDataPool.length := Lut.find_insert_self _ _ _ hfind
    simp only [AnabaticEngine.getNetData, hfind, AnabaticEngine.newNetData,
      AnabaticEngine.netData, List.getElem?_concat_length]
    split
    · exact ⟨by simp, hlook⟩
    · exact ⟨by simp, hlook⟩

/-- The last contact of a chain is a live contact that carries a pad. -/
theorem chainFrom_terminal (st : EngineState) :
    ∀ (chain : List Nat) (previous contact terminal : Nat),
      st.ChainFrom chain previous contact terminal →
      st.component terminal ≠ none ∧ st.attached terminal ≠ []
  | [], previous, contact, terminal, h => by
    obtain ⟨rfl, hkind, hne, -, -⟩ := h
    refine ⟨?_, hne⟩
    intro hnone
    rw [hnone] at hkind
    cases hkind
  | next :: rest, previous, contact, terminal, h => by
    obtain ⟨-, hrest⟩ := h
    cases hfar : (st.segment next).bind (fun seg => seg.getOppositeAnchor contact) with
    | none => simp [hfar] at hrest
    | some far =>
      simp only [hfar] at hrest
      exact chainFrom_terminal st rest next far terminal hrest

theorem setGlobalRouted_spec (e : AnabaticEngine) (data : Nat) (value : Bool)
    (hlt : data < e.netDataPool.length) :
    (e.setGlobalRouted data value)._netDatas = e._netDatas
      ∧ ∃ d, (e.setGlobalRouted data value).netData data = some d ∧ d.globalRouted = value := by
  obtain ⟨d, hd⟩ : ∃ d, e.netData data = some d :=
    ⟨e.netDataPool[data], by simp [AnabaticEngine.netData, List.getElem?_eq_getElem hlt]⟩
  have heq : e.setGlobalRouted data value
      = { e with netDataPool := e.netDataPool.set data { d with globalRouted := value } } := by
    simp only [AnabaticEngine.setGlobalRouted, hd]
  rw [heq]
  refine ⟨rfl, { d with globalRouted := value }, ?_, rfl⟩
  simp [AnabaticEngine.netData, List.getElem?_set_self hlt]

/-- Let `seed` be a live segment from contact `a` to contact `b`, let the
segments `up` follow it beyond `b` and the segments `down` beyond `a`, each
joined to the one before by a degree-2 contact, up to the terminal contacts
`tU` and `tD`, which carry routing pads; let these segments be distinct and be
all the segments of the net of `seed`.  In a state where every contact is
referenced at least once for each segment end anchored on it and where the
index finds a tile under each segment of the chain, `ripup(seed, Propagate)`
returns; its propagation loop collects `seed`, `up` and `down`, each segment
once; afterwards every one of them is destroyed, no live segment of the net is
left, the other segments are as before, and the record of the net has
`globalRouted = false`. -/
theorem ripup_chain (fuel : Nat) (m : Mesh) (update : Box → Nat → Int)
    (createState : Net → NetRoutingState) (nets : Nat → Net) (e : AnabaticEngine)
    (st : EngineState) (seed : Nat) (seedSeg : Segment) (a b : Nat) (up down : List Nat)
    (tU tD : Nat)
    (hseed : st.segment seed = some seedSeg)
    (hsource : seedSeg.source = some a) (htarget : seedSeg.target = some b)
    (hup : st.ChainFrom up seed b tU) (hdown : st.ChainFrom down seed a tD)
    (hnodup : (seed :: (up ++ down)).Nodup)
    (hnet : ∀ j seg, st.segment j = some seg → seg.net = seedSeg.net →
      j ∈ seed :: (up ++ down))
    (hrefs : ∀ c, st.degree c ≤ st.refCount c)
    (hindex : ∀ s ∈ seed :: (up ++ down), ∃ seg g, st.segment s = some seg
      ∧ RawGCellsUnder.RawGCellsUnder fuel m (st.geom seg) = .ok g ∧ g.elements ≠ [])
    (hfuel : up.length + down.length + 2 ≤ fuel)
    (hvalid : ∀ data, e._netDatas.find (nets seedSeg.net).id = some data →
      data < e.netDataPool.length) :
    ∃ e' st',
      AnabaticEngine.ripup fuel m update createState nets e st seed true = .ok (e', st')
        ∧ AnabaticEngine.ripupPropagate st fuel [(seed, seedSeg.target), (seed, seedSeg.source)]
            ⟨[seed], none, none⟩ = .ok ⟨seed :: (up ++ down), some tU, some tD⟩
        ∧ (∀ s ∈ seed :: (up ++ down), st'.segment s = none)
        ∧ (∀ j seg, st'.segment j = some seg → seg.net ≠ seedSeg.net)
        ∧ (∀ j, j ∉ seed :: (up ++ down) → st'.segment j = st.segment j)
        ∧ ∃ data d, e'._netDatas.find (nets seedSeg.net).id = some data
            ∧ e'.netData data = some d ∧ d.globalRouted = false := by
  -- the propagation loop
  have hprop : AnabaticEngine.ripupPropagate st fuel
      [(seed, seedSeg.target), (seed, seedSeg.source)] ⟨[seed], none, none⟩
        = .ok ⟨seed :: (up ++ down), some tU, some tD⟩ := by
    obtain ⟨k, hk⟩ : ∃ k, fuel = (k + (down.length + 1)) + (up.length + 1) :=
      ⟨fuel - (up.length + down.length + 2), by omega⟩
    rw [hk, hsource, htarget, ripupPropagate_chain st up seed b tU _ _ _ hup,
      ripupPropagate_chain st down seed a tD k [] _ hdown]
    simp [AnabaticEngine.ripupPropagate]
  -- the destruction loop
  have hinv0 : RipupInv st st (some tU) (some tD) :=
    ⟨hrefs, fun _ => Or.inl rfl, rfl, fun _ => Or.inl rfl, fun _ _ => rfl, fun _ _ => rfl⟩
  obtain ⟨st1, e0, e1, hdestroy, hinv, hsegs, he0, he1⟩ :=
    ripupDestroyAll_spec fuel m st (seed :: (up ++ down)) st (some tU) (some tD) hnodup hinv0
      hindex
  -- the two boundary anchors
  have hunify : ∀ (slot : Option Nat) (t : Nat), (slot = some t ∨ slot = none) →
      st.component t ≠ none ∧ st.attached t ≠ [] →
      (∀ c, slot = some c → st1.component c = st.component c) →
      AnabaticEngine.unifyEnd fuel m st1 slot = .ok st1 := by
    intro slot t hslot ht halive
    rcases hslot with h | h
    · subst h
      have h1 : st1.component t ≠ none := by
        rw [halive t rfl]
        exact ht.1
      have h2 : st1.attached t ≠ [] := by
        rw [hinv.attached]
        exact ht.2
      simp only [AnabaticEngine.unifyEnd, unify_padded fuel m st1 t h1 h2]
    · subst h
      rfl
  have hu0 := hunify e0 tU he0 (chainFrom_terminal st up seed b tU hup) hinv.alive0
  have hu1 := hunify e1 tD he1 (chainFrom_terminal st down seed a tD hdown) hinv.alive1
  -- the record of the net
  obtain ⟨hlt, hfind⟩ := getNetData_live update createState e (nets seedSeg.net) false hvalid
  obtain ⟨hdatas, d, hd, hrouted⟩ := setGlobalRouted_spec
    (e.getNetData update createState (nets seedSeg.net) false).2
    (e.getNetData update createState (nets seedSeg.net) false).1 false hlt
  refine ⟨_, st1, ?_, hprop, ?_, ?_, ?_, _, d, ?_, hd, hrouted⟩
  · simp only [AnabaticEngine.ripup, hseed, if_true, hprop, hdestroy, hu0, hu1]
  · intro s hs
    rw [hsegs s, if_pos hs]
  · intro j seg hj hnetj
    by_cases hmem : j ∈ seed :: (up ++ down)
    · rw [hsegs j, if_pos hmem] at hj
      cases hj
    · rw [hsegs j, if_neg hmem] at hj
      exact hmem (hnet j seg hj hnetj)
  · intro j hj
    rw [hsegs j, if_neg hj]
  · rw [hdatas]
    exact hfind

theorem scenario4_refs (c : Nat) : scenario4.degree c ≤ scenario4.refCount c := by
  match c with
  | 0 | 1 | 2 | 3 => decide
  | c + 4 =>
    simp only [EngineState.degree, scenario4, ringSegments]
    simp

/-- The staircase of scenario 4, ripped up from its middle segment, is such a
chain. -/
theorem ripup_chain_witness :
    ∃ e' st',
      AnabaticEngine.ripup 10 (gridMesh 10 10 100) sparsityOf (fun _ => ⟨false⟩)
          (fun _ => scenario4Net) scenario4Engine scenario4 1 true = .ok (e', st')
        ∧ AnabaticEngine.ripupPropagate scenario4 10 [(1, some 2), (1, some 1)]
            ⟨[1], none, none⟩ = .ok ⟨[1, 2, 0], some 3, some 0⟩
        ∧ (∀ s ∈ [1, 2, 0], st'.segment s = none)
        ∧ (∀ j seg, st'.segment j = some seg → seg.net ≠ 2)
        ∧ (∀ j, j ∉ [1, 2, 0] → st'.segment j = scenario4.segment j)
        ∧ ∃ data d, e'._netDatas.find 2 = some data
            ∧ e'.netData data = some d ∧ d.globalRouted = false :=
  ripup_chain 10 (gridMesh 10 10 100) sparsityOf (fun _ => ⟨false⟩) (fun _ => scenario4Net)
    scenario4Engine scenario4 1 ⟨.vertical, 2, some 1, some 2, 250⟩ 1 2 [2] [0] 3 0
    rfl rfl rfl (by decide) (by decide) (by decide)
    (by
      intro j seg h _
      have hlt := segment_lt_length _ _ _ h
      simp only [scenario4, List.length_cons, List.length_nil] at hlt
      interval_cases j <;> simp)
    scenario4_refs
    (by
      intro s hs
      simp only [List.cons_append, List.nil_append, List.mem_cons, List.mem_singleton,
        List.not_mem_nil, or_false] at hs
      rcases hs with rfl | rfl | rfl
      · exact ⟨_, ⟨[⟨2, some ⟨5, 2, 12⟩⟩, ⟨12, some ⟨25, 12, 22⟩⟩, ⟨22, none⟩], none⟩, rfl, rfl,
          by decide⟩
      · exact ⟨_, ⟨[⟨22, some ⟨44, 22, 23⟩⟩, ⟨23, some ⟨46, 23, 24⟩⟩, ⟨24, none⟩], none⟩, rfl,
          rfl, by decide⟩
      · exact ⟨_, ⟨[⟨0, some ⟨0, 0, 1⟩⟩, ⟨1, some ⟨2, 1, 2⟩⟩, ⟨2, none⟩], none⟩, rfl, rfl,
          by decide⟩)
    (by decide)
    (by
      intro data h
      have : data = 0 := by
        simpa [scenario4Engine, scenario4Net, Lut.find, List.lookup] using h.symm
      subst this
      decide)

/-! ## The engine state machine -/

theorem EnginePhase.lt_iff (a b : EnginePhase) : a < b ↔ a.rank < b.rank := Iff.rfl

theorem EnginePhase.le_iff (a b : EnginePhase) : a ≤ b ↔ a.rank ≤ b.rank := Iff.rfl

/-- C15: `loadGlobalRouting(method)` raises no error if and only if the engine
is in state `GlobalLoaded` and `method` is `ByNet`; then the state becomes
`Active` and every further call fails (`alreadyLoaded`); whenever an error is
raised, in particular for `ByGCell`, the engine is left as it was.  This holds
whatever the loader and the tile clean-up do to the engine object. -/
theorem loadGlobalRouting_state_machine (load cleanup : AnabaticEngine → AnabaticEngine)
    (e : AnabaticEngine) (method : Nat) :
    ((e.loadGlobalRouting load cleanup method).1 = none
        ↔ (e._state = .EngineGlobalLoaded ∧ method = EngineLoadGrByNet))
      ∧ ((e.loadGlobalRouting load cleanup method).1 = none →
          (e.loadGlobalRouting load cleanup method).2._state = .EngineActive
          ∧ ∀ method', ((e.loadGlobalRouting load cleanup method).2.loadGlobalRouting
              load cleanup method').1 = some .alreadyLoaded)
      ∧ ((e.loadGlobalRouting load cleanup method).1 ≠ none →
          (e.loadGlobalRouting load cleanup method).2 = e)
      ∧ (e.loadGlobalRouting load cleanup EngineLoadGrByGCell).1 ≠ none := by
  have hgc : EngineLoadGrByGCell ≠ EngineLoadGrByNet := by decide
  cases hs : e._state <;>
    simp [AnabaticEngine.loadGlobalRouting, hs, EnginePhase.lt_iff, EnginePhase.rank, hgc]
  by_cases hm : method = EngineLoadGrByNet <;>
    simp [hm, EnginePhase.lt_iff, EnginePhase.rank]

theorem unlinkSegment_gutted (e : AnabaticEngine) (a : AutoSegment)
    (h : e._state = .EngineGutted) : e._unlinkSegment a = e := by
  have : e._state > .EngineDriving := by rw [h]; decide
  simp [AnabaticEngine._unlinkSegment, this]

theorem unlinkContact_gutted (e : AnabaticEngine) (a : AutoContact)
    (h : e._state = .EngineGutted) : e._unlinkContact a = e := by
  have : e._state > .EngineActive := by rw [h]; decide
  simp [AnabaticEngine._unlinkContact, this]

theorem foldl_unlinkSegment_gutted (l : Lut AutoSegment) :
    ∀ (e : AnabaticEngine), e._state = .EngineGutted →
      l.foldl (fun acc sasp => acc._unlinkSegment sasp.2) e = e := by
  induction l with
  | nil => intro e _; rfl
  | cons x rest ih =>
    intro e h
    simp only [List.foldl_cons, unlinkSegment_gutted e x.2 h]
    exact ih e h

theorem foldl_unlinkContact_gutted (l : Lut AutoContact) :
    ∀ (e : AnabaticEngine), e._state = .EngineGutted →
      l.foldl (fun acc cacp => acc._unlinkContact cacp.2) e = e := by
  induction l with
  | nil => intro e _; rfl
  | cons x rest ih =>
    intro e h
    simp only [List.foldl_cons, unlinkContact_gutted e x.2 h]
    exact ih e h

/-- The engine left by `finalizeLayout` from a state at most `Driving`. -/
theorem finalizeLayout_of_le_driving (e : AnabaticEngine) (h : e._state ≤ .EngineDriving) :
    e.finalizeLayout =
      { e with _state := .EngineGutted
               _flags := ⟨true, false, true⟩
               _timer := ⟨false, e._timer.starts + 1⟩
               _gcells := []
               _ovEdges := []
               _autoSegmentLut := []
               _autoContactLut := [] } := by
  have h1 : ¬ e._state > .EngineDriving := by
    revert h; cases e._state <;> decide
  have h2 : EnginePhase.EngineDriving < EnginePhase.EngineGutted := by decide
  simp only [AnabaticEngine.finalizeLayout, h1, if_false, AnabaticEngine._gutAnabatic,
    AnabaticEngine.startMeasures, AnabaticEngine.stopMeasures, h2, if_true,
    AnabaticEngine._destroyAutoSegments, AnabaticEngine._destroyAutoContacts]
  rw [foldl_unlinkSegment_gutted _ _ rfl]
  simp only []
  rw [foldl_unlinkContact_gutted _ _ rfl]

/-- C16: `finalizeLayout` is idempotent from every engine state; from a state
at most `Driving` one call ends in state `Gutted` with both look-up tables,
the tile list and the overflowed-edge set empty; from a state above `Driving`
the call changes nothing. -/
theorem finalizeLayout_idempotent (e : AnabaticEngine) :
    e.finalizeLayout.finalizeLayout = e.finalizeLayout
      ∧ (e._state ≤ .EngineDriving →
          e.finalizeLayout._state = .EngineGutted
          ∧ e.finalizeLayout._autoSegmentLut = []
          ∧ e.finalizeLayout._autoContactLut = []
          ∧ e.finalizeLayout._gcells = []
          ∧ e.finalizeLayout._ovEdges = [])
      ∧ (e._state > .EngineDriving → e.finalizeLayout = e) := by
  have hgt : ∀ x : AnabaticEngine, x._state > .EngineDriving → x.finalizeLayout = x := by
    intro x hx
    simp [AnabaticEngine.finalizeLayout, hx]
  refine ⟨?_, ?_, hgt e⟩
  · by_cases h : e._state ≤ .EngineDriving
    · rw [finalizeLayout_of_le_driving e h]
      exact hgt _ (by simp [EnginePhase.lt_iff, EnginePhase.rank])
    · have : e._state > .EngineDriving := by
        revert h; cases e._state <;> decide
      rw [hgt e this, hgt e this]
  · intro h
    rw [finalizeLayout_of_le_driving e h]
    exact ⟨rfl, rfl, rfl, rfl, rfl⟩

/-! ## The capacity of an edge -/

theorem wrapInt_wrapInt_add (a b : Int) : wrapInt (wrapInt a + b) = wrapInt (a + b) := by
  unfold wrapInt
  omega

theorem wrapInt_wrapInt (a : Int) : wrapInt (wrapInt a) = wrapInt a := by
  unfold wrapInt
  omega

/-- The term the specification adds for one gauge, stored in the `int`. -/
theorem capacityStep_eq_spec (ab : Box) (span : Interval) (flags : DirectionFlags)
    (g : RoutingLayerGauge) (capacity : Int) (hflags : ¬ (flags.Horizontal ∧ flags.Vertical))
    (hcapacity : wrapInt capacity = capacity) :
    AnabaticEngine.capacityStep ab span flags g capacity
      = wrapInt (capacity + (if g.getType ≠ .Default then 0
          else
            (if flags.Horizontal ∧ g.getDirection = .Horizontal then
              (g.getTrackNumber (span.vMin - ab.yMin) (span.vMax - ab.yMin) : Int) else 0)
            + (if flags.Vertical ∧ g.getDirection = .Vertical then
              (g.getTrackNumber (span.vMin - ab.xMin) (span.vMax - ab.xMin) : Int) else 0))) := by
  unfold AnabaticEngine.capacityStep
  cases hH : flags.Horizontal <;> cases hV : flags.Vertical <;>
    cases hT : g.getType <;> cases hD : g.getDirection <;> simp_all

theorem capacityLoop_eq_spec (ab : Box) (layerGauges : List RoutingLayerGauge) (span : Interval)
    (flags : DirectionFlags) (hflags : ¬ (flags.Horizontal ∧ flags.Vertical)) :
    ∀ (depths : List Nat) (capacity : Int), (∀ d ∈ depths, d < layerGauges.length) →
      wrapInt capacity = capacity →
      AnabaticEngine.capacityLoop ab layerGauges span flags depths capacity
        = .ok (wrapInt (capacity + (depths.map (fun depth =>
            match layerGauges[depth]? with
            | none => (0 : Int)
            | some g =>
              if g.getType ≠ .Default then 0
              else
                (if flags.Horizontal ∧ g.getDirection = .Horizontal then
                  (g.getTrackNumber (span.vMin - ab.yMin) (span.vMax - ab.yMin) : Int) else 0)
                + (if flags.Vertical ∧ g.getDirection = .Vertical then
                  (g.getTrackNumber (span.vMin - ab.xMin) (span.vMax - ab.xMin) : Int)
                  else 0))).sum))
  | [], capacity, _, hc => by simp [AnabaticEngine.capacityLoop, hc]
  | d :: rest, capacity, h, hc => by
    have hd : d < layerGauges.length := h d (List.mem_cons_self _ _)
    have hget : layerGauges[d]? = some layerGauges[d] := List.getElem?_eq_getElem hd
    simp only [AnabaticEngine.capacityLoop, hget, List.map_cons, List.sum_cons]
    rw [capacityStep_eq_spec ab span flags _ capacity hflags hc,
      capacityLoop_eq_spec ab layerGauges span flags hflags rest _
        (fun x hx => h x (List.mem_cons_of_mem _ hx)) (wrapInt_wrapInt _),
      wrapInt_wrapInt_add, add_assoc]

/-- The code agrees with the reference of the specification, stored in the
`int` returned, when the gauge vector is long enough and the flags do not have
both directions. -/
theorem getCapacity_eq_spec_of_one_direction (ab : Box) (layerGauges : List RoutingLayerGauge)
    (allowedDepth : Nat) (span : Interval) (flags : DirectionFlags)
    (hflags : ¬ (flags.Horizontal ∧ flags.Vertical))
    (hdepth : allowedDepth < layerGauges.length)
    (hspan : (span.inflate 0 (-1)).isEmpty = false) :
    AnabaticEngine.getCapacity ab layerGauges allowedDepth span flags
      = .ok (wrapInt (getCapacitySpec ab layerGauges allowedDepth span flags)) := by
  have hne : span.isEmpty = false := by
    by_contra h
    simp only [Bool.not_eq_false] at h
    simp [Interval.inflate, h] at hspan
  have hinf : span.inflate 0 (-1) = ⟨span.vMin, span.vMax - 1⟩ := by
    simp [Interval.inflate, hne]
    rfl
  simp only [AnabaticEngine.getCapacity, hspan, Bool.false_eq_true, if_false]
  rw [capacityLoop_eq_spec ab layerGauges _ flags hflags _ 0
    (fun d hd => by have := List.mem_range.1 hd; omega) (by decide), hinf]
  simp [getCapacitySpec]

/-- C17 (the code at the failing input): with abutment box
`[0,1000] x [0,1000]`, a single vertical default layer of pitch 20, allowed
depth 0 and span `[0,200]`, the reference of the specification for the flags
`Horizontal|Vertical` is `trackNumber(0,199) = 10`, as is the code's result
for the flag `Vertical` alone; with both flags the code returns 0, because the
`continue` of the horizontal test skips the vertical one. -/
theorem getCapacity_both_flags_skips_vertical :
    getCapacitySpec ⟨0, 0, 1000, 1000⟩ [pitchGauge .Vertical 20] 0 ⟨0, 200⟩ ⟨true, true⟩ = 10
      ∧ AnabaticEngine.getCapacity ⟨0, 0, 1000, 1000⟩ [pitchGauge .Vertical 20] 0 ⟨0, 200⟩
          ⟨false, true⟩ = .ok 10
      ∧ AnabaticEngine.getCapacity ⟨0, 0, 1000, 1000⟩ [pitchGauge .Vertical 20] 0 ⟨0, 200⟩
          ⟨true, true⟩ = .ok 0 :=
  ⟨rfl, rfl, rfl⟩

/-- C18: on a non-empty span the shrink of `getCapacity` lowers the upper
bound by one and leaves the lower bound alone, and the loop over the gauges
sees the span so shrunk; for every span whose upper bound less one is below
its lower bound (an empty span, a zero-length span `[a,a]`), the shrunk span
is empty and `getCapacity` returns 0 whatever the flags, the gauges, the
allowed depth and the abutment box. -/
theorem getCapacity_empty_after_shrink (ab : Box) (layerGauges : List RoutingLayerGauge)
    (allowedDepth : Nat) (span : Interval) (flags : DirectionFlags) :
    (span.isEmpty = false → span.inflate 0 (-1) = ⟨span.vMin, span.vMax - 1⟩)
      ∧ (span.vMin ≤ span.vMax - 1 →
          AnabaticEngine.getCapacity ab layerGauges allowedDepth span flags
            = AnabaticEngine.capacityLoop ab layerGauges ⟨span.vMin, span.vMax - 1⟩ flags
                (List.range (allowedDepth + 1)) 0)
      ∧ (span.vMax - 1 < span.vMin →
          (span.inflate 0 (-1)).isEmpty = true
          ∧ AnabaticEngine.getCapacity ab layerGauges allowedDepth span flags = .ok 0) := by
  have hshrink : span.isEmpty = false → span.inflate 0 (-1) = ⟨span.vMin, span.vMax - 1⟩ := by
    intro h
    simp [Interval.inflate, h]
    rfl
  refine ⟨hshrink, ?_, ?_⟩
  · intro hle
    have hne : span.isEmpty = false := by
      simp only [Interval.isEmpty, decide_eq_false_iff_not]
      omega
    have hne1 : (⟨span.vMin, span.vMax - 1⟩ : Interval).isEmpty = false := by
      simp only [Interval.isEmpty, decide_eq_false_iff_not]
      omega
    simp only [AnabaticEngine.getCapacity, hshrink hne, hne1, Bool.false_eq_true, if_false]
  · intro hempty
    have h2 : (span.inflate 0 (-1)).isEmpty = true := by
      by_cases h : span.vMax < span.vMin
      · simp [Interval.inflate, Interval.isEmpty, h]
      · simp only [Interval.inflate, Interval.isEmpty, h, decide_False, Bool.false_eq_true,
          if_false, decide_eq_true_eq]
        omega
    refine ⟨h2, ?_⟩
    simp [AnabaticEngine.getCapacity, h2]

/-! ## Net records -/

/-! ### setupNetDatas -/

/-- The nets of the cell that have no entry yet. -/
theorem setupNetDatas_first_loop (update : Box → Nat → Int) :
    ∀ (nets : List Net) (e : AnabaticEngine),
      nets.foldl (AnabaticEngine.setupNetDatasPush update) e
        = { e with
            netDataPool := e.netDataPool
              ++ (nets.filter (fun n => (e._netDatas.find n.id).isNone)).map
                  (NetData.create update)
            _netOrdering := e._netOrdering
              ++ List.range' e.netDataPool.length
                  (nets.filter (fun n => (e._netDatas.find n.id).isNone)).length }
  | [], e => by simp
  | n :: ns, e => by
    rw [List.foldl_cons, setupNetDatas_first_loop update ns]
    cases h : e._netDatas.find n.id with
    | some data =>
      simp [AnabaticEngine.setupNetDatasPush, h]
    | none =>
      simp only [AnabaticEngine.setupNetDatasPush, h, AnabaticEngine.newNetData,
        List.filter_cons, Option.isNone_none, if_true, List.map_cons, List.length_cons,
        List.length_append, List.length_singleton, List.append_assoc, List.singleton_append,
        List.range'_succ, List.length_nil, Nat.zero_add]

theorem regs_eq_zip (f : NetData → Nat) :
    ∀ (D P : List NetData),
      (List.range' P.length D.length).filterMap
          (fun p => ((P ++ D)[p]?).map (fun d => (f d, p)))
        = (D.map f).zip (List.range' P.length D.length)
  | [], P => by simp
  | d :: D, P => by
    have ih := regs_eq_zip f D (P ++ [d])
    simp only [List.length_append, List.length_singleton, List.append_assoc,
      List.singleton_append] at ih
    simp only [List.length_cons, List.range'_succ, List.filterMap_cons, List.map_cons,
      List.zip_cons_cons]
    rw [List.getElem?_append_right (le_refl _)]
    simp only [Nat.sub_self, List.getElem?_cons_zero, Option.map_some']
    rw [ih]

/-- The second loop of `setupNetDatas`, when the keys it registers are new
and distinct. -/
theorem setupNetDatas_second_loop :
    ∀ (ps : List Nat) (e : AnabaticEngine),
      ((e._netDatas ++ ps.filterMap
          (fun p => (e.netDataPool[p]?).map (fun d => (d.net.id, p)))).map Prod.fst).Nodup →
      ps.foldl AnabaticEngine.setupNetDatasInsert e
        = { e with
            _netDatas := e._netDatas ++ ps.filterMap
                (fun p => (e.netDataPool[p]?).map (fun d => (d.net.id, p))) }
  | [], e, _ => by simp
  | p :: ps, e, h => by
    rw [List.foldl_cons]
    cases hd : e.netDataPool[p]? with
    | none =>
      have hstep : AnabaticEngine.setupNetDatasInsert e p = e := by
        simp [AnabaticEngine.setupNetDatasInsert, AnabaticEngine.netData, hd]
      rw [hstep, setupNetDatas_second_loop ps e (by simpa [hd] using h)]
      simp [hd]
    | some d =>
      simp only [List.filterMap_cons, hd, Option.map_some'] at h
      have habs : Lut.find e._netDatas d.net.id = none := by
        simp only [Lut.find]
        rw [List.lookup_eq_none_iff]
        intro kv hkv
        simp only [List.map_append, List.map_cons] at h
        have hdis := (List.nodup_append.1 h).2.2
        simp only [bne_iff_ne, ne_eq]
        intro hk
        exact hdis (List.mem_map.2 ⟨kv, hkv, rfl⟩) (by simp [hk])
      have hstep : AnabaticEngine.setupNetDatasInsert e p
          = { e with _netDatas := e._netDatas ++ [(d.net.id, p)] } := by
        simp [AnabaticEngine.setupNetDatasInsert, AnabaticEngine.netData, hd,
          Lut.insert_of_find_none _ _ _ habs]
      rw [hstep, setupNetDatas_second_loop ps _ (by simpa using h)]
      simp [hd]

theorem NetData.create_net (update : Box → Nat → Int) (net : Net) :
    (NetData.create update net).net = net := by
  simp only [NetData.create]
  split <;> rfl

theorem Lut.find_eq_none_iff {α : Type} (lut : Lut α) (key : Nat) :
    Lut.find lut key = none ↔ key ∉ lut.map Prod.fst := by
  simp only [Lut.find, List.lookup_eq_none_iff, bne_iff_ne, ne_eq, List.mem_map, not_exists,
    not_and]
  constructor
  · intro h kv hkv hk
    exact h kv hkv hk.symm
  · intro h kv hkv hk
    exact h kv hkv hk.symm

theorem Lut.find_of_mem {α : Type} :
    ∀ (lut : Lut α) (key : Nat) (value : α), (lut.map Prod.fst).Nodup → (key, value) ∈ lut →
      Lut.find lut key = some value
  | [], _, _, _, h => by simp at h
  | (k, v) :: rest, key, value, hnd, h => by
    simp only [List.map_cons, List.nodup_cons] at hnd
    rcases List.mem_cons.1 h with heq | hmem
    · cases heq
      simp [Lut.find, List.lookup]
    · have hne : key ≠ k := by
        intro hk
        subst hk
        exact hnd.1 (List.mem_map.2 ⟨(key, value), hmem, rfl⟩)
      have hb : (key == k) = false := by simpa using hne
      simp only [Lut.find, List.lookup, hb]
      exact Lut.find_of_mem rest key value hnd.2 hmem

theorem Lut.mem_of_find {α : Type} :
    ∀ (lut : Lut α) (key : Nat) (value : α), Lut.find lut key = some value → (key, value) ∈ lut
  | [], _, _, h => by simp [Lut.find, List.lookup] at h
  | (k, v) :: rest, key, value, h => by
    by_cases hk : key = k
    · subst hk
      simp [Lut.find, List.lookup] at h
      simp [h]
    · have hb : (key == k) = false := by simpa using hk
      simp only [Lut.find, List.lookup, hb] at h
      exact List.mem_cons_of_mem _ (Lut.mem_of_find rest key value h)

/-- The nets of the cell that `setupNetDatas` gives a record to. -/
theorem news_keys_nodup (e : AnabaticEngine) (cellNets : List Net)
    (hkeys : (e._netDatas.map Prod.fst).Nodup) (hids : (cellNets.map (·.id)).Nodup) :
    (e._netDatas.map Prod.fst
      ++ (cellNets.filter (fun n => (e._netDatas.find n.id).isNone)).map (·.id)).Nodup := by
  rw [List.nodup_append]
  refine ⟨hkeys, ?_, ?_⟩
  · exact (List.Nodup.sublist ((List.filter_sublist _).map _) hids)
  · intro k hk hk'
    obtain ⟨n, hn, rfl⟩ := List.mem_map.1 hk'
    have := (List.mem_filter.1 hn).2
    simp only [Option.isNone_iff_eq_none] at this
    exact (Lut.find_eq_none_iff _ _).1 this hk

/-- The engine left by `setupNetDatas`, in closed form, with the new entries
read from the pool. -/
theorem setupNetDatas_eq_regs (update : Box → Nat → Int) (cellNets : List Net)
    (e : AnabaticEngine)
    (hkeys : (e._netDatas.map Prod.fst).Nodup) (hids : (cellNets.map (·.id)).Nodup) :
    e.setupNetDatas update cellNets
      = { e with
          netDataPool := e.netDataPool
            ++ (cellNets.filter (fun n => (e._netDatas.find n.id).isNone)).map
                (NetData.create update)
          _netDatas := e._netDatas
            ++ (List.range' e.netDataPool.length
                  (cellNets.filter (fun n => (e._netDatas.find n.id).isNone)).length).filterMap
                (fun p => ((e.netDataPool
                  ++ (cellNets.filter (fun n => (e._netDatas.find n.id).isNone)).map
                      (NetData.create update))[p]?).map (fun d => (d.net.id, p)))
          _netOrdering :=
            (e._netOrdering ++ List.range' e.netDataPool.length
                (cellNets.filter (fun n => (e._netDatas.find n.id).isNone)).length).insertionSort
              (sparsityNotAfter (e.netDataPool
                ++ (cellNets.filter (fun n => (e._netDatas.find n.id).isNone)).map
                    (NetData.create update))) }
        ∧ ((e._netDatas
            ++ (List.range' e.netDataPool.length
                  (cellNets.filter (fun n => (e._netDatas.find n.id).isNone)).length).filterMap
                (fun p => ((e.netDataPool
                  ++ (cellNets.filter (fun n => (e._netDatas.find n.id).isNone)).map
                      (NetData.create update))[p]?).map (fun d => (d.net.id, p)))).map
              Prod.fst
            = e._netDatas.map Prod.fst
              ++ (cellNets.filter (fun n => (e._netDatas.find n.id).isNone)).map (·.id)) := by
  have hregs := regs_eq_zip (fun d => d.net.id)
    ((cellNets.filter (fun n => (e._netDatas.find n.id).isNone)).map (NetData.create update))
    e.netDataPool
  simp only [List.length_map, List.map_map] at hregs
  have hcomp : ((fun d : NetData => d.net.id) ∘ NetData.create update) = (fun n : Net => n.id) := by
    funext n
    simp [NetData.create_net]
  rw [hcomp] at hregs
  have hk : (e._netDatas
      ++ (List.range' e.netDataPool.length
            (cellNets.filter (fun n => (e._netDatas.find n.id).isNone)).length).filterMap
          (fun p => ((e.netDataPool
            ++ (cellNets.filter (fun n => (e._netDatas.find n.id).isNone)).map
                (NetData.create update))[p]?).map (fun d => (d.net.id, p)))).map Prod.fst
      = e._netDatas.map Prod.fst
        ++ (cellNets.filter (fun n => (e._netDatas.find n.id).isNone)).map (·.id) := by
    rw [hregs, List.map_append, List.map_fst_zip]
    simp
  refine ⟨?_, hk⟩
  simp only [AnabaticEngine.setupNetDatas, setupNetDatas_first_loop, List.drop_left]
  rw [setupNetDatas_second_loop]
  simp only []
  rw [hk]
  exact news_keys_nodup e cellNets hkeys hids

theorem sparsityOrder_eq_false_iff (a b : NetData) :
    SparsityOrder a b = false ↔ sparsityKey b ≤ sparsityKey a := by
  simp only [SparsityOrder, sparsityKey, Prod.Lex.le_iff, Bool.or_eq_false_iff,
    decide_eq_false_iff_not, Bool.and_eq_false_imp, decide_eq_true_eq, not_lt]
  constructor
  · rintro ⟨h1, h2⟩
    rcases lt_or_eq_of_le h1 with h | h
    · exact Or.inl h
    · exact Or.inr ⟨h, by have := h2 h.symm; omega⟩
  · rintro (h | ⟨h1, h2⟩)
    · exact ⟨le_of_lt h, fun h' => by omega⟩
    · exact ⟨le_of_eq h1, fun _ => by omega⟩

theorem sparsityNotAfter_iff (pool : List NetData) (lhs rhs : Nat) :
    sparsityNotAfter pool lhs rhs
      ↔ sparsityKey (pool.getD lhs default) ≤ sparsityKey (pool.getD rhs default) := by
  simp only [sparsityNotAfter, sparsityOrder_eq_false_iff]

theorem sorted_insertionSort_sparsity (pool : List NetData) (l : List Nat) :
    (l.insertionSort (sparsityNotAfter pool)).Sorted (sparsityNotAfter pool) := by
  haveI : IsTotal Nat (sparsityNotAfter pool) :=
    ⟨fun a b => by simp only [sparsityNotAfter_iff]; exact le_total _ _⟩
  haveI : IsTrans Nat (sparsityNotAfter pool) :=
    ⟨fun a b c => by simp only [sparsityNotAfter_iff]; exact le_trans⟩
  exact List.sorted_insertionSort _ l

theorem filterMap_pool_eq_map (pool : List NetData) :
    ∀ (l : List Nat), (∀ p ∈ l, p < pool.length) →
      l.filterMap (fun p => pool[p]?) = l.map (fun p => pool.getD p default)
  | [], _ => rfl
  | p :: l, h => by
    have hp := h p (List.mem_cons_self _ _)
    have ih := filterMap_pool_eq_map pool l (fun q hq => h q (List.mem_cons_of_mem _ hq))
    simp [List.filterMap_cons, List.getElem?_eq_getElem hp, ih, List.getD_eq_getElem?_getD]

/-- The records of a list of live pointers sorted by the comparison of the
sort are in ascending order of key. -/
theorem orderedDatas_sorted_of_sorted (e : AnabaticEngine)
    (hlive : ∀ p ∈ e._netOrdering, p < e.netDataPool.length)
    (hsorted : e._netOrdering.Sorted (sparsityNotAfter e.netDataPool)) :
    (e.orderedDatas.map sparsityKey).Sorted (· ≤ ·) := by
  have h1 : e.orderedDatas = e._netOrdering.map (fun p => e.netDataPool.getD p default) :=
    filterMap_pool_eq_map e.netDataPool e._netOrdering hlive
  rw [h1, List.map_map]
  exact List.Pairwise.map _ (fun a b hab => (sparsityNotAfter_iff _ a b).1 hab) hsorted

theorem mem_insertionSort_iff (r : Nat → Nat → Prop) [DecidableRel r] (l : List Nat) (p : Nat) :
    p ∈ l.insertionSort r ↔ p ∈ l :=
  (List.perm_insertionSort r l).mem_iff

/-- The coherence of the net containers is kept by `setupNetDatas`, and every
net of the cell ends with an entry. -/
theorem setupNetDatas_tables (update : Box → Nat → Int) (cellNets : List Net)
    (e : AnabaticEngine) (hok : e.NetTablesOk) (hids : (cellNets.map (·.id)).Nodup) :
    (e.setupNetDatas update cellNets).NetTablesOk
      ∧ (∀ net ∈ cellNets, net.id ∈ (e.setupNetDatas update cellNets)._netDatas.map Prod.fst) := by
  obtain ⟨heq, hk⟩ := setupNetDatas_eq_regs update cellNets e hok.keys_nodup hids
  have hnd := news_keys_nodup e cellNets hok.keys_nodup hids
  generalize hnews : cellNets.filter (fun n => (e._netDatas.find n.id).isNone) = news
    at heq hk hnd
  rw [heq]
  have hkeys' : ((e._netDatas
      ++ (List.range' e.netDataPool.length news.length).filterMap
          (fun p => ((e.netDataPool ++ news.map (NetData.create update))[p]?).map
            (fun d => (d.net.id, p)))).map Prod.fst).Nodup := by
    rw [hk]; exact hnd
  have hold : ∀ p, p < e.netDataPool.length →
      (e.netDataPool ++ news.map (NetData.create update))[p]? = e.netDataPool[p]? :=
    fun p hp => List.getElem?_append_left hp
  have hmemreg : ∀ kv, kv ∈ (List.range' e.netDataPool.length news.length).filterMap
        (fun p => ((e.netDataPool ++ news.map (NetData.create update))[p]?).map
          (fun d => (d.net.id, p))) ↔
      ∃ d, kv.2 ∈ List.range' e.netDataPool.length news.length
        ∧ (e.netDataPool ++ news.map (NetData.create update))[kv.2]? = some d
        ∧ d.net.id = kv.1 := by
    intro kv
    simp only [List.mem_filterMap, Option.map_eq_some']
    constructor
    · rintro ⟨p, hp, d, hd, rfl⟩
      exact ⟨d, hp, hd, rfl⟩
    · rintro ⟨d, hp, hd, hid⟩
      exact ⟨kv.2, hp, d, hd, by rw [hid]⟩
  refine ⟨⟨?_, ?_, ?_, ?_, ?_, hkeys'⟩, ?_⟩
  · -- ordering_live
    intro p hp
    simp only [mem_insertionSort_iff, List.mem_append, List.mem_range'_1] at hp
    simp only [List.length_append, List.length_map]
    rcases hp with hp | hp
    · have := hok.ordering_live p hp
      omega
    · omega
  · -- ordering_registered
    intro p hp d hd
    simp only [mem_insertionSort_iff, List.mem_append] at hp
    simp only [AnabaticEngine.netData] at hd
    apply Lut.find_of_mem _ _ _ hkeys'
    rcases hp with hp | hp
    · have hlt := hok.ordering_live p hp
      rw [hold p hlt] at hd
      exact List.mem_append_left _ (Lut.mem_of_find _ _ _ (hok.ordering_registered p hp d hd))
    · exact List.mem_append_right _ ((hmemreg (d.net.id, p)).2 ⟨d, hp, hd, rfl⟩)
  · -- ordering_nodup
    refine (List.perm_insertionSort _ _).nodup_iff.2 ?_
    rw [List.nodup_append]
    refine ⟨hok.ordering_nodup, List.nodup_range' _ _, ?_⟩
    intro p hp hp'
    have := hok.ordering_live p hp
    simp only [List.mem_range'_1] at hp'
    omega
  · -- datas_ordered
    intro kv hkv
    simp only [mem_insertionSort_iff, List.mem_append]
    rcases List.mem_append.1 hkv with h | h
    · exact Or.inl (hok.datas_ordered kv h)
    · obtain ⟨d, hp, -, -⟩ := (hmemreg kv).1 h
      exact Or.inr hp
  · -- datas_keyed
    intro kv hkv d hd
    simp only [AnabaticEngine.netData] at hd
    rcases List.mem_append.1 hkv with h | h
    · have hlt := hok.ordering_live kv.2 (hok.datas_ordered kv h)
      rw [hold kv.2 hlt] at hd
      exact hok.datas_keyed kv h d hd
    · obtain ⟨d', -, hd', hid⟩ := (hmemreg kv).1 h
      rw [hd'] at hd
      cases hd
      exact hid
  · -- every net of the cell has an entry
    intro net hnet
    simp only []
    rw [hk, List.mem_append]
    by_cases h : (e._netDatas.find net.id).isNone
    · right
      rw [← hnews]
      exact List.mem_map.2 ⟨net, List.mem_filter.2 ⟨hnet, h⟩, rfl⟩
    · left
      simp only [Option.isNone_iff_eq_none] at h
      exact not_not.1 (fun hh => h ((Lut.find_eq_none_iff _ _).2 hh))

theorem filterMap_range'_append :
    ∀ (X P : List NetData),
      (List.range' P.length X.length).filterMap (fun p => (P ++ X)[p]?) = X
  | [], P => by simp
  | x :: X, P => by
    have ih := filterMap_range'_append X (P ++ [x])
    simp only [List.length_append, List.length_singleton, List.append_assoc,
      List.singleton_append] at ih
    simp only [List.length_cons, List.range'_succ, List.filterMap_cons]
    rw [List.getElem?_append_right (le_refl _)]
    simp only [Nat.sub_self, List.getElem?_cons_zero]
    rw [ih]

theorem orderedDatas_eq (e : AnabaticEngine) :
    e.orderedDatas = e._netOrdering.filterMap (fun p => e.netDataPool[p]?) := rfl

/-- The records listed after `setupNetDatas` are those listed before and the
records built for the nets of the cell that had no entry. -/
theorem setupNetDatas_orderedDatas_perm (update : Box → Nat → Int) (cellNets : List Net)
    (e : AnabaticEngine) (hok : e.NetTablesOk) (hids : (cellNets.map (·.id)).Nodup) :
    (e.setupNetDatas update cellNets).orderedDatas.Perm
      (e.orderedDatas
        ++ (cellNets.filter (fun n => (e._netDatas.find n.id).isNone)).map
            (NetData.create update)) := by
  obtain ⟨heq, -⟩ := setupNetDatas_eq_regs update cellNets e hok.keys_nodup hids
  rw [orderedDatas_eq, orderedDatas_eq, heq]
  simp only []
  refine ((List.perm_insertionSort _ _).filterMap _).trans ?_
  rw [List.filterMap_append]
  have hnew := filterMap_range'_append
    ((cellNets.filter (fun n => (e._netDatas.find n.id).isNone)).map (NetData.create update))
    e.netDataPool
  simp only [List.length_map] at hnew
  rw [hnew]
  have hold : e._netOrdering.filterMap (fun p => (e.netDataPool
        ++ (cellNets.filter (fun n => (e._netDatas.find n.id).isNone)).map
            (NetData.create update))[p]?)
      = e._netOrdering.filterMap (fun p => e.netDataPool[p]?) := by
    apply List.filterMap_congr
    intro p hp
    exact List.getElem?_append_left (hok.ordering_live p hp)
  rw [hold]

/-- In coherent tables the records listed by `_netOrdering` belong to nets of
distinct ids. -/
theorem orderedDatas_ids_nodup (e : AnabaticEngine) (hok : e.NetTablesOk) :
    (e.orderedDatas.map (fun d => d.net.id)).Nodup := by
  rw [orderedDatas_eq, filterMap_pool_eq_map e.netDataPool e._netOrdering hok.ordering_live,
    List.map_map]
  refine List.Nodup.map_on ?_ hok.ordering_nodup
  intro p hp q hq hpq
  have hp' := hok.ordering_live p hp
  have hq' := hok.ordering_live q hq
  have e1 := hok.ordering_registered p hp (e.netDataPool[p]) (List.getElem?_eq_getElem hp')
  have e2 := hok.ordering_registered q hq (e.netDataPool[q]) (List.getElem?_eq_getElem hq')
  simp only [Function.comp, List.getD_eq_getElem?_getD, List.getElem?_eq_getElem hp',
    List.getElem?_eq_getElem hq', Option.getD_some] at hpq
  rw [hpq] at e1
  rw [e1] at e2
  exact Option.some.inj e2

/-- Two lists of records of nets of distinct ids, with the same records, both
in ascending order of key, are equal. -/
theorem eq_of_perm_of_sorted_keys (l₁ l₂ : List NetData) (hperm : l₁.Perm l₂)
    (hnd : (l₁.map (fun d => d.net.id)).Nodup)
    (h₁ : (l₁.map sparsityKey).Sorted (· ≤ ·)) (h₂ : (l₂.map sparsityKey).Sorted (· ≤ ·)) :
    l₁ = l₂ := by
  have hkey : ∀ l : List NetData, (l.map (fun d => d.net.id)).Nodup →
      (l.map sparsityKey).Sorted (· ≤ ·) → l.Sorted (fun a b => sparsityKey a < sparsityKey b) := by
    intro l hl hs
    have hs' : l.Pairwise (fun a b => sparsityKey a ≤ sparsityKey b) := List.pairwise_map.1 hs
    have hn' : l.Pairwise (fun a b => a.net.id ≠ b.net.id) := List.pairwise_map.1 hl
    refine (hs'.and hn').imp ?_
    rintro a b ⟨hle, hne⟩
    refine lt_of_le_of_ne hle ?_
    intro hk
    apply hne
    have := congrArg (fun k : Lex (Int × Nat) => (ofLex k).2) hk
    simpa [sparsityKey] using this
  have hnd₂ : (l₂.map (fun d => d.net.id)).Nodup := (hperm.map _).nodup_iff.1 hnd
  haveI : IsAntisymm NetData (fun a b => sparsityKey a < sparsityKey b) :=
    ⟨fun a b hab hba => absurd hab (lt_asymm hba)⟩
  exact List.eq_of_perm_of_sorted hperm (hkey l₁ hnd h₁) (hkey l₂ hnd₂ h₂)

/-- C19: on an engine whose net containers are coherent and a cell whose nets
have distinct ids, after `setupNetDatas` the records listed by `netOrdering`
are in ascending order of (sparsity, net id), every pointer of `netOrdering`
being live; every net of the cell has exactly one entry in `netDatas` keyed by
its id, which points to a record of a net of that id; the containers are
coherent again, so this holds after every further call; and the sequence of
records does not depend on the order in which the cell lists its nets. -/
theorem setupNetDatas_sorted (update : Box → Nat → Int) (cellNets : List Net)
    (e : AnabaticEngine) (hok : e.NetTablesOk) (hids : (cellNets.map (·.id)).Nodup) :
    ((e.setupNetDatas update cellNets).orderedDatas.map sparsityKey).Sorted (· ≤ ·)
      ∧ (e.setupNetDatas update cellNets).orderedDatas.length
          = (e.setupNetDatas update cellNets)._netOrdering.length
      ∧ (∀ net ∈ cellNets,
          ((e.setupNetDatas update cellNets)._netDatas.map Prod.fst).count net.id = 1
          ∧ ∃ data d, (e.setupNetDatas update cellNets)._netDatas.find net.id = some data
              ∧ (e.setupNetDatas update cellNets).netData data = some d ∧ d.net.id = net.id)
      ∧ (e.setupNetDatas update cellNets).NetTablesOk
      ∧ (∀ cellNets' : List Net, cellNets'.Perm cellNets →
          (e.setupNetDatas update cellNets').orderedDatas
            = (e.setupNetDatas update cellNets).orderedDatas) := by
  obtain ⟨hok', hall⟩ := setupNetDatas_tables update cellNets e hok hids
  have hsorted : ∀ nets : List Net, (nets.map (·.id)).Nodup →
      ((e.setupNetDatas update nets).orderedDatas.map sparsityKey).Sorted (· ≤ ·) := by
    intro nets hn
    have hokn := (setupNetDatas_tables update nets e hok hn).1
    refine orderedDatas_sorted_of_sorted _ hokn.ordering_live ?_
    simp only [AnabaticEngine.setupNetDatas]
    exact sorted_insertionSort_sparsity _ _
  refine ⟨hsorted cellNets hids, ?_, ?_, hok', ?_⟩
  · rw [orderedDatas_eq, filterMap_pool_eq_map _ _ hok'.ordering_live, List.length_map]
  · intro net hnet
    have hmem := hall net hnet
    refine ⟨List.count_eq_one_of_mem hok'.keys_nodup hmem, ?_⟩
    obtain ⟨kv, hkv, hkey⟩ := List.mem_map.1 hmem
    have hlive := hok'.ordering_live kv.2 (hok'.datas_ordered kv hkv)
    refine ⟨kv.2, (e.setupNetDatas update cellNets).netDataPool[kv.2], ?_, ?_, ?_⟩
    · rw [← hkey]
      exact Lut.find_of_mem _ _ _ hok'.keys_nodup hkv
    · exact List.getElem?_eq_getElem hlive
    · rw [← hkey]
      exact hok'.datas_keyed kv hkv _ (List.getElem?_eq_getElem hlive)
  · intro cellNets' hperm
    have hids' : (cellNets'.map (·.id)).Nodup := (hperm.map _).nodup_iff.2 hids
    have hok'' := (setupNetDatas_tables update cellNets' e hok hids').1
    refine eq_of_perm_of_sorted_keys _ _ ?_ (orderedDatas_ids_nodup _ hok'')
      (hsorted cellNets' hids') (hsorted cellNets hids)
    refine (setupNetDatas_orderedDatas_perm update cellNets' e hok hids').trans ?_
    refine List.Perm.trans ?_ (setupNetDatas_orderedDatas_perm update cellNets e hok hids).symm
    exact List.Perm.append_left _ ((hperm.filter _).map _)

/-- Witness of C19: the three nets of scenario 5 on the engine just built;
the nets of area 100, 400 and 900 come in this order. -/
theorem setupNetDatas_sorted_witness :
    (((AnabaticEngine.init.setupNetDatas sparsityOf scenario5Nets).orderedDatas.map
        sparsityKey).Sorted (· ≤ ·)
      ∧ (AnabaticEngine.init.setupNetDatas sparsityOf scenario5Nets).orderedDatas.length
          = (AnabaticEngine.init.setupNetDatas sparsityOf scenario5Nets)._netOrdering.length)
      ∧ (AnabaticEngine.init.setupNetDatas sparsityOf scenario5Nets).orderedDatas.map
          (fun d => (d.net.id, d.searchArea, d.rpCount, d.sparsity))
        = [(1, ⟨0, 0, 10, 10⟩, 4, 35), (2, ⟨0, 0, 20, 20⟩, 4, 120),
            (0, ⟨0, 0, 30, 30⟩, 4, 255)] :=
  ⟨⟨(setupNetDatas_sorted sparsityOf scenario5Nets AnabaticEngine.init
        ⟨by simp [AnabaticEngine.init], by simp [AnabaticEngine.init],
          by simp [AnabaticEngine.init], by simp [AnabaticEngine.init],
          by simp [AnabaticEngine.init], by simp [AnabaticEngine.init]⟩ (by decide)).1,
      (setupNetDatas_sorted sparsityOf scenario5Nets AnabaticEngine.init
        ⟨by simp [AnabaticEngine.init], by simp [AnabaticEngine.init],
          by simp [AnabaticEngine.init], by simp [AnabaticEngine.init],
          by simp [AnabaticEngine.init], by simp [AnabaticEngine.init]⟩ (by decide)).2.1⟩,
    by decide⟩


/-- C20: `getNetData(net, flags)` returns a pointer to a live `NetData`,
provided the entry of `net`, if there is one, points to a live object.  When
`net` has no entry, the object is new (the next object of the pool, built by
the constructor, with the routing state created on request), it is registered
under the net's id at the end of `netDatas` and appended to `netOrdering`.
When `net` has an entry, that entry is returned, and both containers and the
size of the pool are unchanged.  In either case a second call, whatever its
flags, returns the same pointer and leaves both containers and the size of the
pool unchanged. -/
theorem getNetData_creates_or_returns (update : Box → Nat → Int)
    (createState : Net → NetRoutingState) (e : AnabaticEngine) (net : Net) (create create' : Bool)
    (hvalid : ∀ data, e._netDatas.find net.id = some data → data < e.netDataPool.length) :
    ((e.getNetData update createState net create).2.netData
        (e.getNetData update createState net create).1 ≠ none)
      ∧ (e._netDatas.find net.id = none →
          (e.getNetData update createState net create).1 = e.netDataPool.length
          ∧ (e.getNetData update createState net create).2.netDataPool
              = e.netDataPool ++ [if create ∧ net.state = none
                  then { NetData.create update net with state := some (createState net) }
                  else NetData.create update net]
          ∧ (e.getNetData update createState net create).2._netDatas
              = e._netDatas ++ [(net.id, e.netDataPool.length)]
          ∧ (e.getNetData update createState net create).2._netOrdering
              = e._netOrdering ++ [e.netDataPool.length])
      ∧ (∀ data, e._netDatas.find net.id = some data →
          (e.getNetData update createState net create).1 = data
          ∧ (e.getNetData update createState net create).2._netDatas = e._netDatas
          ∧ (e.getNetData update createState net create).2._netOrdering = e._netOrdering
          ∧ (e.getNetData update createState net create).2.netDataPool.length
              = e.netDataPool.length)
      ∧ (((e.getNetData update createState net create).2.getNetData update createState net
            create').1 = (e.getNetData update createState net create).1
          ∧ ((e.getNetData update createState net create).2.getNetData update createState net
            create').2._netDatas = (e.getNetData update createState net create).2._netDatas
          ∧ ((e.getNetData update createState net create).2.getNetData update createState net
            create').2._netOrdering = (e.getNetData update createState net create).2._netOrdering
          ∧ ((e.getNetData update createState net create).2.getNetData update createState net
            create').2.netDataPool.length
              = (e.getNetData update createState net create).2.netDataPool.length) := by
  -- the shape of one call on an engine that has an entry for the net
  have hsome : ∀ (x : AnabaticEngine) (c : Bool) (data : Nat),
      x._netDatas.find net.id = some data →
      (x.getNetData update createState net c).1 = data
      ∧ (x.getNetData update createState net c).2._netDatas = x._netDatas
      ∧ (x.getNetData update createState net c).2._netOrdering = x._netOrdering
      ∧ (x.getNetData update createState net c).2.netDataPool.length = x.netDataPool.length := by
    intro x c data hfind
    simp only [AnabaticEngine.getNetData, hfind]
    cases hd : x.netData data with
    | none => exact ⟨rfl, rfl, rfl, rfl⟩
    | some d =>
      simp only []
      split
      · exact ⟨rfl, rfl, rfl, by simp⟩
      · exact ⟨rfl, rfl, rfl, rfl⟩
  cases hfind : e._netDatas.find net.id with
  | some data =>
    have hlt := hvalid data hfind
    have h1 := hsome e create data hfind
    have hfind2 : (e.getNetData update createState net create).2._netDatas.find net.id
        = some data := by rw [h1.2.1]; exact hfind
    have h2 := hsome _ create' data hfind2
    refine ⟨?_, (fun h => by cases h), ?_, ?_⟩
    · rw [h1.1]
      simp only [AnabaticEngine.netData]
      rw [List.getElem?_eq_getElem (by rw [h1.2.2.2]; exact hlt)]
      simp
    · intro data' hd'
      cases hd'
      exact h1
    · rw [h1.1]
      exact h2
  | none =>
    have hnew : (e.getNetData update createState net create).1 = e.netDataPool.length
        ∧ (e.getNetData update createState net create).2.netDataPool
            = e.netDataPool ++ [if create ∧ net.state = none
                then { NetData.create update net with state := some (createState net) }
                else NetData.create update net]
        ∧ (e.getNetData update createState net create).2._netDatas
            = e._netDatas ++ [(net.id, e.netDataPool.length)]
        ∧ (e.getNetData update createState net create).2._netOrdering
            = e._netOrdering ++ [e.netDataPool.length] := by
      have hst : (NetData.create update net).state = net.state := by
        simp only [NetData.create]
        split <;> rfl
      simp only [AnabaticEngine.getNetData, hfind, AnabaticEngine.newNetData,
        AnabaticEngine.netData, Lut.insert_of_find_none _ _ _ hfind,
        List.getElem?_concat_length, hst]
      split <;> simp
    have hfind2 : (e.getNetData update createState net create).2._netDatas.find net.id
        = some e.netDataPool.length := by
      rw [hnew.2.2.1, ← Lut.insert_of_find_none _ _ _ hfind]
      exact Lut.find_insert_self _ _ _ hfind
    have h2 := hsome _ create' _ hfind2
    refine ⟨?_, (fun _ => hnew), (fun data h => by cases h), ?_⟩
    · rw [hnew.1, AnabaticEngine.netData, hnew.2.1]
      simp
    · rw [hnew.1]
      exact h2

/-- Witness of C20: the net of scenario 4 on the engine of scenario 4, which
has a record for it, and on the engine just built, which has none. -/
theorem getNetData_creates_or_returns_witness :
    (scenario4Engine.getNetData sparsityOf (fun _ => ⟨false⟩) scenario4Net true).1 = 0
      ∧ (scenario4Engine.getNetData sparsityOf (fun _ => ⟨false⟩) scenario4Net true).2._netDatas
          = scenario4Engine._netDatas
      ∧ (AnabaticEngine.init.getNetData sparsityOf (fun _ => ⟨false⟩) scenario4Net true).1 = 0
      ∧ (AnabaticEngine.init.getNetData sparsityOf (fun _ => ⟨false⟩) scenario4Net true).2._netDatas
          = [(2, 0)] :=
  ⟨((getNetData_creates_or_returns sparsityOf (fun _ => ⟨false⟩) scenario4Engine scenario4Net
        true false (by
          intro data h
          have : data = 0 := by
            simpa [scenario4Engine, scenario4Net, Lut.find, List.lookup] using h.symm
          subst this
          decide)).2.2.1 0 rfl).1,
    ((getNetData_creates_or_returns sparsityOf (fun _ => ⟨false⟩) scenario4Engine scenario4Net
        true false (by
          intro data h
          have : data = 0 := by
            simpa [scenario4Engine, scenario4Net, Lut.find, List.lookup] using h.symm
          subst this
          decide)).2.2.1 0 rfl).2.1,
    ((getNetData_creates_or_returns sparsityOf (fun _ => ⟨false⟩) AnabaticEngine.init
        scenario4Net true false (by
          intro data h
          simp [AnabaticEngine.init, Lut.find, List.lookup] at h)).2.1 rfl).1,
    ((getNetData_creates_or_returns sparsityOf (fun _ => ⟨false⟩) AnabaticEngine.init
        scenario4Net true false (by
          intro data h
          simp [AnabaticEngine.init, Lut.find, List.lookup] at h)).2.1 rfl).2.2.1⟩


theorem scenarioWestChain_refs (c : Nat) :
    scenarioWestChain.degree c ≤ scenarioWestChain.refCount c := by
  match c with
  | 0 | 1 | 2 => decide
  | c + 3 =>
    simp only [EngineState.degree, scenarioWestChain, ringSegments]
    simp

/-- C14 (the code at the failing input): the two vertical segments of
`scenarioWestChain` form a chain of net 1 along the west side `x = 0` of the
abutment box, inside it: segment 0 from the terminal contact 0 to the
degree-2 contact 1, segment 1 from there to the terminal contact 2, both
terminals carrying a routing pad, every contact referenced at least once for
each segment end on it, and the look-up finding a tile under every contact.
The propagation loop of `ripup(segment 0, Propagate)` collects both segments,
once each.  But the index rejects a segment on `x = xMin` as outside the
area and returns an empty tile sequence, on which the destruction loop
evaluates `gcellAt(0)`: whatever the fuel, `ripup` does not return, and from
fuel 3 on it faults there. -/
theorem ripup_chain_on_west_side_faults :
    (scenarioWestChain.segment 0 = some ⟨.vertical, 1, some 0, some 1, 0⟩
        ∧ scenarioWestChain.ChainFrom [1] 0 1 2
        ∧ scenarioWestChain.ChainFrom [] 0 0 0
        ∧ (∀ c, scenarioWestChain.degree c ≤ scenarioWestChain.refCount c)
        ∧ (gridMesh 10 10 100).getGCellUnder 0 50 = some 0
        ∧ (gridMesh 10 10 100).getGCellUnder 0 250 = some 20
        ∧ (gridMesh 10 10 100).getGCellUnder 0 450 = some 40)
      ∧ (∀ fuel, 3 ≤ fuel →
          AnabaticEngine.ripupPropagate scenarioWestChain fuel [(0, some 1), (0, some 0)]
            ⟨[0], none, none⟩ = .ok ⟨[0, 1], some 2, some 0⟩)
      ∧ (∀ fuel, RawGCellsUnder.RawGCellsUnder fuel (gridMesh 10 10 100)
          (scenarioWestChain.geom ⟨.vertical, 1, some 0, some 1, 0⟩)
            = .ok ⟨[], some .outsideArea⟩)
      ∧ (∀ fuel, 3 ≤ fuel →
          AnabaticEngine.ripup fuel (gridMesh 10 10 100) sparsityOf (fun _ => ⟨false⟩)
            (fun _ => scenarioWestNet) AnabaticEngine.init scenarioWestChain 0 true
              = .error .outOfRange)
      ∧ ∀ fuel,
          (AnabaticEngine.ripup fuel (gridMesh 10 10 100) sparsityOf (fun _ => ⟨false⟩)
            (fun _ => scenarioWestNet) AnabaticEngine.init scenarioWestChain 0 true).toOption
              = none := by
  have hprop : ∀ fuel, 3 ≤ fuel →
      AnabaticEngine.ripupPropagate scenarioWestChain fuel [(0, some 1), (0, some 0)]
        ⟨[0], none, none⟩ = .ok ⟨[0, 1], some 2, some 0⟩ := by
    intro fuel hfuel
    obtain ⟨k, hk⟩ : ∃ k, fuel = (k + (([] : List Nat).length + 1)) + ([1].length + 1) :=
      ⟨fuel - 3, by simp only [List.length_nil, List.length_singleton]; omega⟩
    rw [hk, ripupPropagate_chain scenarioWestChain [1] 0 1 2 _ _ _ (by decide),
      ripupPropagate_chain scenarioWestChain [] 0 0 0 k [] _ (by decide)]
    simp [AnabaticEngine.ripupPropagate]
  have hfault : ∀ fuel, 3 ≤ fuel →
      AnabaticEngine.ripup fuel (gridMesh 10 10 100) sparsityOf (fun _ => ⟨false⟩)
        (fun _ => scenarioWestNet) AnabaticEngine.init scenarioWestChain 0 true
          = .error .outOfRange := by
    intro fuel hfuel
    have hseed : scenarioWestChain.segment 0 = some ⟨.vertical, 1, some 0, some 1, 0⟩ := rfl
    have hdestroy : AnabaticEngine.ripupDestroyAll fuel (gridMesh 10 10 100) [0, 1]
        (scenarioWestChain, some 2, some 0) = .error .outOfRange := rfl
    simp only [AnabaticEngine.ripup, hseed, if_true, hprop fuel hfuel, hdestroy]
  refine ⟨⟨rfl, by decide, by decide, scenarioWestChain_refs, rfl, rfl, rfl⟩, hprop,
    fun _ => rfl, hfault, ?_⟩
  intro fuel
  match fuel with
  | 0 => rfl
  | 1 => rfl
  | 2 => rfl
  | n + 3 => rw [hfault (n + 3) (by omega)]; rfl

/-! ## ripup: the propagation loop -/

/-- C22 (the code at the failing input): on the ring of contact 1 of
`scenarioBranch`, which holds, apart from the segment 0 the loop comes from,
the segment 1 and the contact 3, the hook loop of `ripup` ends with
`slaveCount = 1` in either order of visit, because a component that is neither
a routing pad nor a segment is not counted; `connected` is the segment 1 when
the contact is visited before it (the propagation goes on through a contact
with two slaves) and null when it is visited after it (the contact is
recorded as a boundary anchor). -/
theorem ripupScan_depends_on_ring_order :
    scenarioBranch.ringOf 1 = [.segment 0, .segment 1, .component 3]
      ∧ AnabaticEngine.ripupScan scenarioBranch 1 0 [.segment 0, .segment 1, .component 3] none 0
          = (none, 1)
      ∧ AnabaticEngine.ripupScan scenarioBranch 1 0 [.component 3, .segment 1, .segment 0] none 0
          = (some 1, 1)
      ∧ (AnabaticEngine.ripupPropagate scenarioBranch 5 [(0, some 1)] ⟨[0], none, none⟩).toOption
          = some ⟨[0], some 1, none⟩ := by
  decide

/-- On a ring whose components, the contact itself apart, are routing pads,
the hook loop of `ripup` counts every hook it does not skip and ends with the
last segment among them. -/
theorem ripupScan_eq (st : EngineState) (contact previous : Nat) :
    ∀ (ring : List RingItem) (connected : Option Nat) (slaveCount : Nat),
      (∀ c, RingItem.component c ∈ ring → c = contact
        ∨ (st.component c).map Component.kind = some ComponentKind.routingPad) →
      AnabaticEngine.ripupScan st contact previous ring connected slaveCount
        = (lastSegment (ringOthers contact previous ring) connected,
            slaveCount + (ringOthers contact previous ring).length)
  | [], _, _, _ => rfl
  | .component c :: rest, connected, slaveCount, h => by
    have ih := fun conn n => ripupScan_eq st contact previous rest conn n
      (fun x hx => h x (List.mem_cons_of_mem _ hx))
    by_cases hc : c = contact
    · subst hc
      simp only [AnabaticEngine.ripupScan, if_true, ih, ringOthers, List.filter_cons]
      simp
    · have hpad : (st.component c).map Component.kind = some ComponentKind.routingPad := by
        rcases h c (List.mem_cons_self _ _) with h1 | h1
        · exact absurd h1 hc
        · exact h1
      simp only [AnabaticEngine.ripupScan, hc, if_false, hpad, if_true, ih, ringOthers,
        List.filter_cons]
      simp only [ne_eq, reduceCtorEq, not_false_eq_true, RingItem.component.injEq, hc, and_self,
        decide_True, if_true, lastSegment, List.length_cons]
      congr 1
      omega
  | .segment s :: rest, connected, slaveCount, h => by
    have ih := fun conn n => ripupScan_eq st contact previous rest conn n
      (fun x hx => h x (List.mem_cons_of_mem _ hx))
    by_cases hs : s = previous
    · subst hs
      simp only [AnabaticEngine.ripupScan, if_true, ih, ringOthers, List.filter_cons]
      simp
    · simp only [AnabaticEngine.ripupScan, hs, if_false, ih, ringOthers, List.filter_cons]
      simp only [ne_eq, RingItem.segment.injEq, hs, not_false_eq_true, reduceCtorEq, and_self,
        decide_True, if_true, lastSegment, List.length_cons]
      congr 1
      omega

/-- On a ring whose components, the contact itself apart, are routing pads,
the propagation of `ripup` goes on through the contact, to the segment `s`,
exactly when the ring holds, apart from the contact and from the segment the
loop comes from, the one hook of `s`; this does not depend on the order of the
ring. -/
theorem ripupScan_continues_iff (st : EngineState) (contact previous : Nat)
    (ring : List RingItem) (s : Nat)
    (hpads : ∀ c, RingItem.component c ∈ ring → c = contact
      ∨ (st.component c).map Component.kind = some ComponentKind.routingPad) :
    (AnabaticEngine.ripupScan st contact previous ring none 0 = (some s, 1)
        ↔ ringOthers contact previous ring = [.segment s])
      ∧ ∀ ring' : List RingItem, ring'.Perm ring →
          (AnabaticEngine.ripupScan st contact previous ring' none 0 = (some s, 1)
            ↔ AnabaticEngine.ripupScan st contact previous ring none 0 = (some s, 1)) := by
  have hiff : ∀ l : List RingItem,
      (∀ c, RingItem.component c ∈ l → c = contact
        ∨ (st.component c).map Component.kind = some ComponentKind.routingPad) →
      (AnabaticEngine.ripupScan st contact previous l none 0 = (some s, 1)
        ↔ ringOthers contact previous l = [.segment s]) := by
    intro l hl
    rw [ripupScan_eq st contact previous l none 0 hl]
    constructor
    · intro h
      have h1 := congrArg Prod.fst h
      have h2 := congrArg Prod.snd h
      simp only [Nat.zero_add] at h1 h2
      obtain ⟨x, hx⟩ := List.length_eq_one.1 h2
      rw [hx] at h1 ⊢
      cases x with
      | segment t =>
        simp only [lastSegment, Option.some.injEq] at h1
        rw [h1]
      | component c => simp [lastSegment] at h1
    · intro h
      rw [h]
      rfl
  refine ⟨hiff ring hpads, ?_⟩
  intro ring' hperm
  rw [hiff ring hpads, hiff ring' (fun c hc => hpads c (hperm.mem_iff.1 hc))]
  have hfilter : (ringOthers contact previous ring').Perm (ringOthers contact previous ring) :=
    hperm.filter _
  constructor
  · intro h
    rw [h] at hfilter
    exact List.perm_singleton.1 hfilter.symm
  · intro h
    rw [h] at hfilter
    exact List.perm_singleton.1 hfilter

/-! ## Look-up tables: the guards of `_link` and `_unlink` -/

theorem Lut.find_erase {α : Type} (key key' : Nat) :
    ∀ lut : Lut α, Lut.find (Lut.erase lut key) key'
      = if key' = key then none else Lut.find lut key'
  | [] => by simp [Lut.find, Lut.erase, List.lookup]
  | (k, v) :: rest => by
    have ih := Lut.find_erase key key' rest
    simp only [Lut.find, Lut.erase] at ih ⊢
    by_cases hk : k = key
    · subst hk
      simp only [List.filter_cons, bne_self_eq_false, Bool.false_eq_true, if_false, ih]
      by_cases hk' : key' = k
      · simp [hk']
      · have hb : (key' == k) = false := by simpa using hk'
        simp [hk', List.lookup, hb]
    · have hne : (k != key) = true := by simpa using hk
      simp only [List.filter_cons, hne, if_true]
      by_cases hk' : key' = k
      · subst hk'
        simp [List.lookup, hk]
      · have hb : (key' == k) = false := by simpa using hk'
        simp only [List.lookup, hb, ih]

theorem Lut.find_assign {α : Type} (lut : Lut α) (key key' : Nat) (value : α) :
    Lut.find (Lut.assign lut key value) key'
      = if key' = key then some value else Lut.find lut key' := by
  have h := Lut.find_erase key key' lut
  simp only [Lut.find, Lut.assign] at h ⊢
  by_cases hk : key' = key
  · subst hk
    simp [List.lookup]
  · have hb : (key' == key) = false := by simpa using hk
    simp only [List.lookup, hb, h, hk, if_false]

/-- C23: `_link(autoSegment)` and `_link(autoContact)` return the engine as it
is when `state > Active` and otherwise change only their table, which then
maps the base to the wrapper and every other key as before;
`_unlink(autoSegment)` returns the engine as it is when `state > Driving` and
otherwise changes only `autoSegmentLut`, which then has no entry for the base
and every other key as before; neither `_link(autoContact)` nor
`_unlink(autoContact)` touches `autoSegmentLut`.  So, in every state, a
segment table whose entries are keyed by the base of their wrapper stays so
under each of the four methods. -/
theorem link_unlink_guards (e : AnabaticEngine) (autoSegment : AutoSegment)
    (autoContact : AutoContact) :
    (e._state > .EngineActive →
        e._linkSegment autoSegment = e ∧ e._linkContact autoContact = e)
      ∧ (¬ e._state > .EngineActive →
          (e._linkSegment autoSegment
              = { e with _autoSegmentLut := (e._linkSegment autoSegment)._autoSegmentLut }
            ∧ ∀ key, (e._linkSegment autoSegment)._autoSegmentLut.find key
                = if key = autoSegment.base then some autoSegment
                  else e._autoSegmentLut.find key)
          ∧ (e._linkContact autoContact
              = { e with _autoContactLut := (e._linkContact autoContact)._autoContactLut }
            ∧ ∀ key, (e._linkContact autoContact)._autoContactLut.find key
                = if key = autoContact.base then some autoContact
                  else e._autoContactLut.find key))
      ∧ (e._state > .EngineDriving → e._unlinkSegment autoSegment = e)
      ∧ (¬ e._state > .EngineDriving →
          e._unlinkSegment autoSegment
              = { e with _autoSegmentLut := (e._unlinkSegment autoSegment)._autoSegmentLut }
            ∧ ∀ key, (e._unlinkSegment autoSegment)._autoSegmentLut.find key
                = if key = autoSegment.base then none else e._autoSegmentLut.find key)
      ∧ ((e._linkContact autoContact)._autoSegmentLut = e._autoSegmentLut
          ∧ (e._unlinkContact autoContact)._autoSegmentLut = e._autoSegmentLut)
      ∧ (AutoSegmentLutOk e._autoSegmentLut →
          AutoSegmentLutOk (e._linkSegment autoSegment)._autoSegmentLut
            ∧ AutoSegmentLutOk (e._unlinkSegment autoSegment)._autoSegmentLut
            ∧ AutoSegmentLutOk (e._linkContact autoContact)._autoSegmentLut
            ∧ AutoSegmentLutOk (e._unlinkContact autoContact)._autoSegmentLut)
      ∧ (AutoContactLutOk e._autoContactLut →
          AutoContactLutOk (e._linkContact autoContact)._autoContactLut
            ∧ AutoContactLutOk (e._unlinkContact autoContact)._autoContactLut
            ∧ AutoContactLutOk (e._linkSegment autoSegment)._autoContactLut
            ∧ AutoContactLutOk (e._unlinkSegment autoSegment)._autoContactLut) := by
  have hlinkS : ∀ key, (e._linkSegment autoSegment)._autoSegmentLut.find key
      = if e._state > .EngineActive then e._autoSegmentLut.find key
        else if key = autoSegment.base then some autoSegment else e._autoSegmentLut.find key := by
    intro key
    simp only [AnabaticEngine._linkSegment]
    split
    · rfl
    · exact Lut.find_assign _ _ _ _
  have hlinkC : ∀ key, (e._linkContact autoContact)._autoContactLut.find key
      = if e._state > .EngineActive then e._autoContactLut.find key
        else if key = autoContact.base then some autoContact else e._autoContactLut.find key := by
    intro key
    simp only [AnabaticEngine._linkContact]
    split
    · rfl
    · exact Lut.find_assign _ _ _ _
  have hunlinkS : ∀ key, (e._unlinkSegment autoSegment)._autoSegmentLut.find key
      = if e._state > .EngineDriving then e._autoSegmentLut.find key
        else if key = autoSegment.base then none else e._autoSegmentLut.find key := by
    intro key
    simp only [AnabaticEngine._unlinkSegment]
    split
    · rfl
    · exact Lut.find_erase _ _ _
  have hunlinkC : ∀ key, (e._unlinkContact autoContact)._autoContactLut.find key
      = if e._state > .EngineActive then e._autoContactLut.find key
        else if key = autoContact.base then none else e._autoContactLut.find key := by
    intro key
    simp only [AnabaticEngine._unlinkContact]
    split
    · rfl
    · exact Lut.find_erase _ _ _
  have hframeLC : (e._linkContact autoContact)._autoSegmentLut = e._autoSegmentLut := by
    simp only [AnabaticEngine._linkContact]
    split <;> rfl
  have hframeUC : (e._unlinkContact autoContact)._autoSegmentLut = e._autoSegmentLut := by
    simp only [AnabaticEngine._unlinkContact]
    split <;> rfl
  have hframeLS : (e._linkSegment autoSegment)._autoContactLut = e._autoContactLut := by
    simp only [AnabaticEngine._linkSegment]
    split <;> rfl
  have hframeUS : (e._unlinkSegment autoSegment)._autoContactLut = e._autoContactLut := by
    simp only [AnabaticEngine._unlinkSegment]
    split <;> rfl
  refine ⟨?_, ?_, ?_, ?_, ⟨hframeLC, hframeUC⟩, ?_, ?_⟩
  · intro h
    simp [AnabaticEngine._linkSegment, AnabaticEngine._linkContact, h]
  · intro h
    refine ⟨⟨?_, fun key => ?_⟩, ?_, fun key => ?_⟩
    · simp [AnabaticEngine._linkSegment, h]
    · rw [hlinkS key, if_neg h]
    · simp [AnabaticEngine._linkContact, h]
    · rw [hlinkC key, if_neg h]
  · intro h
    simp [AnabaticEngine._unlinkSegment, h]
  · intro h
    refine ⟨?_, fun key => ?_⟩
    · simp [AnabaticEngine._unlinkSegment, h]
    · rw [hunlinkS key, if_neg h]
  · intro hok
    refine ⟨?_, ?_, ?_, ?_⟩
    · intro key a hfind
      rw [hlinkS key] at hfind
      split at hfind
      · exact hok key a hfind
      · split at hfind
        · rename_i hk
          cases hfind
          exact hk.symm
        · exact hok key a hfind
    · intro key a hfind
      rw [hunlinkS key] at hfind
      split at hfind
      · exact hok key a hfind
      · split at hfind
        · cases hfind
        · exact hok key a hfind
    · rw [hframeLC]
      exact hok
    · rw [hframeUC]
      exact hok
  · intro hok
    refine ⟨?_, ?_, ?_, ?_⟩
    · intro key a hfind
      rw [hlinkC key] at hfind
      split at hfind
      · exact hok key a hfind
      · split at hfind
        · rename_i hk
          cases hfind
          exact hk.symm
        · exact hok key a hfind
    · intro key a hfind
      rw [hunlinkC key] at hfind
      split at hfind
      · exact hok key a hfind
      · split at hfind
        · cases hfind
        · exact hok key a hfind
    · rw [hframeLS]
      exact hok
    · rw [hframeUS]
      exact hok

/-! ## ripup: the destruction loop -/

/-- C24 (the code at the failing input): under the vertical segment along the
west side of the abutment box, from `(0,30)` to `(0,250)`, and under the
horizontal segment beyond its east side, the index returns an empty tile
sequence; `ripup`, with or without `Propagate`, skips the edge loop, which is
guarded by `not gcells->empty()`, destroys the segment and then evaluates
`gcellAt(0)` on the empty sequence. -/
theorem ripup_indexes_empty_sequence :
    (RawGCellsUnder.RawGCellsUnder 5 (gridMesh 10 10 100)
        (scenarioWestSide.geom ⟨.vertical, 1, some 0, some 1, 0⟩)
          = .ok ⟨[], some .outsideArea⟩
      ∧ RawGCellsUnder.RawGCellsUnder 5 (gridMesh 10 10 100)
          (scenarioBeyond.geom ⟨.horizontal, 1, some 0, some 1, 50⟩)
            = .ok ⟨[], some .outsideArea⟩)
      ∧ AnabaticEngine.ripup 5 (gridMesh 10 10 100) sparsityOf (fun _ => ⟨false⟩)
          (fun _ => scenarioNet1) AnabaticEngine.init scenarioWestSide 0 false
            = .error .outOfRange
      ∧ AnabaticEngine.ripup 5 (gridMesh 10 10 100) sparsityOf (fun _ => ⟨false⟩)
          (fun _ => scenarioNet1) AnabaticEngine.init scenarioWestSide 0 true
            = .error .outOfRange
      ∧ AnabaticEngine.ripup 5 (gridMesh 10 10 100) sparsityOf (fun _ => ⟨false⟩)
          (fun _ => scenarioNet1) AnabaticEngine.init scenarioBeyond 0 false
            = .error .outOfRange
      ∧ AnabaticEngine.ripup 5 (gridMesh 10 10 100) sparsityOf (fun _ => ⟨false⟩)
          (fun _ => scenarioNet1) AnabaticEngine.init scenarioBeyond 0 true
            = .error .outOfRange :=
  ⟨⟨rfl, rfl⟩, rfl, rfl, rfl, rfl⟩

/-- Two iterations of the propagation loop on the cycle of `scenarioCycle`,
entered from segment 0 through contact 1: segment 1 and then segment 0 are
appended to `ripups`, and the top of the stack is what it was. -/
theorem ripupPropagate_cycle_step (fuel : Nat) (stack : List (Nat × Option Nat))
    (search : RipupSearch) :
    AnabaticEngine.ripupPropagate scenarioCycle (fuel + 2) ((0, some 1) :: stack) search
      = AnabaticEngine.ripupPropagate scenarioCycle fuel ((0, some 1) :: stack)
          { search with ripups := search.ripups ++ [1, 0] } := by
  have h1 : AnabaticEngine.ripupPropagate scenarioCycle (fuel + 1 + 1) ((0, some 1) :: stack)
      search = AnabaticEngine.ripupPropagate scenarioCycle (fuel + 1) ((1, some 0) :: stack)
        { search with ripups := search.ripups ++ [1] } := by
    rw [ripupPropagate_step scenarioCycle (fuel + 1) 0 1 stack search ⟨.contact, 1, 250, 50⟩
      rfl rfl]
    rfl
  have h2 : AnabaticEngine.ripupPropagate scenarioCycle (fuel + 1) ((1, some 0) :: stack)
      { search with ripups := search.ripups ++ [1] }
        = AnabaticEngine.ripupPropagate scenarioCycle fuel ((0, some 1) :: stack)
          { search with ripups := search.ripups ++ [1] ++ [0] } := by
    rw [ripupPropagate_step scenarioCycle fuel 1 0 stack _ ⟨.contact, 1, 50, 50⟩ rfl rfl]
    rfl
  rw [show fuel + 2 = fuel + 1 + 1 from rfl, h1, h2]
  simp only [List.append_assoc, List.singleton_append]

theorem ripupPropagate_cycle_loops :
    ∀ (n fuel : Nat) (stack : List (Nat × Option Nat)) (search : RipupSearch), fuel ≤ n →
      AnabaticEngine.ripupPropagate scenarioCycle fuel ((0, some 1) :: stack) search
        = .error .outOfFuel
  | _, 0, _, _, _ => rfl
  | _, 1, stack, search, _ => by
    rw [ripupPropagate_step scenarioCycle 0 0 1 stack search ⟨.contact, 1, 250, 50⟩ rfl rfl]
    rfl
  | 0, fuel + 2, _, _, h => absurd h (by omega)
  | n + 1, fuel + 2, stack, search, h => by
    rw [ripupPropagate_cycle_step]
    exact ripupPropagate_cycle_loops n fuel stack _ (by omega)

/-- C25 (the code at the failing input): on the two segments of
`scenarioCycle`, which join the same two degree-2 contacts, the propagation
loop of `ripup(segment 0, Propagate)` is back, every two iterations, to the
stack it started from, `ripups` having grown by segment 1 and by segment 0,
which it already holds; it never leaves the loop: whatever the fuel, the
propagation and `ripup` run out of it. -/
theorem ripup_cycle_never_returns :
    (∀ (fuel : Nat) (stack : List (Nat × Option Nat)) (search : RipupSearch),
        AnabaticEngine.ripupPropagate scenarioCycle (fuel + 2) ((0, some 1) :: stack) search
          = AnabaticEngine.ripupPropagate scenarioCycle fuel ((0, some 1) :: stack)
              { search with ripups := search.ripups ++ [1, 0] })
      ∧ (∀ fuel, AnabaticEngine.ripupPropagate scenarioCycle fuel [(0, some 1), (0, some 0)]
          ⟨[0], none, none⟩ = .error .outOfFuel)
      ∧ ∀ (fuel : Nat) (m : Mesh) (update : Box → Nat → Int)
          (createState : Net → NetRoutingState) (nets : Nat → Net) (e : AnabaticEngine),
          AnabaticEngine.ripup fuel m update createState nets e scenarioCycle 0 true
            = .error .outOfFuel := by
  refine ⟨ripupPropagate_cycle_step, ?_, ?_⟩
  · intro fuel
    exact ripupPropagate_cycle_loops fuel fuel _ _ (le_refl _)
  · intro fuel m update createState nets e
    have h := ripupPropagate_cycle_loops fuel fuel [(0, some 0)] ⟨[0], none, none⟩ (le_refl _)
    have hseed : scenarioCycle.segment 0 = some ⟨.horizontal, 1, some 0, some 1, 50⟩ := rfl
    simp only [AnabaticEngine.ripup, hseed, if_true, h]

/-- C26 (the code at the failing input): for the westward segment of
`scenario2West`, whose source is contact 1 under tile 2 and whose target is
contact 0 under tile 0, the index lists the tiles eastward, so `gcellAt(0)`
is tile 0 and `gcellAt(size-1)` tile 2: `ripup` invokes
`unrefContact(source)` on tile 0 and `unrefContact(target)` on tile 2, the
tiles of the other end.  Neither tile holds the contact it is given: both
contacts keep their reference count and outlive the segment, whereas on the
eastward segment of scenario 2 both counts reach zero and both contacts are
destroyed. -/
theorem ripup_westward_unrefs_swapped_tiles :
    ((scenario2West.segment 0 = some ⟨.horizontal, 1, some 1, some 0, 50⟩
        ∧ (gridMesh 10 10 100).getGCellUnder 250 50 = some 2
        ∧ (gridMesh 10 10 100).getGCellUnder 50 50 = some 0)
      ∧ (RawGCellsUnder.RawGCellsUnder 5 (gridMesh 10 10 100)
          (scenario2West.geom ⟨.horizontal, 1, some 1, some 0, 50⟩)).toOption.map
            (fun g => (g.elements.head?.map Element.gcell,
              g.elements.getLast?.map Element.gcell)) = some (some 0, some 2))
      ∧ (AnabaticEngine.ripup 5 (gridMesh 10 10 100) sparsityOf (fun _ => ⟨false⟩)
          (fun _ => scenarioNet1) AnabaticEngine.init scenario2West 0 false).toOption.map
            (fun r => (r.2.segments, r.2.components, r.2.refCount 0, r.2.refCount 1,
              r.2.gcontacts 0, r.2.gcontacts 2))
          = some ([none], [some ⟨.contact, 1, 50, 50⟩, some ⟨.contact, 1, 250, 50⟩], 1, 1,
              [0], [1])
      ∧ (AnabaticEngine.ripup 5 (gridMesh 10 10 100) sparsityOf (fun _ => ⟨false⟩)
          (fun _ => scenarioNet1) AnabaticEngine.init scenario2 0 false).toOption.map
            (fun r => (r.2.segments, r.2.components, r.2.refCount 0, r.2.refCount 1,
              r.2.gcontacts 0, r.2.gcontacts 2))
          = some ([none], [none, none], 0, 0, [], []) :=
  ⟨⟨⟨rfl, rfl, rfl⟩, rfl⟩, rfl, rfl⟩

/-! ## unify: the ends merged -/

/-- C27 (the code at the failing input): on the row of `scenarioJoin`,
`unify(contact 1)` merges the two segments and returns `true` in the four
combinations of ends.  When `a` ends and `b` starts on the contact, or `a`
starts and `b` ends on it, the kept segment joins contacts 0 and 2.  When both
have the contact as target, the kept segment `a` still runs from contact 0 to
contact 1; when both have it as source, the kept segment `b` runs from contact
1 to contact 0: in both cases it is still attached to the contact and one far
anchor is lost. -/
theorem unify_same_end_keeps_contact :
    ((AnabaticEngine.unify 5 (gridMesh 10 10 100)
        (scenarioJoin ⟨.horizontal, 1, some 0, some 1, 50⟩ ⟨.horizontal, 1, some 1, some 2, 50⟩)
        1).toOption.map (fun r => (r.1, r.2.segments))
          = some (true, [some ⟨.horizontal, 1, some 0, some 2, 50⟩, none])
      ∧ (AnabaticEngine.unify 5 (gridMesh 10 10 100)
        (scenarioJoin ⟨.horizontal, 1, some 1, some 0, 50⟩ ⟨.horizontal, 1, some 2, some 1, 50⟩)
        1).toOption.map (fun r => (r.1, r.2.segments))
          = some (true, [none, some ⟨.horizontal, 1, some 2, some 0, 50⟩]))
      ∧ (AnabaticEngine.unify 5 (gridMesh 10 10 100)
        (scenarioJoin ⟨.horizontal, 1, some 0, some 1, 50⟩ ⟨.horizontal, 1, some 2, some 1, 50⟩)
        1).toOption.map (fun r => (r.1, r.2.segments, r.2.ringOf 1, r.2.ringOf 2))
          = some (true, [some ⟨.horizontal, 1, some 0, some 1, 50⟩, none], [.segment 0], [])
      ∧ (AnabaticEngine.unify 5 (gridMesh 10 10 100)
        (scenarioJoin ⟨.horizontal, 1, some 1, some 0, 50⟩ ⟨.horizontal, 1, some 1, some 2, 50⟩)
        1).toOption.map (fun r => (r.1, r.2.segments, r.2.ringOf 1, r.2.ringOf 2))
          = some (true, [none, some ⟨.horizontal, 1, some 1, some 0, 50⟩], [.segment 1], []) :=
  ⟨⟨rfl, rfl⟩, rfl, rfl⟩

/-! ## The index on a mesh with a gap -/

/-- C29 (the code at the failing input): on the mesh in which tile 1 answers
no edge, for the segment `(50,50) → (250,50)`, whose end tiles 0 and 2
differ, the walk pushes tile 0 with its east edge, which enters tile 1, finds
no edge there, and the constructor still pushes `(tile 2, NULL)`: the result
has two elements and the tile of the second is not the target of the edge of
the first. -/
theorem RawGCellsUnder_gap_disconnected :
    gapMesh.getEdgeAt 1 .EastSide 50 = none
      ∧ RawGCellsUnder.RawGCellsUnder 5 gapMesh (.horizontal 50 50 250)
          = .ok ⟨[⟨0, some ⟨0, 0, 1⟩⟩, ⟨2, none⟩], none⟩
      ∧ ¬ Contiguous [⟨0, some ⟨0, 0, 1⟩⟩, ⟨2, none⟩] := by
  refine ⟨rfl, rfl, ?_⟩
  simp [Contiguous]

/-! ## Net records: the two containers -/

theorem Lut.find_append_of_some {α : Type} (lut extra : Lut α) (key : Nat) (value : α)
    (h : Lut.find lut key = some value) : Lut.find (lut ++ extra) key = some value := by
  simp only [Lut.find] at h ⊢
  induction lut with
  | nil => simp [List.lookup] at h
  | cons kv rest ih =>
    obtain ⟨k, v⟩ := kv
    by_cases hk : key = k
    · subst hk
      simpa [List.lookup] using h
    · have hb : (key == k) = false := by simpa using hk
      simp only [List.cons_append, List.lookup, hb] at h ⊢
      exact ih h

/-- The coherence of the net containers is kept when a new record is
registered for a net that has no entry. -/
theorem netTablesOk_register (update : Box → Nat → Int) (e : AnabaticEngine) (net : Net)
    (hok : e.NetTablesOk) (hfind : e._netDatas.find net.id = none) :
    AnabaticEngine.NetTablesOk
      { e with
        netDataPool := e.netDataPool ++ [NetData.create update net]
        _netDatas := e._netDatas ++ [(net.id, e.netDataPool.length)]
        _netOrdering := e._netOrdering ++ [e.netDataPool.length] } := by
  have hold : ∀ data, data < e.netDataPool.length →
      (e.netDataPool ++ [NetData.create update net])[data]? = e.netDataPool[data]? :=
    fun data h => List.getElem?_append_left h
  have hnew : (e.netDataPool ++ [NetData.create update net])[e.netDataPool.length]?
      = some (NetData.create update net) := by simp
  have hfindNew : Lut.find (e._netDatas ++ [(net.id, e.netDataPool.length)]) net.id
      = some e.netDataPool.length := by
    rw [← Lut.insert_of_find_none _ _ _ hfind]
    exact Lut.find_insert_self _ _ _ hfind
  constructor
  · intro data hdata
    simp only [List.mem_append, List.mem_singleton, List.length_append, List.length_singleton]
      at hdata ⊢
    rcases hdata with h | h
    · have := hok.ordering_live data h
      omega
    · omega
  · intro data hdata d hd
    simp only [List.mem_append, List.mem_singleton] at hdata
    simp only [AnabaticEngine.netData] at hd
    rcases hdata with h | h
    · have hlt := hok.ordering_live data h
      rw [hold data hlt] at hd
      exact Lut.find_append_of_some _ _ _ _ (hok.ordering_registered data h d hd)
    · subst h
      rw [hnew] at hd
      cases hd
      rw [NetData.create_net]
      exact hfindNew
  · simp only []
    rw [List.nodup_append]
    refine ⟨hok.ordering_nodup, List.nodup_singleton _, ?_⟩
    intro a ha hb
    rw [List.mem_singleton] at hb
    subst hb
    exact absurd (hok.ordering_live _ ha) (lt_irrefl _)
  · intro kv hkv
    simp only [List.mem_append, List.mem_singleton] at hkv ⊢
    rcases hkv with h | h
    · exact Or.inl (hok.datas_ordered kv h)
    · subst h
      exact Or.inr rfl
  · intro kv hkv d hd
    simp only [List.mem_append, List.mem_singleton] at hkv
    simp only [AnabaticEngine.netData] at hd
    rcases hkv with h | h
    · have hlt := hok.ordering_live kv.2 (hok.datas_ordered kv h)
      rw [hold kv.2 hlt] at hd
      exact hok.datas_keyed kv h d hd
    · subst h
      simp only [] at hd
      rw [hnew] at hd
      cases hd
      exact congrArg Net.id (NetData.create_net update net)
  · simp only [List.map_append, List.map_cons, List.map_nil]
    rw [List.nodup_append]
    refine ⟨hok.keys_nodup, List.nodup_singleton _, ?_⟩
    intro a ha hb
    rw [List.mem_singleton] at hb
    subst hb
    exact (Lut.find_eq_none_iff _ _).1 hfind ha

/-- The coherence of the net containers is kept when the routing state of a
record is set. -/
theorem netTablesOk_setState (e : AnabaticEngine) (data : Nat) (d : NetData)
    (state : Option NetRoutingState) (hok : e.NetTablesOk) (hd : e.netData data = some d) :
    AnabaticEngine.NetTablesOk
      { e with netDataPool := e.netDataPool.set data { d with state := state } } := by
  have hnet : ∀ (p : Nat) (x : NetData),
      (e.netDataPool.set data { d with state := state })[p]? = some x →
      ∃ y : NetData, e.netDataPool[p]? = some y ∧ y.net = x.net := by
    intro p x hx
    by_cases hp : p = data
    · subst hp
      have hlt : p < e.netDataPool.length := by
        by_contra hge
        have : e.netDataPool[p]? = none := List.getElem?_eq_none (by omega)
        simp [AnabaticEngine.netData, this] at hd
      rw [List.getElem?_set_self hlt] at hx
      cases hx
      exact ⟨d, hd, rfl⟩
    · rw [List.getElem?_set_ne (fun h => hp h.symm)] at hx
      exact ⟨x, hx, rfl⟩
  constructor
  · intro p hp
    simp only [List.length_set]
    exact hok.ordering_live p hp
  · intro p hp x hx
    obtain ⟨y, hy, hyx⟩ := hnet p x hx
    rw [← hyx]
    exact hok.ordering_registered p hp y hy
  · exact hok.ordering_nodup
  · exact hok.datas_ordered
  · intro kv hkv x hx
    obtain ⟨y, hy, hyx⟩ := hnet kv.2 x hx
    rw [← hyx]
    exact hok.datas_keyed kv hkv y hy
  · exact hok.keys_nodup

/-- The coherence of the net containers is kept by `getNetData`. -/
theorem getNetData_tables (update : Box → Nat → Int) (createState : Net → NetRoutingState)
    (e : AnabaticEngine) (net : Net) (create : Bool) (hok : e.NetTablesOk) :
    (e.getNetData update createState net create).2.NetTablesOk := by
  have hsecond : ∀ (e1 : AnabaticEngine) (data : Nat), e1.NetTablesOk →
      AnabaticEngine.NetTablesOk
        (match e1.netData data with
          | some d =>
            if create ∧ d.state = none then
              (data, { e1 with netDataPool :=
                         e1.netDataPool.set data { d with state := some (createState net) } })
            else (data, e1)
          | none => (data, e1)).2 := by
    intro e1 data h1
    cases hd : e1.netData data with
    | none => exact h1
    | some d =>
      simp only []
      split
      · exact netTablesOk_setState e1 data d _ h1 hd
      · exact h1
  cases hfind : e._netDatas.find net.id with
  | some data =>
    simp only [AnabaticEngine.getNetData, hfind]
    exact hsecond e data hok
  | none =>
    simp only [AnabaticEngine.getNetData, hfind, AnabaticEngine.newNetData,
      Lut.insert_of_find_none _ _ _ hfind]
    exact hsecond _ _ (netTablesOk_register update e net hok hfind)

/-- Coherent net containers hold the same records, each once. -/
theorem netTablesOk_same_objects (e : AnabaticEngine) (hok : e.NetTablesOk) :
    (e._netDatas.map Prod.snd).Perm e._netOrdering
      ∧ e._netOrdering.length = e._netDatas.length
      ∧ ∀ data ∈ e._netOrdering, ∃ d, e.netData data = some d
          ∧ e._netOrdering.count data = 1
          ∧ (e._netDatas.map Prod.snd).count data = 1
          ∧ e._netDatas.find d.net.id = some data
          ∧ (e._netDatas.map Prod.fst).count d.net.id = 1 := by
  have hlive : ∀ data ∈ e._netOrdering, e.netData data = some (e.netDataPool.getD data default) := by
    intro data h
    have hlt := hok.ordering_live data h
    simp [AnabaticEngine.netData, List.getD, List.getElem?_eq_getElem hlt]
  have hinj : ∀ kv ∈ e._netDatas, ∀ kv' ∈ e._netDatas, kv.2 = kv'.2 → kv = kv' := by
    intro kv hkv kv' hkv' heq
    have h1 := hok.datas_keyed kv hkv _ (hlive kv.2 (hok.datas_ordered kv hkv))
    have h2 := hok.datas_keyed kv' hkv' _ (hlive kv'.2 (hok.datas_ordered kv' hkv'))
    rw [heq] at h1
    exact Prod.ext (h1.symm.trans h2) heq
  have hnd : (e._netDatas.map Prod.snd).Nodup :=
    List.Nodup.map_on hinj (List.Nodup.of_map _ hok.keys_nodup)
  have hmem : ∀ data, data ∈ e._netDatas.map Prod.snd ↔ data ∈ e._netOrdering := by
    intro data
    constructor
    · intro h
      obtain ⟨kv, hkv, rfl⟩ := List.mem_map.1 h
      exact hok.datas_ordered kv hkv
    · intro h
      have hreg := hok.ordering_registered data h _ (hlive data h)
      exact List.mem_map.2 ⟨_, Lut.mem_of_find _ _ _ hreg, rfl⟩
  have hperm : (e._netDatas.map Prod.snd).Perm e._netOrdering :=
    (List.perm_ext_iff_of_nodup hnd hok.ordering_nodup).2 hmem
  refine ⟨hperm, ?_, ?_⟩
  · rw [← List.Perm.length_eq hperm, List.length_map]
  · intro data h
    have hreg := hok.ordering_registered data h _ (hlive data h)
    refine ⟨_, hlive data h, List.count_eq_one_of_mem hok.ordering_nodup h,
      List.count_eq_one_of_mem hnd ((hmem data).2 h), hreg,
      List.count_eq_one_of_mem hok.keys_nodup ?_⟩
    exact List.mem_map.2 ⟨_, Lut.mem_of_find _ _ _ hreg, rfl⟩

/-- The coherence of the net containers is kept by every sequence of calls. -/
theorem netCalls_tables (update : Box → Nat → Int) (createState : Net → NetRoutingState) :
    ∀ (calls : List NetCall) (e : AnabaticEngine), e.NetTablesOk →
      (∀ call ∈ calls, call.DistinctIds) →
      (calls.foldl (NetCall.run update createState) e).NetTablesOk
  | [], _, hok, _ => hok
  | call :: rest, e, hok, hids => by
    rw [List.foldl_cons]
    apply netCalls_tables update createState rest _ _
      (fun c hc => hids c (List.mem_cons_of_mem _ hc))
    have hcall := hids call (List.mem_cons_self _ _)
    cases call with
    | setupNetDatas cellNets => exact (setupNetDatas_tables update cellNets e hok hcall).1
    | getNetData net create => exact getNetData_tables update createState e net create hok

/-- C28: starting from an engine whose net containers are coherent (the
engine just built is), after any sequence of `setupNetDatas` calls, each on a
cell whose nets have distinct ids, and of `getNetData` calls, the pointers
held by `netDatas` are those of `netOrdering`, up to their order; the two
containers have the same size; and every record of `netOrdering` is live,
occurs once in `netOrdering` and once in `netDatas`, where it is the entry
found under the id of its net, a key that occurs once. -/
theorem netContainers_same_objects (update : Box → Nat → Int)
    (createState : Net → NetRoutingState) (calls : List NetCall) (e : AnabaticEngine)
    (hok : e.NetTablesOk) (hids : ∀ call ∈ calls, call.DistinctIds) :
    ((calls.foldl (NetCall.run update createState) e)._netDatas.map Prod.snd).Perm
        (calls.foldl (NetCall.run update createState) e)._netOrdering
      ∧ (calls.foldl (NetCall.run update createState) e)._netOrdering.length
          = (calls.foldl (NetCall.run update createState) e)._netDatas.length
      ∧ ∀ data ∈ (calls.foldl (NetCall.run update createState) e)._netOrdering,
          ∃ d, (calls.foldl (NetCall.run update createState) e).netData data = some d
            ∧ (calls.foldl (NetCall.run update createState) e)._netOrdering.count data = 1
            ∧ ((calls.foldl (NetCall.run update createState) e)._netDatas.map Prod.snd).count
                data = 1
            ∧ (calls.foldl (NetCall.run update createState) e)._netDatas.find d.net.id
                = some data
            ∧ ((calls.foldl (NetCall.run update createState) e)._netDatas.map Prod.fst).count
                d.net.id = 1 :=
  netTablesOk_same_objects _ (netCalls_tables update createState calls e hok hids)

/-- Witness of C28: on the engine just built, `setupNetDatas` on the three
nets of scenario 5, `getNetData` on a net 7 that has no record and on net 1
that has one, and `setupNetDatas` again on a cell with one more net. -/
theorem netContainers_same_objects_witness :
    ((([NetCall.setupNetDatas scenario5Nets, .getNetData ⟨7, [], none⟩ true,
          .getNetData scenarioNet1 false,
          .setupNetDatas (⟨9, [], none⟩ :: scenario5Nets)].foldl
        (NetCall.run sparsityOf (fun _ => ⟨false⟩)) AnabaticEngine.init)._netDatas.map
          Prod.snd).Perm
        ([NetCall.setupNetDatas scenario5Nets, .getNetData ⟨7, [], none⟩ true,
          .getNetData scenarioNet1 false,
          .setupNetDatas (⟨9, [], none⟩ :: scenario5Nets)].foldl
        (NetCall.run sparsityOf (fun _ => ⟨false⟩)) AnabaticEngine.init)._netOrdering)
      ∧ ([NetCall.setupNetDatas scenario5Nets, .getNetData ⟨7, [], none⟩ true,
          .getNetData scenarioNet1 false,
          .setupNetDatas (⟨9, [], none⟩ :: scenario5Nets)].foldl
        (NetCall.run sparsityOf (fun _ => ⟨false⟩)) AnabaticEngine.init)._netOrdering.length
          = 5 :=
  ⟨(netContainers_same_objects sparsityOf (fun _ => ⟨false⟩)
      [NetCall.setupNetDatas scenario5Nets, .getNetData ⟨7, [], none⟩ true,
        .getNetData scenarioNet1 false, .setupNetDatas (⟨9, [], none⟩ :: scenario5Nets)]
      AnabaticEngine.init
      ⟨by simp [AnabaticEngine.init], by simp [AnabaticEngine.init],
        by simp [AnabaticEngine.init], by simp [AnabaticEngine.init],
        by simp [AnabaticEngine.init], by simp [AnabaticEngine.init]⟩ (by decide)).1,
    by decide⟩

/-! ## DbU -/

theorem roundHalfEven_intCast (n : ℤ) : roundHalfEven (n : ℚ) = n := by
  simp [roundHalfEven]

theorem roundHalfEven_eq_self_iff (q : ℚ) : ((roundHalfEven q : ℤ) : ℚ) = q ↔ ∃ n : ℤ, q = n := by
  constructor
  · intro h
    exact ⟨roundHalfEven q, h.symm⟩
  · rintro ⟨n, rfl⟩
    rw [roundHalfEven_intCast]

theorem roundHalfEven_half_even (k : ℤ) : roundHalfEven (((2 * k : ℤ) : ℚ) / 2) = k := by
  have h : (((2 * k : ℤ) : ℚ) / 2) = (k : ℚ) := by
    push_cast
    ring
  rw [h, roundHalfEven_intCast]

theorem roundHalfEven_half_odd (k : ℤ) :
    roundHalfEven (((2 * k + 1 : ℤ) : ℚ) / 2) = k
      ∨ roundHalfEven (((2 * k + 1 : ℤ) : ℚ) / 2) = k + 1 := by
  have h : (((2 * k + 1 : ℤ) : ℚ) / 2) = (k : ℚ) + 1 / 2 := by
    push_cast
    ring
  have hfloor : ⌊(k : ℚ) + 1 / 2⌋ = k := by
    rw [Int.floor_eq_iff]
    constructor <;> linarith
  rw [h]
  simp only [roundHalfEven, hfloor, add_sub_cancel_left, lt_self_iff_false, if_false]
  split
  · exact Or.inl rfl
  · exact Or.inr rfl

/-- The test of lines 145-146 passes exactly on the even integers. -/
theorem setGridsPerLambda_accepts_iff (dbu : DbU) (g : Double) :
    (dbu.setGridsPerLambda g).1 = false ↔ ∃ k : ℤ, g = .finite ((2 * k : ℤ) : ℚ) := by
  cases g with
  | posInf => simp [DbU.setGridsPerLambda, Double.rint, Double.remainder, Double.ne]
  | negInf => simp [DbU.setGridsPerLambda, Double.rint, Double.remainder, Double.ne]
  | nan => simp [DbU.setGridsPerLambda, Double.rint, Double.remainder, Double.ne]
  | finite q =>
    have hne : ∀ a b : ℚ, Double.ne (.finite a) (.finite b) = decide (a ≠ b) := by
      intro a b
      simp [Double.ne]
    have hacc : (dbu.setGridsPerLambda (.finite q)).1 = false
        ↔ ((roundHalfEven q : ℤ) : ℚ) = q ∧ q - roundHalfEven (q / 2) * 2 = 0 := by
      simp only [DbU.setGridsPerLambda, Double.rint, Double.remainder, hne]
      have h2 : (2 : ℚ) ≠ 0 := by norm_num
      simp only [h2, if_false, hne]
      by_cases h1 : ((roundHalfEven q : ℤ) : ℚ) = q <;>
        by_cases h3 : q - roundHalfEven (q / 2) * 2 = 0 <;> simp [h1, h3]
    rw [hacc]
    constructor
    · rintro ⟨hint, hrem⟩
      obtain ⟨n, rfl⟩ := (roundHalfEven_eq_self_iff q).1 hint
      rcases Int.even_or_odd' n with ⟨k, hk | hk⟩
      · exact ⟨k, by rw [hk]⟩
      · exfalso
        subst hk
        rcases roundHalfEven_half_odd k with h | h
        · rw [h] at hrem
          push_cast at hrem
          linarith
        · rw [h] at hrem
          push_cast at hrem
          linarith
    · rintro ⟨k, hk⟩
      injection hk with hk
      subst hk
      refine ⟨by rw [roundHalfEven_intCast], ?_⟩
      rw [roundHalfEven_half_even]
      push_cast
      ring

/-- C21 (counterexample): zero and `-2` are not positive, yet
`setGridsPerLambda` throws on neither and stores them. -/
theorem setGridsPerLambda_accepts_zero_and_negative :
    DbU.init.setGridsPerLambda (.finite 0) = (false, { DbU.init with _gridsPerLambda := .finite 0 })
      ∧ DbU.init.setGridsPerLambda (.finite (-2))
          = (false, { DbU.init with _gridsPerLambda := .finite (-2) }) := by
  have h0 : (DbU.init.setGridsPerLambda (.finite 0)).1 = false :=
    (setGridsPerLambda_accepts_iff DbU.init (.finite 0)).2 ⟨0, by norm_num⟩
  have h2 : (DbU.init.setGridsPerLambda (.finite (-2))).1 = false :=
    (setGridsPerLambda_accepts_iff DbU.init (.finite (-2))).2 ⟨-1, by norm_num⟩
  constructor
  · simp only [DbU.setGridsPerLambda] at h0 ⊢
    split
    · rename_i h
      simp [h] at h0
    · rfl
  · simp only [DbU.setGridsPerLambda] at h2 ⊢
    split
    · rename_i h
      simp [h] at h2
    · rfl

/-- C21 (amended): `setGridsPerLambda(v)` accepts `v` exactly when `v` is an
even integer, of any sign; it then sets `gridsPerLambda = v` and nothing else;
for every other value (a non-integer, an odd integer, an infinity, a NaN) it
throws and leaves the configuration as it was. -/
theorem setGridsPerLambda_even_integers (dbu : DbU) (g : Double) :
    ((dbu.setGridsPerLambda g).1 = false ↔ ∃ k : ℤ, g = .finite ((2 * k : ℤ) : ℚ))
      ∧ ((dbu.setGridsPerLambda g).1 = false →
          (dbu.setGridsPerLambda g).2 = { dbu with _gridsPerLambda := g })
      ∧ ((dbu.setGridsPerLambda g).1 = true → (dbu.setGridsPerLambda g).2 = dbu) := by
  refine ⟨setGridsPerLambda_accepts_iff dbu g, ?_, ?_⟩
  · intro h
    simp only [DbU.setGridsPerLambda] at h ⊢
    split
    · rename_i hc
      simp [hc] at h
    · rfl
  · intro h
    simp only [DbU.setGridsPerLambda] at h ⊢
    split
    · rfl
    · rename_i hc
      simp [hc] at h

/-! ### getValueString -/

/-- C30 (the code at the failing input): in Db mode `getValueString` gives
`"0u"` for 0 and `"123u"` for 123, but the loop that strips trailing zeros and
dots, written for the `"%.1f"` texts of the other modes, also runs on the
`"%ld"` text: 100, 10 and 1 all give `"1u"`, and `-1200` gives `"-12u"`. -/
theorem getValueString_strips_integer_zeros (formatGrid formatLambda : Int → List Char) :
    DbU.getValueString formatGrid formatLambda .Db 0 = "0u".data
      ∧ DbU.getValueString formatGrid formatLambda .Db 123 = "123u".data
      ∧ DbU.getValueString formatGrid formatLambda .Db 100 = "1u".data
      ∧ DbU.getValueString formatGrid formatLambda .Db 10 = "1u".data
      ∧ DbU.getValueString formatGrid formatLambda .Db 1 = "1u".data
      ∧ DbU.getValueString formatGrid formatLambda .Db (-1200) = "-12u".data :=
  ⟨rfl, rfl, rfl, rfl, rfl, rfl⟩

end Anabatic
